import Mathlib

/-! # Sentinel front end: cache invalidation and payload construction

A shallow embedding of the mutation and query declarations, query keys, submit
handlers, interceptors and view computations of the Sentinel front end
(`src/frontend/src`), together with the properties of their cache-invalidation
discipline and of the values they send and display.

JavaScript objects are association lists in insertion order, React state
setters and cache-client calls are explicit effects, and a mutation is the
pair of its `onSuccess` and `onError` callbacks. Of the language itself the
file models what the code under study relies on: `Date` over an arbitrary time
zone, numbers as IEEE 754 doubles, and the prototype of an object literal.
-/

namespace Sentinel

/-! ## JavaScript values and objects -/

/-- JavaScript values that occur in query keys, form state and payloads. -/
inductive Val where
  | str (s : String)
  | num (n : Int)
  | bool (b : Bool)
  | null
  | undefined
  deriving DecidableEq, Repr

/-- JavaScript truthiness, as tested by `!x` and `x || y`. -/
def Val.truthy : Val → Bool
  | .str s => s != ""
  | .num n => n != 0
  | .bool b => b
  | .null => false
  | .undefined => false

/-- String conversion of a value inside a template literal. -/
def Val.toStr : Val → String
  | .str s => s
  | .num n => toString n
  | .bool b => if b then "true" else "false"
  | .null => "null"
  | .undefined => "undefined"

/-- A plain JavaScript object: its own keys in insertion order. -/
abbrev Obj := List (String × Val)

/-- Property read `o[k]`; a missing key reads as `undefined`. -/
def Obj.get (o : Obj) (k : String) : Val :=
  match o.find? (fun kv => kv.1 == k) with
  | some kv => kv.2
  | none => .undefined

/-- The statement `delete o[k]`. -/
def Obj.delete (o : Obj) (k : String) : Obj :=
  o.filter (fun kv => kv.1 != k)

/-- Assignment `o[k] = v`, also the spread `{ ...o, [k]: v }`: an existing key
keeps its position, a new key is appended. -/
def Obj.set : Obj → String → Val → Obj
  | [], k, v => [(k, v)]
  | (k0, v0) :: rest, k, v =>
    if k0 == k then (k0, v) :: rest else (k0, v0) :: Obj.set rest k v

/-- The test `k in o` for own keys. -/
def Obj.has (o : Obj) (k : String) : Bool :=
  o.any (fun kv => kv.1 == k)

/-- `String.prototype.toLowerCase`, on the ASCII range. -/
def toLowerCase (s : String) : String :=
  String.mk (s.data.map Char.toLower)

/-! ## Query keys -/

/-- One element of a query key array: a scalar or a filter object. -/
inductive KeyPart where
  | val (v : Val)
  | obj (fields : Obj)
  deriving DecidableEq, Repr

/-- A query key, the array passed as `queryKey`. -/
abbrev QueryKey := List KeyPart

/-- A string element of a query key. -/
def ks (s : String) : KeyPart := .val (.str s)

/-- Modelled from the spec: the key match of the cache client's
`invalidateQueries` (the client library is not under `src/`). By section 4.1 an
entry is affected when its key equals or extends the invalidated key. -/
def matchesKey (pfx key : QueryKey) : Bool :=
  pfx.isPrefixOf key

/-! ## Effects of mutation callbacks -/

/-- The two kinds of toast raised by `toast.success` and `toast.error`. -/
inductive ToastKind where
  | success
  | error
  deriving DecidableEq, Repr

/-- The side effects performed by the `onSuccess` and `onError` callbacks. -/
inductive Effect where
  /-- The call `queryClient.invalidateQueries({ queryKey })`. -/
  | invalidateQueries (queryKey : QueryKey)
  /-- The calls `toast.success(msg)` and `toast.error(msg)`. -/
  | toast (kind : ToastKind) (msg : String)
  /-- The call `onClose()` of a modal. -/
  | onClose
  /-- A form state setter called with a fresh value: `setForm`, `setContent`,
  `setInstForm`. -/
  | setForm (form : Obj)
  /-- A visibility setter: `setOpen`, `setEditing`, `setShowAddInstallment`. -/
  | setOpen (setter : String) (b : Bool)
  /-- The call `navigate(path)`. -/
  | navigate (path : String)
  /-- The call `localStorage.removeItem(key)`. -/
  | removeItem (key : String)
  /-- The assignment `window.location.href = href`. -/
  | assignLocation (href : String)
  deriving DecidableEq, Repr

/-- The rejection value of a failed write, as the callbacks read it. -/
structure AxiosError where
  /-- The field `error.response?.status`. -/
  status : Option Nat
  /-- The field `err.response?.data?.detail`. -/
  detail : Option String
  deriving DecidableEq, Repr

/-- The resolution value of a successful write. -/
structure Response where
  data : Obj
  deriving DecidableEq, Repr

/-- The expression `err.response?.data?.detail || fallback`. -/
def detailOr (err : AxiosError) (fallback : String) : String :=
  match err.detail with
  | some d => if d != "" then d else fallback
  | none => fallback

/-- The rejection handler of the response interceptor of `services/api.js`,
lines 23-34, through which every write of the repository passes: on a 401 it
clears the stored session and redirects to the login page; the error is then
re-raised in every case. -/
def responseErrorInterceptor (error : AxiosError) : List Effect :=
  if error.status = some 401 then
    [ .removeItem "sentinel_token",
      .removeItem "sentinel_user",
      .assignLocation "/login" ]
  else []

/-- The resource a mutation writes, read off the API object its `mutationFn`
calls. -/
inductive Resource where
  | task
  | serviceItem
  | sale
  | contact
  | policy
  | installment
  | carrier
  | note
  | commLog
  | prospect
  | account
  deriving DecidableEq, Repr

/-- Whether the `mutationFn` creates a resource or changes an existing one. -/
inductive Op where
  | create
  | update
  deriving DecidableEq, Repr

/-- A `useMutation` declaration. A declaration without `onError` has the
callback that does nothing. -/
structure Mutation where
  name : String
  resource : Resource
  op : Op
  onSuccess : Response → List Effect
  onError : AxiosError → List Effect

/-! ## The mutation executor and the view state it acts on -/

/-- What happens, in order, when a mutation is run. -/
inductive Event where
  /-- The `mutationFn` is called: the write is sent. -/
  | write
  /-- The write resolved with a response. -/
  | resolved (r : Response)
  /-- The write was rejected with an error. -/
  | rejected (e : AxiosError)
  /-- A callback performed an effect. -/
  | effect (e : Effect)
  deriving DecidableEq, Repr

/-- Modelled from the spec: the mutation executor `mutate` of the cache client
library (not under `src/`), section 4.3: the write is issued, and once it has
settled the `onSuccess` callback runs on a resolution and the `onError`
callback on a rejection. A failed response first passes through
`responseErrorInterceptor`, which re-raises it. -/
def mutate (m : Mutation) (outcome : Except AxiosError Response) : List Event :=
  match outcome with
  | .ok r => Event.write :: Event.resolved r :: (m.onSuccess r).map Event.effect
  | .error e =>
    Event.write :: ((responseErrorInterceptor e).map Event.effect
      ++ Event.rejected e :: (m.onError e).map Event.effect)

/-- The part of the application state that mutation callbacks act on. -/
structure Ui where
  /-- The keys passed to `invalidateQueries` since the page was loaded, oldest
  first: the stale marks of the query cache. -/
  invalidated : List QueryKey
  /-- The toasts raised since the page was loaded, oldest first. -/
  toasts : List (ToastKind × String)
  /-- The state of the form that produced the payload. -/
  form : Obj
  /-- Whether that form (modal, inline editor) is shown. -/
  formOpen : Bool
  /-- The current location. -/
  location : String
  /-- The content of `localStorage`. -/
  storage : List (String × String)
  deriving DecidableEq, Repr

/-- A full page load at `href`: the document is replaced and the application
starts afresh. Everything held in memory goes with the old document: the query
cache and its stale marks, the toasts, the React state of every form and modal.
Only `localStorage` survives. -/
def Ui.load (ui : Ui) (href : String) : Ui :=
  { invalidated := [], toasts := [], form := [], formOpen := false, location := href,
    storage := ui.storage }

/-- The state change of one effect. Every `onClose` passed to a modal in the
repository is `() => setShow...(false)`, which unmounts the modal. Each
`navigate` of a mutation callback leaves the route of the page that declared
the mutation, which unmounts the page with its form; the query cache and the
toasts belong to the application and stay. An assignment to
`window.location.href` is a full page load. -/
def Ui.perform (ui : Ui) : Effect → Ui
  | .invalidateQueries k => { ui with invalidated := ui.invalidated ++ [k] }
  | .toast kind msg => { ui with toasts := ui.toasts ++ [(kind, msg)] }
  | .onClose => { ui with formOpen := false }
  | .setForm f => { ui with form := f }
  | .setOpen _ b => { ui with formOpen := b }
  | .navigate path => { ui with form := [], formOpen := false, location := path }
  | .removeItem key => { ui with storage := ui.storage.filter fun kv => kv.1 != key }
  | .assignLocation href => ui.load href

/-- The state change of one event: only callback effects touch the state. -/
def Ui.step (ui : Ui) : Event → Ui
  | .effect e => ui.perform e
  | _ => ui

/-- The address of the page load a run starts, if any: the last assignment to
`window.location.href` among its effects. -/
def startedLoad (events : List Event) : Option String :=
  events.foldl
    (fun acc ev =>
      match ev with
      | .effect (.assignLocation href) => some href
      | _ => acc)
    none

/-- The state after a mutation has run to completion with the given outcome.
When the run started a page load, the callbacks that ran after the assignment
ran in the document being replaced: what they left in memory (a toast) is
discarded with it, and the state is that of the freshly loaded page. -/
def settle (m : Mutation) (outcome : Except AxiosError Response) (ui : Ui) : Ui :=
  let after := (mutate m outcome).foldl Ui.step ui
  match startedLoad (mutate m outcome) with
  | some href => after.load href
  | none => after

/-- The invalidation keys a mutation declares: those its `onSuccess` callback
passes to `invalidateQueries`, in order. -/
def declaredKeys (m : Mutation) (r : Response) : List QueryKey :=
  (m.onSuccess r).filterMap fun e =>
    match e with
    | .invalidateQueries k => some k
    | _ => none

/-- An entry is stale when some invalidated key matches its key. -/
def isStale (ui : Ui) (key : QueryKey) : Bool :=
  ui.invalidated.any fun p => matchesKey p key

/-! ## The mutations of the repository -/

/-- The mutation of `components/common/TaskModal.jsx`, lines 16-25. -/
def TaskModal.mutation : Mutation where
  name := "TaskModal.mutation"
  resource := .task
  op := .create
  onSuccess := fun _ =>
    [ .invalidateQueries [ks "accountTasks"],
      .invalidateQueries [ks "dashboard"],
      .toast .success "Task created",
      .onClose ]
  onError := fun err => [.toast .error (detailOr err "Failed")]

/-- The mutation of `components/common/ServiceItemModal.jsx`, lines 38-48. -/
def ServiceItemModal.mutation : Mutation where
  name := "ServiceItemModal.mutation"
  resource := .serviceItem
  op := .create
  onSuccess := fun _ =>
    [ .invalidateQueries [ks "accountServiceItems"],
      .invalidateQueries [ks "serviceBoard"],
      .invalidateQueries [ks "dashboard"],
      .toast .success "Service item created",
      .onClose ]
  onError := fun err => [.toast .error (detailOr err "Failed")]

/-- The mutation of `components/common/SalesLogModal.jsx`, lines 45-55. -/
def SalesLogModal.mutation : Mutation where
  name := "SalesLogModal.mutation"
  resource := .sale
  op := .create
  onSuccess := fun _ =>
    [ .invalidateQueries [ks "salesList"],
      .invalidateQueries [ks "salesSummary"],
      .invalidateQueries [ks "dashboard"],
      .toast .success "Sale logged!",
      .onClose ]
  onError := fun err => [.toast .error (detailOr err "Failed")]

/-- The mutation of `components/common/ContactModal.jsx`, lines 23-33. -/
def ContactModal.mutation (accountId : String) (isEdit : Bool) : Mutation where
  name := "ContactModal.mutation"
  resource := .contact
  op := if isEdit then .update else .create
  onSuccess := fun _ =>
    [ .invalidateQueries [ks "accountContacts", ks accountId],
      .toast .success (if isEdit then "Contact updated" else "Contact added"),
      .onClose ]
  onError := fun err => [.toast .error (detailOr err "Failed")]

/-- The mutation of `components/common/PolicyModal.jsx`, lines 37-46. -/
def PolicyModal.mutation : Mutation where
  name := "PolicyModal.mutation"
  resource := .policy
  op := .create
  onSuccess := fun _ =>
    [ .invalidateQueries [ks "accountPolicies"],
      .invalidateQueries [ks "policies"],
      .toast .success "Policy added",
      .onClose ]
  onError := fun err => [.toast .error (detailOr err "Failed")]

/-- The mutation of `components/common/CarrierModal.jsx`, lines 19-27. -/
def CarrierModal.mutation : Mutation where
  name := "CarrierModal.mutation"
  resource := .carrier
  op := .create
  onSuccess := fun _ =>
    [ .invalidateQueries [ks "carriers"],
      .toast .success "Carrier added",
      .onClose ]
  onError := fun err => [.toast .error (detailOr err "Failed")]

/-- The mutation of `components/common/NoteForm.jsx`, lines 11-20. -/
def NoteForm.mutation (entityType entityId : String) : Mutation where
  name := "NoteForm.mutation"
  resource := .note
  op := .create
  onSuccess := fun _ =>
    [ .invalidateQueries [ks (toLowerCase entityType ++ "Notes"), ks entityId],
      .invalidateQueries [ks "accountNotes", ks entityId],
      .setForm [("content", .str "")],
      .toast .success "Note added" ]
  onError := fun _ => [.toast .error "Failed to add note"]

/-- The mutation of `components/common/CommLogForm.jsx`, lines 17-26. -/
def CommLogForm.mutation (entityId : String) : Mutation where
  name := "CommLogForm.mutation"
  resource := .commLog
  op := .create
  onSuccess := fun _ =>
    [ .invalidateQueries [ks "accountCommLogs", ks entityId],
      .setForm [("direction", .str "Outbound"), ("channel", .str "Phone"),
                ("subject", .str ""), ("body_preview", .str "")],
      .setOpen "setOpen" false,
      .toast .success "Activity logged" ]
  onError := fun _ => [.toast .error "Failed to log activity"]

/-- The stage mutation of `pages/ProspectDetailPage.jsx`, lines 45-51. -/
def ProspectDetailPage.stageMutation (id : String) : Mutation where
  name := "ProspectDetailPage.stageMutation"
  resource := .prospect
  op := .update
  onSuccess := fun _ =>
    [ .invalidateQueries [ks "prospect", ks id],
      .toast .success "Stage updated" ]
  onError := fun _ => []

/-- The convert mutation of `pages/ProspectDetailPage.jsx`, lines 53-60. -/
def ProspectDetailPage.convertMutation : Mutation where
  name := "ProspectDetailPage.convertMutation"
  resource := .prospect
  op := .update
  onSuccess := fun res =>
    [ .toast .success "Prospect converted to account!",
      .navigate ("/accounts/" ++ (res.data.get "account_id").toStr) ]
  onError := fun err => [.toast .error (detailOr err "Conversion failed")]

/-- The mutation of `pages/TasksPage.jsx`, lines 36-43. -/
def TasksPage.completeMutation : Mutation where
  name := "TasksPage.completeMutation"
  resource := .task
  op := .update
  onSuccess := fun _ =>
    [ .invalidateQueries [ks "allTasks"],
      .invalidateQueries [ks "dashboard"],
      .toast .success "Task completed" ]
  onError := fun _ => []

/-- The mutation of `pages/ServiceBoardPage.jsx`, lines 73-79. -/
def ServiceBoardPage.updateMutation : Mutation where
  name := "ServiceBoardPage.updateMutation"
  resource := .serviceItem
  op := .update
  onSuccess := fun _ =>
    [ .invalidateQueries [ks "serviceBoard"],
      .toast .success "Updated" ]
  onError := fun _ => []

/-- The mark-paid mutation of `pages/PolicyDetailPage.jsx`, lines 83-92. -/
def PolicyDetailPage.markPaidMutation (id : String) : Mutation where
  name := "PolicyDetailPage.markPaidMutation"
  resource := .installment
  op := .update
  onSuccess := fun _ =>
    [ .invalidateQueries [ks "policyInstallments", ks id],
      .toast .success "Installment marked as paid" ]
  onError := fun _ => []

/-- The add-installment mutation of `pages/PolicyDetailPage.jsx`, lines
97-105. -/
def PolicyDetailPage.addInstallmentMutation (id : String) : Mutation where
  name := "PolicyDetailPage.addInstallmentMutation"
  resource := .installment
  op := .create
  onSuccess := fun _ =>
    [ .invalidateQueries [ks "policyInstallments", ks id],
      .setOpen "setShowAddInstallment" false,
      .setForm [("amount", .str ""), ("due_date", .str "")],
      .toast .success "Installment added" ]
  onError := fun _ => []

/-- The mutation of `pages/AccountCreatePage.jsx`, lines 25-32. -/
def AccountCreatePage.mutation : Mutation where
  name := "AccountCreatePage.mutation"
  resource := .account
  op := .create
  onSuccess := fun res =>
    [ .toast .success "Account created",
      .navigate ("/accounts/" ++ (res.data.get "id").toStr) ]
  onError := fun err => [.toast .error (detailOr err "Failed to create account")]

/-- The stage mutation of `pages/PipelinePage.jsx`, lines 33-39. -/
def PipelinePage.stageMutation : Mutation where
  name := "PipelinePage.stageMutation"
  resource := .prospect
  op := .update
  onSuccess := fun _ =>
    [ .invalidateQueries [ks "prospects"],
      .invalidateQueries [ks "pipelineStats"] ]
  onError := fun _ => []

/-- The mutation `updateAccount` of `pages/AccountDetailPage.jsx`, lines
99-107. -/
def AccountDetailPage.updateAccount (id : String) : Mutation where
  name := "AccountDetailPage.updateAccount"
  resource := .account
  op := .update
  onSuccess := fun _ =>
    [ .invalidateQueries [ks "account", ks id],
      .setOpen "setEditing" false,
      .toast .success "Account updated" ]
  onError := fun _ => [.toast .error "Update failed"]

/-- The mutation of `pages/ProspectCreatePage.jsx`, lines 34-41. -/
def ProspectCreatePage.mutation : Mutation where
  name := "ProspectCreatePage.mutation"
  resource := .prospect
  op := .create
  onSuccess := fun _ =>
    [ .toast .success "Prospect added to pipeline",
      .navigate "/pipeline" ]
  onError := fun err => [.toast .error (detailOr err "Failed")]

/-- The values the components receive from their parents and the router. -/
structure Props where
  /-- The route parameter `id` of a detail page. -/
  id : String
  /-- The prop `accountId` of a modal. -/
  accountId : String
  /-- The prop `entityType` of a note or activity form. -/
  entityType : String
  /-- The prop `entityId` of a note or activity form. -/
  entityId : String
  /-- Whether `ContactModal` received a `contact` to edit. -/
  isEdit : Bool
  deriving DecidableEq, Repr

/-- Every `useMutation` declaration of the repository. -/
def allMutations (p : Props) : List Mutation :=
  [ TaskModal.mutation,
    ServiceItemModal.mutation,
    SalesLogModal.mutation,
    ContactModal.mutation p.accountId p.isEdit,
    PolicyModal.mutation,
    CarrierModal.mutation,
    NoteForm.mutation p.entityType p.entityId,
    CommLogForm.mutation p.entityId,
    ProspectDetailPage.stageMutation p.id,
    ProspectDetailPage.convertMutation,
    TasksPage.completeMutation,
    ServiceBoardPage.updateMutation,
    PolicyDetailPage.markPaidMutation p.id,
    PolicyDetailPage.addInstallmentMutation p.id,
    AccountCreatePage.mutation,
    PipelinePage.stageMutation,
    AccountDetailPage.updateAccount p.id,
    ProspectCreatePage.mutation ]

/-- The keys passed to `invalidateQueries` in a run, in the order of the calls. -/
def invalidationsOf (events : List Event) : List QueryKey :=
  events.filterMap fun ev =>
    match ev with
    | .effect (.invalidateQueries k) => some k
    | _ => none

/-- The `invalidateQueries` calls written in the `useMutation` declarations of
the repository: for each declaration, in the order of `allMutations`, the key
arrays of its calls in source order. The three declarations that end in a
`navigate` contain no such call. -/
def invalidationCalls (p : Props) : List (String × List QueryKey) :=
  [ -- components/common/TaskModal.jsx, lines 19-20
    ("TaskModal.mutation", [[ks "accountTasks"], [ks "dashboard"]]),
    -- components/common/ServiceItemModal.jsx, lines 41-43
    ("ServiceItemModal.mutation",
      [[ks "accountServiceItems"], [ks "serviceBoard"], [ks "dashboard"]]),
    -- components/common/SalesLogModal.jsx, lines 48-50
    ("SalesLogModal.mutation", [[ks "salesList"], [ks "salesSummary"], [ks "dashboard"]]),
    -- components/common/ContactModal.jsx, line 28
    ("ContactModal.mutation", [[ks "accountContacts", ks p.accountId]]),
    -- components/common/PolicyModal.jsx, lines 40-41
    ("PolicyModal.mutation", [[ks "accountPolicies"], [ks "policies"]]),
    -- components/common/CarrierModal.jsx, line 22
    ("CarrierModal.mutation", [[ks "carriers"]]),
    -- components/common/NoteForm.jsx, lines 14-15
    ("NoteForm.mutation",
      [[ks (toLowerCase p.entityType ++ "Notes"), ks p.entityId],
       [ks "accountNotes", ks p.entityId]]),
    -- components/common/CommLogForm.jsx, line 20
    ("CommLogForm.mutation", [[ks "accountCommLogs", ks p.entityId]]),
    -- pages/ProspectDetailPage.jsx, line 48
    ("ProspectDetailPage.stageMutation", [[ks "prospect", ks p.id]]),
    -- pages/ProspectDetailPage.jsx, lines 53-60: none
    ("ProspectDetailPage.convertMutation", []),
    -- pages/TasksPage.jsx, lines 39-40
    ("TasksPage.completeMutation", [[ks "allTasks"], [ks "dashboard"]]),
    -- pages/ServiceBoardPage.jsx, line 76
    ("ServiceBoardPage.updateMutation", [[ks "serviceBoard"]]),
    -- pages/PolicyDetailPage.jsx, line 89
    ("PolicyDetailPage.markPaidMutation", [[ks "policyInstallments", ks p.id]]),
    -- pages/PolicyDetailPage.jsx, line 100
    ("PolicyDetailPage.addInstallmentMutation", [[ks "policyInstallments", ks p.id]]),
    -- pages/AccountCreatePage.jsx, lines 25-32: none
    ("AccountCreatePage.mutation", []),
    -- pages/PipelinePage.jsx, lines 36-37
    ("PipelinePage.stageMutation", [[ks "prospects"], [ks "pipelineStats"]]),
    -- pages/AccountDetailPage.jsx, line 102
    ("AccountDetailPage.updateAccount", [[ks "account", ks p.id]]),
    -- pages/ProspectCreatePage.jsx, lines 34-41: none
    ("ProspectCreatePage.mutation", []) ]

/-! ## The query keys the pages read -/

/-- The key of `pages/AccountDetailPage.jsx`, line 69. -/
def AccountDetailPage.accountPoliciesKey (id : String) : QueryKey :=
  [ks "accountPolicies", ks id]

/-- The key of `pages/AccountDetailPage.jsx`, line 87. -/
def AccountDetailPage.accountNotesKey (id : String) : QueryKey :=
  [ks "accountNotes", ks id]

/-- The key of `pages/PolicyDetailPage.jsx`, line 78. -/
def PolicyDetailPage.policyNotesKey (id : String) : QueryKey :=
  [ks "policyNotes", ks id]

/-- The key of `pages/ProspectDetailPage.jsx`, line 40. -/
def ProspectDetailPage.prospectNotesKey (id : String) : QueryKey :=
  [ks "prospectNotes", ks id]

/-- The key of `pages/PoliciesPage.jsx`, line 19. -/
def PoliciesPage.policiesKey (page : Int) (filters : Obj) : QueryKey :=
  [ks "policies", .val (.num page), .obj filters]

/-- The key of `pages/ServiceBoardPage.jsx`, line 69. -/
def ServiceBoardPage.serviceBoardKey (filters : Obj) : QueryKey :=
  [ks "serviceBoard", .obj filters]

/-- The key of `pages/SalesLogPage.jsx`, line 21. -/
def SalesLogPage.salesListKey (dateFrom dateTo : String) : QueryKey :=
  [ks "salesList", .obj [("date_from", .str dateFrom), ("date_to", .str dateTo)]]

/-- The key of `pages/SalesLogPage.jsx`, line 16. -/
def SalesLogPage.salesSummaryKey : QueryKey :=
  [ks "salesSummary"]

/-- The key of `pages/DashboardPage.jsx`, line 40. -/
def DashboardPage.dashboardKey : QueryKey :=
  [ks "dashboard"]

/-- The key of `pages/DashboardPage.jsx`, line 46. -/
def DashboardPage.salesSummaryKey : QueryKey :=
  [ks "salesSummary"]

/-! ## Initial state, aggregates and submit handlers -/

/-- A view state before any mutation: nothing invalidated, no toast, an empty
form that is shown, at the root route, with a stored session token. -/
def Ui.initial : Ui :=
  { invalidated := [], toasts := [], form := [], formOpen := true, location := "/",
    storage := [("sentinel_token", "jwt-1")] }

/-- The resources the dashboard aggregate counts, read off the stat cards of
`pages/DashboardPage.jsx`, lines 75-119 (tasks due, service items due,
installments due, pipeline count, sales this month). -/
def countedByAggregate : Resource → Bool
  | .task => true
  | .serviceItem => true
  | .installment => true
  | .prospect => true
  | .sale => true
  | _ => false

/-- The initial form state of `components/common/ServiceItemModal.jsx`, lines
28-36. -/
def ServiceItemModal.initialForm (initialAccountId : Val) : Obj :=
  [ ("type", .str "General"),
    ("account_id", if initialAccountId.truthy then initialAccountId else .str ""),
    ("account_name", .str ""),
    ("policy_id", .str ""),
    ("description", .str ""),
    ("due_date", .str ""),
    ("urgency", .str "Medium") ]

/-- The field setter `set(field)` of the modal forms, applied to the value of
the change event. -/
def setField (form : Obj) (field : String) (value : String) : Obj :=
  form.set field (.str value)

/-- The payload built by `handleSubmit` of
`components/common/ServiceItemModal.jsx`, lines 52-60. -/
def ServiceItemModal.handleSubmit (form : Obj) : Obj :=
  let data := form
  let data := data.delete "account_name"
  let data := if !(data.get "account_id").truthy then data.delete "account_id" else data
  let data := if !(data.get "policy_id").truthy then data.delete "policy_id" else data
  let data := if !(data.get "due_date").truthy then data.delete "due_date" else data
  data

/-- The edit state set by the Edit button of `pages/AccountDetailPage.jsx`,
line 195, from the loaded account. -/
def AccountDetailPage.startEdit (account : Obj) : Obj :=
  [ ("phone", account.get "phone"),
    ("email", account.get "email"),
    ("city", account.get "city"),
    ("state", account.get "state"),
    ("zip_code", account.get "zip_code"),
    ("county", account.get "county") ]

/-- The change handlers of the edit inputs of `pages/AccountDetailPage.jsx`,
lines 140-160: `setEditData(d => ({ ...d, [field]: e.target.value }))`. -/
def AccountDetailPage.changeField (editData : Obj) (field : String) (value : String) : Obj :=
  editData.set field (.str value)

/-- The payload of the save button of `pages/AccountDetailPage.jsx`, line 163:
`updateAccount.mutate(editData)`. -/
def AccountDetailPage.savePayload (editData : Obj) : Obj :=
  editData

/-- Sample props: the detail page of policy `P1` of account `A1`. -/
def Props.sample : Props :=
  { id := "P1", accountId := "A1", entityType := "Policy", entityId := "P1", isEdit := false }

/-- A loaded account with a phone number and no email. -/
def AccountDetailPage.sampleAccount : Obj :=
  [ ("id", .str "A1"), ("name", .str "Acme"), ("phone", .str "555-0100"),
    ("email", .null), ("city", .str "Tampa"), ("state", .str "FL"),
    ("zip_code", .str "33601"), ("county", .null) ]

/-! ## Submit handlers of the create forms -/

/-- The loop `Object.keys(data).forEach(k => { if (data[k] === '') delete data[k]; })`
of `pages/AccountCreatePage.jsx`, line 40. -/
def cleanEmptyStrings (data : Obj) : Obj :=
  (data.map Prod.fst).foldl (fun d k => if d.get k = .str "" then d.delete k else d) data

/-- The initial form state of `pages/AccountCreatePage.jsx`, lines 11-23. -/
def AccountCreatePage.initialForm : Obj :=
  [ ("name", .str ""), ("type", .str "Personal"), ("status", .str "Active"),
    ("phone", .str ""), ("email", .str ""), ("address_line1", .str ""),
    ("address_line2", .str ""), ("city", .str ""), ("state", .str "FL"),
    ("zip_code", .str ""), ("county", .str "") ]

/-- The payload built by `handleSubmit` of `pages/AccountCreatePage.jsx`, lines
36-45. -/
def AccountCreatePage.handleSubmit (form : Obj) : Obj :=
  let data := form
  let data := cleanEmptyStrings data
  let data := data.set "name" (form.get "name")
  let data := data.set "type" (form.get "type")
  data

/-- The test `typeof v === 'number'`. -/
def typeofNumber : Val → Bool
  | .num _ => true
  | _ => false

/-- The initial form state of `components/common/PolicyModal.jsx`, lines 25-35. -/
def PolicyModal.initialForm (accountId : String) : Obj :=
  [ ("account_id", .str accountId), ("carrier_id", .str ""),
    ("line_of_business", .str ""), ("policy_number", .str ""),
    ("effective_date", .str ""), ("expiration_date", .str ""),
    ("premium", .str ""), ("payment_plan", .str ""), ("status", .str "Active") ]

/-- The payload built by `handleSubmit` of
`components/common/PolicyModal.jsx`, lines 64-73. The builtin `parseFloat` is a
parameter. -/
def PolicyModal.handleSubmit (parseFloat : String → Val) (form : Obj) : Obj :=
  let data := form
  let data :=
    if (data.get "premium").truthy then
      data.set "premium" (parseFloat (data.get "premium").toStr)
    else data.delete "premium"
  let data := if !(data.get "carrier_id").truthy then data.delete "carrier_id" else data
  let data := if !(data.get "policy_number").truthy then data.delete "policy_number" else data
  let data := if !(data.get "payment_plan").truthy then data.delete "payment_plan" else data
  data

/-- A stand-in for `parseFloat` on strings of decimal digits. -/
def parseDigits (s : String) : Val :=
  .num (s.data.foldl (fun n c => 10 * n + ((c.toNat : Int) - 48)) 0)

/-! ## The interceptors of the API client -/

/-- An axios request configuration. -/
structure RequestConfig where
  method : String
  url : String
  headers : Obj
  params : Obj
  data : Obj
  deriving DecidableEq, Repr

/-- The call `localStorage.getItem(key)`; `none` is `null`. -/
def getItem (storage : List (String × String)) (key : String) : Option String :=
  (storage.find? fun kv => kv.1 == key).map Prod.snd

/-- The request interceptor of `services/api.js`, lines 14-21. -/
def requestInterceptor (storage : List (String × String)) (config : RequestConfig) :
    RequestConfig :=
  match getItem storage "sentinel_token" with
  | some token =>
    if token != "" then
      { config with headers := config.headers.set "Authorization" (.str ("Bearer " ++ token)) }
    else config
  | none => config

/-- The request `authApi.login(email, password)` of `services/api.js`, line 40, as
it enters the request interceptor (default headers of lines 9-12). -/
def loginRequest (email password : String) : RequestConfig :=
  { method := "post", url := "/auth/login",
    headers := [("Content-Type", .str "application/json")],
    params := [],
    data := [("email", .str email), ("password", .str password)] }

/-- The rejection handler of the response interceptor of `services/api.js`,
lines 26-33, with its return value `Promise.reject(error)`. -/
def responseInterceptor.onRejected (error : AxiosError) :
    List Effect × Except AxiosError Response :=
  (responseErrorInterceptor error, .error error)

/-! ## Query declarations -/

/-- The JavaScript `length` of a string: its number of UTF-16 code units. -/
def jsLength (s : String) : Nat :=
  (s.data.map fun c => if 65536 ≤ c.toNat then 2 else 1).sum

/-- The expression `s || undefined` on a string. -/
def orUndefined (s : String) : Val :=
  if s != "" then .str s else .undefined

/-- The object spread `{ ...base, ...extra }`. -/
def Obj.spread (base extra : Obj) : Obj :=
  extra.foldl (fun o kv => o.set kv.1 kv.2) base

/-- A GET request as built by the API objects of `services/api.js`, lines
39-131. -/
structure Request where
  url : String
  params : Obj
  deriving DecidableEq, Repr

/-- The options object passed to `useQuery`, with the request its `queryFn`
sends. An option that is not given is `none`, a missing `enabled` is `true` and a
missing `keepPreviousData` is `false`. -/
structure QueryDecl where
  queryKey : QueryKey
  request : Request
  enabled : Bool
  staleTime : Option Nat
  retry : Option Nat
  refetchInterval : Option Nat
  keepPreviousData : Bool
  deriving DecidableEq, Repr

/-- The `defaultOptions.queries` of the query client. -/
structure QueryDefaults where
  staleTime : Nat
  retry : Nat
  refetchOnWindowFocus : Bool
  deriving DecidableEq, Repr

/-- The defaults of `queryClient` in `main.jsx`, lines 24-32. -/
def queryClient.defaultOptions : QueryDefaults :=
  { staleTime := 30000, retry := 1, refetchOnWindowFocus := false }

/-- Modelled from the spec: the option merge of the cache client (not under
`src/`), section 4.2: an option given on a query overrides the configured
default, otherwise the default applies. -/
def QueryDecl.effectiveStaleTime (q : QueryDecl) (defaults : QueryDefaults) : Nat :=
  q.staleTime.getD defaults.staleTime

/-- Modelled from the spec: the option merge of the cache client (not under
`src/`), section 4.2, for `retry`. -/
def QueryDecl.effectiveRetry (q : QueryDecl) (defaults : QueryDefaults) : Nat :=
  q.retry.getD defaults.retry

/-- Modelled from the spec: the `enabled` gate of the query engine (not under
`src/`), section 4.2: a disabled query issues no fetch, an enabled one sends the
request of its `queryFn`. -/
def QueryDecl.issued (q : QueryDecl) : List Request :=
  if q.enabled then [q.request] else []

/-- The filter state of `pages/AccountsPage.jsx`, lines 8-11. -/
structure AccountsPage.State where
  page : Int
  search : String
  typeFilter : String
  statusFilter : String
  deriving DecidableEq, Repr

/-- The query key of `pages/AccountsPage.jsx`, line 14. -/
def AccountsPage.queryKey (s : AccountsPage.State) : QueryKey :=
  [ ks "accounts",
    .obj [ ("page", .num s.page), ("search", .str s.search),
           ("type", .str s.typeFilter), ("status", .str s.statusFilter) ] ]

/-- The parameters passed to `accountsApi.list` in `pages/AccountsPage.jsx`,
line 15. -/
def AccountsPage.requestParams (s : AccountsPage.State) : Obj :=
  [ ("page", .num s.page), ("page_size", .num 25), ("search", orUndefined s.search),
    ("type", orUndefined s.typeFilter), ("status", orUndefined s.statusFilter) ]

/-- The `useQuery` declaration of `components/common/ServiceItemModal.jsx`, lines 22-26. -/
def ServiceItemModal.accountSearchQuery (initialAccountId : Val) (accountSearch : String) : QueryDecl :=
  { queryKey := [ks "accountSearch", ks accountSearch],
    request := { url := "/accounts", params := [("search", .str accountSearch), ("page_size", .num 5)] },
    enabled := !initialAccountId.truthy && decide (2 ≤ jsLength accountSearch),
    staleTime := none,
    retry := none,
    refetchInterval := none,
    keepPreviousData := false }

/-- The `useQuery` declaration of `components/common/SalesLogModal.jsx`, lines 18-21. -/
def SalesLogModal.carriersQuery : QueryDecl :=
  { queryKey := [ks "carriers"],
    request := { url := "/carriers", params := [] },
    enabled := true,
    staleTime := none,
    retry := none,
    refetchInterval := none,
    keepPreviousData := false }

/-- The `useQuery` declaration of `components/common/SalesLogModal.jsx`, lines 23-27. -/
def SalesLogModal.accountSearchQuery (initialAccountId : Val) (accountSearch : String) : QueryDecl :=
  { queryKey := [ks "accountSearch", ks accountSearch],
    request := { url := "/accounts", params := [("search", .str accountSearch), ("page_size", .num 5)] },
    enabled := !initialAccountId.truthy && decide (2 ≤ jsLength accountSearch),
    staleTime := none,
    retry := none,
    refetchInterval := none,
    keepPreviousData := false }

/-- The `useQuery` declaration of `components/common/PolicyModal.jsx`, lines 20-23. -/
def PolicyModal.carriersQuery : QueryDecl :=
  { queryKey := [ks "carriers"],
    request := { url := "/carriers", params := [] },
    enabled := true,
    staleTime := none,
    retry := none,
    refetchInterval := none,
    keepPreviousData := false }

/-- The `useQuery` declaration of `components/common/QuickSearch.jsx`, lines 13-17. -/
def QuickSearch.accountsQuery (query : String) : QueryDecl :=
  { queryKey := [ks "quickSearchAccounts", ks query],
    request := { url := "/accounts", params := [("search", .str query), ("page_size", .num 5)] },
    enabled := decide (2 ≤ jsLength query),
    staleTime := none,
    retry := none,
    refetchInterval := none,
    keepPreviousData := false }

/-- The `useQuery` declaration of `components/common/QuickSearch.jsx`, lines 19-23. -/
def QuickSearch.prospectsQuery (query : String) : QueryDecl :=
  { queryKey := [ks "quickSearchProspects", ks query],
    request := { url := "/prospects", params := [("search", .str query), ("page_size", .num 5)] },
    enabled := decide (2 ≤ jsLength query),
    staleTime := none,
    retry := none,
    refetchInterval := none,
    keepPreviousData := false }

/-- The `useQuery` declaration of `pages/DashboardPage.jsx`, lines 39-43. -/
def DashboardPage.dashQuery : QueryDecl :=
  { queryKey := DashboardPage.dashboardKey,
    request := { url := "/dashboard", params := [] },
    enabled := true,
    staleTime := none,
    retry := none,
    refetchInterval := some 60000,
    keepPreviousData := false }

/-- The `useQuery` declaration of `pages/DashboardPage.jsx`, lines 45-49. -/
def DashboardPage.salesSummaryQuery : QueryDecl :=
  { queryKey := DashboardPage.salesSummaryKey,
    request := { url := "/sales-log/summary", params := [] },
    enabled := true,
    staleTime := none,
    retry := none,
    refetchInterval := some 60000,
    keepPreviousData := false }

/-- The `useQuery` declaration of `pages/PoliciesPage.jsx`, lines 18-22. -/
def PoliciesPage.policiesQuery (page : Int) (filters : Obj) : QueryDecl :=
  { queryKey := PoliciesPage.policiesKey page filters,
    request := { url := "/policies", params := Obj.spread [("page", .num page), ("page_size", .num 25)] filters },
    enabled := true,
    staleTime := none,
    retry := none,
    refetchInterval := none,
    keepPreviousData := true }

/-- The `useQuery` declaration of `pages/ProspectDetailPage.jsx`, lines 34-37. -/
def ProspectDetailPage.prospectQuery (id : String) : QueryDecl :=
  { queryKey := [ks "prospect", ks id],
    request := { url := "/prospects/" ++ id, params := [] },
    enabled := true,
    staleTime := none,
    retry := none,
    refetchInterval := none,
    keepPreviousData := false }

/-- The `useQuery` declaration of `pages/ProspectDetailPage.jsx`, lines 39-43. -/
def ProspectDetailPage.notesQuery (id : String) : QueryDecl :=
  { queryKey := ProspectDetailPage.prospectNotesKey id,
    request := { url := "/notes", params := [("linked_entity_type", .str "Prospect"), ("linked_entity_id", .str id)] },
    enabled := id != "",
    staleTime := none,
    retry := none,
    refetchInterval := none,
    keepPreviousData := false }

/-- The `useQuery` declaration of `pages/TasksPage.jsx`, lines 28-34. -/
def TasksPage.tasksQuery (statusFilter priorityFilter : String) : QueryDecl :=
  { queryKey := [ks "allTasks", ks statusFilter, ks priorityFilter],
    request := { url := "/tasks/my", params := [("status", orUndefined statusFilter), ("priority", orUndefined priorityFilter)] },
    enabled := true,
    staleTime := none,
    retry := none,
    refetchInterval := none,
    keepPreviousData := false }

/-- The `useQuery` declaration of `pages/CarriersPage.jsx`, lines 9-12. -/
def CarriersPage.carriersQuery : QueryDecl :=
  { queryKey := [ks "carriers"],
    request := { url := "/carriers", params := [] },
    enabled := true,
    staleTime := none,
    retry := none,
    refetchInterval := none,
    keepPreviousData := false }

/-- The `useQuery` declaration of `pages/ServiceBoardPage.jsx`, lines 68-71. -/
def ServiceBoardPage.serviceBoardQuery (filters : Obj) : QueryDecl :=
  { queryKey := ServiceBoardPage.serviceBoardKey filters,
    request := { url := "/service-board", params := filters },
    enabled := true,
    staleTime := none,
    retry := none,
    refetchInterval := none,
    keepPreviousData := false }

/-- The `useQuery` declaration of `pages/PolicyDetailPage.jsx`, lines 60-63. -/
def PolicyDetailPage.policyQuery (id : String) : QueryDecl :=
  { queryKey := [ks "policy", ks id],
    request := { url := "/policies/" ++ id, params := [] },
    enabled := true,
    staleTime := none,
    retry := none,
    refetchInterval := none,
    keepPreviousData := false }

/-- The `useQuery` declaration of `pages/PolicyDetailPage.jsx`, lines 65-69. -/
def PolicyDetailPage.installmentsQuery (id : String) : QueryDecl :=
  { queryKey := [ks "policyInstallments", ks id],
    request := { url := "/policies/" ++ id ++ "/installments", params := [] },
    enabled := id != "",
    staleTime := none,
    retry := none,
    refetchInterval := none,
    keepPreviousData := false }

/-- The `useQuery` declaration of `pages/PolicyDetailPage.jsx`, lines 71-75. -/
def PolicyDetailPage.serviceItemsQuery (id : String) : QueryDecl :=
  { queryKey := [ks "policyServiceItems", ks id],
    request := { url := "/service-board", params := [("policy_id", .str id)] },
    enabled := id != "",
    staleTime := none,
    retry := none,
    refetchInterval := none,
    keepPreviousData := false }

/-- The `useQuery` declaration of `pages/PolicyDetailPage.jsx`, lines 77-81. -/
def PolicyDetailPage.notesQuery (id : String) : QueryDecl :=
  { queryKey := PolicyDetailPage.policyNotesKey id,
    request := { url := "/notes", params := [("linked_entity_type", .str "Policy"), ("linked_entity_id", .str id)] },
    enabled := id != "",
    staleTime := none,
    retry := none,
    refetchInterval := none,
    keepPreviousData := false }

/-- The `useQuery` declaration of `pages/PipelinePage.jsx`, lines 23-26. -/
def PipelinePage.prospectsQuery : QueryDecl :=
  { queryKey := [ks "prospects", .obj [("page_size", .num 200)]],
    request := { url := "/prospects", params := [("page_size", .num 200)] },
    enabled := true,
    staleTime := none,
    retry := none,
    refetchInterval := none,
    keepPreviousData := false }

/-- The `useQuery` declaration of `pages/PipelinePage.jsx`, lines 28-31. -/
def PipelinePage.pipelineStatsQuery : QueryDecl :=
  { queryKey := [ks "pipelineStats"],
    request := { url := "/prospects/pipeline", params := [] },
    enabled := true,
    staleTime := none,
    retry := none,
    refetchInterval := none,
    keepPreviousData := false }

/-- The `useQuery` declaration of `pages/AccountsPage.jsx`, lines 13-17. -/
def AccountsPage.accountsQuery (s : AccountsPage.State) : QueryDecl :=
  { queryKey := AccountsPage.queryKey s,
    request := { url := "/accounts", params := AccountsPage.requestParams s },
    enabled := true,
    staleTime := none,
    retry := none,
    refetchInterval := none,
    keepPreviousData := true }

/-- The `useQuery` declaration of `pages/AccountDetailPage.jsx`, lines 57-60. -/
def AccountDetailPage.accountQuery (id : String) : QueryDecl :=
  { queryKey := [ks "account", ks id],
    request := { url := "/accounts/" ++ id, params := [] },
    enabled := true,
    staleTime := none,
    retry := none,
    refetchInterval := none,
    keepPreviousData := false }

/-- The `useQuery` declaration of `pages/AccountDetailPage.jsx`, lines 62-66. -/
def AccountDetailPage.contactsQuery (id : String) : QueryDecl :=
  { queryKey := [ks "accountContacts", ks id],
    request := { url := "/accounts/" ++ id ++ "/contacts", params := [] },
    enabled := id != "",
    staleTime := none,
    retry := none,
    refetchInterval := none,
    keepPreviousData := false }

/-- The `useQuery` declaration of `pages/AccountDetailPage.jsx`, lines 68-72. -/
def AccountDetailPage.policiesQuery (id : String) : QueryDecl :=
  { queryKey := AccountDetailPage.accountPoliciesKey id,
    request := { url := "/policies", params := [("account_id", .str id), ("page_size", .num 100)] },
    enabled := id != "",
    staleTime := none,
    retry := none,
    refetchInterval := none,
    keepPreviousData := false }

/-- The `useQuery` declaration of `pages/AccountDetailPage.jsx`, lines 74-78. -/
def AccountDetailPage.serviceItemsQuery (id : String) : QueryDecl :=
  { queryKey := [ks "accountServiceItems", ks id],
    request := { url := "/service-board", params := [("account_id", .str id)] },
    enabled := id != "",
    staleTime := none,
    retry := none,
    refetchInterval := none,
    keepPreviousData := false }

/-- The `useQuery` declaration of `pages/AccountDetailPage.jsx`, lines 80-84. -/
def AccountDetailPage.taskDataQuery (id : String) : QueryDecl :=
  { queryKey := [ks "accountTasks", ks id],
    request := { url := "/tasks", params := [("linked_entity_type", .str "Account"), ("linked_entity_id", .str id)] },
    enabled := id != "",
    staleTime := none,
    retry := none,
    refetchInterval := none,
    keepPreviousData := false }

/-- The `useQuery` declaration of `pages/AccountDetailPage.jsx`, lines 86-90. -/
def AccountDetailPage.notesQuery (id : String) : QueryDecl :=
  { queryKey := AccountDetailPage.accountNotesKey id,
    request := { url := "/notes", params := [("linked_entity_type", .str "Account"), ("linked_entity_id", .str id)] },
    enabled := id != "",
    staleTime := none,
    retry := none,
    refetchInterval := none,
    keepPreviousData := false }

/-- The `useQuery` declaration of `pages/AccountDetailPage.jsx`, lines 92-96. -/
def AccountDetailPage.commLogsQuery (id : String) : QueryDecl :=
  { queryKey := [ks "accountCommLogs", ks id],
    request := { url := "/comm-logs", params := [("linked_entity_type", .str "Account"), ("linked_entity_id", .str id), ("channel", .undefined)] },
    enabled := id != "",
    staleTime := none,
    retry := none,
    refetchInterval := none,
    keepPreviousData := false }

/-- The `useQuery` declaration of `pages/SalesLogPage.jsx`, lines 15-18. -/
def SalesLogPage.summaryQuery : QueryDecl :=
  { queryKey := SalesLogPage.salesSummaryKey,
    request := { url := "/sales-log/summary", params := [] },
    enabled := true,
    staleTime := none,
    retry := none,
    refetchInterval := none,
    keepPreviousData := false }

/-- The `useQuery` declaration of `pages/SalesLogPage.jsx`, lines 20-23. -/
def SalesLogPage.salesDataQuery (dateFrom dateTo : String) : QueryDecl :=
  { queryKey := SalesLogPage.salesListKey dateFrom dateTo,
    request := { url := "/sales-log", params := [("date_from", orUndefined dateFrom), ("date_to", orUndefined dateTo), ("page_size", .num 100)] },
    enabled := true,
    staleTime := none,
    retry := none,
    refetchInterval := none,
    keepPreviousData := false }

/-- The `useQuery` declaration of `pages/SalesLogPage.jsx`, lines 25-28. -/
def SalesLogPage.lobTrendsQuery : QueryDecl :=
  { queryKey := [ks "salesTrendsLob"],
    request := { url := "/sales-log/trends", params := [("group_by", .str "lob"), ("period", .str "monthly")] },
    enabled := true,
    staleTime := none,
    retry := none,
    refetchInterval := none,
    keepPreviousData := false }

/-- The `useQuery` declaration of `pages/SalesLogPage.jsx`, lines 30-33. -/
def SalesLogPage.sourceTrendsQuery : QueryDecl :=
  { queryKey := [ks "salesTrendsSource"],
    request := { url := "/sales-log/trends", params := [("group_by", .str "source"), ("period", .str "monthly")] },
    enabled := true,
    staleTime := none,
    retry := none,
    refetchInterval := none,
    keepPreviousData := false }

/-- The state and props the query declarations depend on. -/
structure ViewState where
  /-- The route parameter `id` of a detail page. -/
  id : String
  /-- The prop `accountId` of `ServiceItemModal` and `SalesLogModal`. -/
  initialAccountId : Val
  /-- The account search box of the two modals. -/
  accountSearch : String
  /-- The search string of `QuickSearch`. -/
  query : String
  /-- The page of `PoliciesPage`. -/
  page : Int
  /-- The filter object of `PoliciesPage` and `ServiceBoardPage`. -/
  filters : Obj
  /-- The filters of `TasksPage`. -/
  statusFilter : String
  priorityFilter : String
  /-- The state of `AccountsPage`. -/
  accounts : AccountsPage.State
  /-- The date range of `SalesLogPage`. -/
  dateFrom : String
  dateTo : String
  deriving DecidableEq, Repr

/-- Every `useQuery` declaration of the repository. -/
def allQueries (v : ViewState) : List QueryDecl :=
  [ ServiceItemModal.accountSearchQuery v.initialAccountId v.accountSearch,
    SalesLogModal.carriersQuery,
    SalesLogModal.accountSearchQuery v.initialAccountId v.accountSearch,
    PolicyModal.carriersQuery,
    QuickSearch.accountsQuery v.query,
    QuickSearch.prospectsQuery v.query,
    DashboardPage.dashQuery,
    DashboardPage.salesSummaryQuery,
    PoliciesPage.policiesQuery v.page v.filters,
    ProspectDetailPage.prospectQuery v.id,
    ProspectDetailPage.notesQuery v.id,
    TasksPage.tasksQuery v.statusFilter v.priorityFilter,
    CarriersPage.carriersQuery,
    ServiceBoardPage.serviceBoardQuery v.filters,
    PolicyDetailPage.policyQuery v.id,
    PolicyDetailPage.installmentsQuery v.id,
    PolicyDetailPage.serviceItemsQuery v.id,
    PolicyDetailPage.notesQuery v.id,
    PipelinePage.prospectsQuery,
    PipelinePage.pipelineStatsQuery,
    AccountsPage.accountsQuery v.accounts,
    AccountDetailPage.accountQuery v.id,
    AccountDetailPage.contactsQuery v.id,
    AccountDetailPage.policiesQuery v.id,
    AccountDetailPage.serviceItemsQuery v.id,
    AccountDetailPage.taskDataQuery v.id,
    AccountDetailPage.notesQuery v.id,
    AccountDetailPage.commLogsQuery v.id,
    SalesLogPage.summaryQuery,
    SalesLogPage.salesDataQuery v.dateFrom v.dateTo,
    SalesLogPage.lobTrendsQuery,
    SalesLogPage.sourceTrendsQuery ]

/-- A sample view state: account `A1`, quick search for `ab`. -/
def ViewState.sample : ViewState :=
  { id := "A1", initialAccountId := .str "", accountSearch := "", query := "ab", page := 1,
    filters := [], statusFilter := "", priorityFilter := "",
    accounts := { page := 1, search := "a", typeFilter := "", statusFilter := "" },
    dateFrom := "", dateTo := "" }

/-! ## The cache store and the query engine -/

/-- Modelled from the spec: a cache entry (section 3) of the cache client, which
is not under `src/`. The freshness window is abstracted to the flag `stale`
and the status to the flag `fetching` (a fetch for the key is in flight). -/
structure CacheEntry where
  data : Option Val
  stale : Bool
  fetching : Bool
  subscriberCount : Nat
  deriving DecidableEq, Repr

/-- Modelled from the spec: the cache store (section 4.1) of the cache client,
which is not under `src/`, together with the log of the invocations of fetch
functions, oldest first. -/
structure CacheStore where
  entries : List (QueryKey × CacheEntry)
  fetchLog : List QueryKey
  deriving DecidableEq, Repr

/-- Modelled from the spec: `get(key)` of the cache store, section 4.1. -/
def CacheStore.get (store : CacheStore) (key : QueryKey) : Option CacheEntry :=
  (store.entries.find? fun x => x.1 == key).map Prod.snd

/-- Modelled from the spec: `set(key, entry)` of the cache store, section 4.1:
the entry of the key is replaced, or created when the key has none. -/
def CacheStore.put (store : CacheStore) (key : QueryKey) (e : CacheEntry) : CacheStore :=
  if (store.get key).isSome then
    { store with entries := store.entries.map fun x => if x.1 == key then (x.1, e) else x }
  else
    { store with entries := store.entries ++ [(key, e)] }

/-- Modelled from the spec: `markStale(pfx)` of the cache store, sections 3 and
4.1: every entry whose key equals or extends the invalidated key becomes stale,
and an entry with subscribers is re-fetched at once, where by step 3 of section
4.2 a fetch already in flight for the key is joined instead of issued again. -/
def CacheStore.markStale (pfx : QueryKey) (store : CacheStore) : CacheStore :=
  { entries := store.entries.map fun x =>
      if matchesKey pfx x.1 then
        (x.1, { x.2 with stale := true,
                         fetching := x.2.fetching || decide (0 < x.2.subscriberCount) })
      else x,
    fetchLog := store.fetchLog ++
      (store.entries.filter fun x =>
        matchesKey pfx x.1 && decide (0 < x.2.subscriberCount) && !x.2.fetching).map Prod.fst }

/-- The invalidations of a mutation applied to the cache store in order. -/
def CacheStore.invalidate (keys : List QueryKey) (store : CacheStore) : CacheStore :=
  keys.foldl (fun s k => s.markStale k) store

/-- Modelled from the spec: `query(key, fetchFn)` of the query engine, section
4.2, for an enabled query that mounts: a fresh entry is served from the cache;
a missing or stale entry is fetched, unless a fetch for the key is already in
flight, which is then joined. -/
def CacheStore.query (key : QueryKey) (store : CacheStore) : CacheStore :=
  match store.get key with
  | none =>
    { store.put key { data := none, stale := true, fetching := true, subscriberCount := 1 }
      with fetchLog := store.fetchLog ++ [key] }
  | some e =>
    if !e.stale then
      store.put key { e with subscriberCount := e.subscriberCount + 1 }
    else if e.fetching then
      store.put key { e with subscriberCount := e.subscriberCount + 1 }
    else
      { store.put key { e with fetching := true, subscriberCount := e.subscriberCount + 1 }
        with fetchLog := store.fetchLog ++ [key] }

/-- Modelled from the spec: the completion of a fetch, sections 4.2 and 5: the
response is stored under the key of the request that fetched it and the entry
becomes fresh; a response for an evicted key is discarded. -/
def CacheStore.resolve (key : QueryKey) (data : Val) (store : CacheStore) : CacheStore :=
  match store.get key with
  | none => store
  | some e => store.put key { e with data := some data, stale := false, fetching := false }

/-- Modelled from the spec: the data a subscriber of the key observes, the
payload of the one entry all subscribers of the key share (section 3). -/
def CacheStore.read (key : QueryKey) (store : CacheStore) : Option Val :=
  (store.get key).bind fun e => e.data

/-- A store holding the notes of account `A1`, shown by one mounted view. -/
def CacheStore.sample : CacheStore :=
  { entries :=
      [ ([ks "accountNotes", ks "A1"],
          { data := some (.str "notes"), stale := false, fetching := false,
            subscriberCount := 1 }),
        ([ks "dashboard"],
          { data := some (.str "dash"), stale := false, fetching := false,
            subscriberCount := 0 }) ],
    fetchLog := [] }

/-! ## The effective-date handler of the policy form -/

/-- A calendar date of the proleptic Gregorian calendar. -/
structure CivilDate where
  year : Nat
  month : Nat
  day : Nat
  deriving DecidableEq, Repr

/-- Whether a year is a leap year. -/
def isLeapYear (y : Nat) : Bool :=
  (y % 4 == 0 && y % 100 != 0) || y % 400 == 0

/-- The number of days of a month. -/
def daysInMonth (y m : Nat) : Nat :=
  if m = 2 then (if isLeapYear y then 29 else 28)
  else if m = 4 ∨ m = 6 ∨ m = 9 ∨ m = 11 then 30
  else 31

/-- The dates an `<input type="date">` with a four-digit year can hold: an
existing day of a year from 1 to 9999. -/
def CivilDate.isInputDate (d : CivilDate) : Bool :=
  decide (1 ≤ d.year) && decide (d.year ≤ 9999) && decide (1 ≤ d.month)
    && decide (d.month ≤ 12) && decide (1 ≤ d.day)
    && decide (d.day ≤ daysInMonth d.year d.month)

/-- The day before a date. -/
def prevDay (d : CivilDate) : CivilDate :=
  if 1 < d.day then { d with day := d.day - 1 }
  else if 1 < d.month then
    { year := d.year, month := d.month - 1, day := daysInMonth d.year (d.month - 1) }
  else { year := d.year - 1, month := 12, day := 31 }

/-- The day after a date. -/
def nextDay (d : CivilDate) : CivilDate :=
  if d.day < daysInMonth d.year d.month then { d with day := d.day + 1 }
  else if d.month < 12 then { year := d.year, month := d.month + 1, day := 1 }
  else { year := d.year + 1, month := 1, day := 1 }

/-- The date a number of days after a date, or before it when the number is
negative. -/
def addDays (d : CivilDate) (n : Int) : CivilDate :=
  if 0 ≤ n then nextDay^[n.toNat] d else prevDay^[(-n).toNat] d

/-- The date denoted by a year, a month and a day of the month as
`Date.prototype.setFullYear` resolves them (`MakeDay`): a day past the end of
the month runs over into the following month. -/
def makeDay (y m day : Nat) : CivilDate :=
  if day ≤ daysInMonth y m then { year := y, month := m, day := day }
  else if m < 12 then { year := y, month := m + 1, day := day - daysInMonth y m }
  else { year := y + 1, month := 1, day := day - daysInMonth y m }

/-- The number of milliseconds of a day. -/
def msPerDay : Int := 86400000

/-- A time value of a `Date`: a calendar day and the milliseconds elapsed since
its midnight, from 0 up to `msPerDay`. Read on the UTC clock it is an instant;
read on the local clock it is a local time. -/
structure TimeValue where
  date : CivilDate
  ms : Int
  deriving DecidableEq, Repr

/-- The time value a number of milliseconds later, or earlier when the number
is negative. -/
def TimeValue.add (t : TimeValue) (delta : Int) : TimeValue :=
  { date := addDays t.date ((t.ms + delta) / msPerDay), ms := (t.ms + delta) % msPerDay }

/-- The time zone of the browser, as the two forms of the local time zone
adjustment of ECMAScript, in milliseconds: the offset of local time from UTC in
force at an instant, and the offset in force at a local time. With daylight
saving the offset changes in the course of a year. -/
structure TimeZone where
  /-- The adjustment at a UTC instant: `LocalTZA(t, true)`. -/
  offsetAtUTC : TimeValue → Int
  /-- The adjustment at a local time: `LocalTZA(t, false)`. -/
  offsetAtLocal : TimeValue → Int

/-- The local time of the instant that `new Date(effDate)` denotes, midnight
UTC of the date: the time `getFullYear` reads the year from. -/
def localAtMidnightUTC (tz : TimeZone) (d : CivilDate) : TimeValue :=
  ({ date := d, ms := 0 } : TimeValue).add (tz.offsetAtUTC { date := d, ms := 0 })

/-- The local time after `d.setFullYear(d.getFullYear() + 1)`: the year of the
local date is advanced, the local month, day of the month and time of day are
kept, and the three are resolved to a date by `makeDay`. -/
def advancedLocal (tz : TimeZone) (d : CivilDate) : TimeValue :=
  let t := localAtMidnightUTC tz d
  { date := makeDay (t.date.year + 1) t.date.month t.date.day, ms := t.ms }

/-- The statements `const d = new Date(effDate); d.setFullYear(d.getFullYear() + 1)`
followed by the date part of `d.toISOString()`: the string is read as midnight
UTC, the year is read and set in local time, the new local time is converted
back with the offset in force at it, and the result is printed in UTC. -/
def addYearLocal (tz : TimeZone) (d : CivilDate) : CivilDate :=
  ((advancedLocal tz d).add (-(tz.offsetAtLocal (advancedLocal tz d)))).date

/-- A time zone without clock changes, at a fixed offset in milliseconds. -/
def TimeZone.fixed (offset : Int) : TimeZone :=
  { offsetAtUTC := fun _ => offset, offsetAtLocal := fun _ => offset }

/-- A time value as one number that orders time values: `YYYYMMDD` followed by
the eight digits of the milliseconds. -/
def TimeValue.stamp (t : TimeValue) : Int :=
  (((t.date.year : Int) * 100 + t.date.month) * 100 + t.date.day) * 100000000 + t.ms

/-- The zone America/New_York in the years 2024 and 2025: five hours behind
UTC, and four hours behind while daylight saving is in force, from the second
Sunday of March at 07:00 UTC to the first Sunday of November at 06:00 UTC; on
the local clock from 03:00 of the one to 02:00 of the other. -/
def TimeZone.newYork : TimeZone :=
  { offsetAtUTC := fun t =>
      if (2024031025200000 ≤ t.stamp ∧ t.stamp < 2024110321600000)
          ∨ (2025030925200000 ≤ t.stamp ∧ t.stamp < 2025110221600000)
      then -14400000 else -18000000,
    offsetAtLocal := fun t =>
      if (2024031010800000 ≤ t.stamp ∧ t.stamp < 2024110307200000)
          ∨ (2025030910800000 ≤ t.stamp ∧ t.stamp < 2025110207200000)
      then -14400000 else -18000000 }

/-- The zone Europe/Berlin in the years 2024 and 2025: one hour ahead of UTC,
and two hours ahead while daylight saving is in force, from the last Sunday of
March at 01:00 UTC to the last Sunday of October at 01:00 UTC; on the local
clock from 03:00 of the one to 03:00 of the other. -/
def TimeZone.berlin : TimeZone :=
  { offsetAtUTC := fun t =>
      if (2024033103600000 ≤ t.stamp ∧ t.stamp < 2024102703600000)
          ∨ (2025033003600000 ≤ t.stamp ∧ t.stamp < 2025102603600000)
      then 7200000 else 3600000,
    offsetAtLocal := fun t =>
      if (2024033110800000 ≤ t.stamp ∧ t.stamp < 2024102710800000)
          ∨ (2025033010800000 ≤ t.stamp ∧ t.stamp < 2025102610800000)
      then 7200000 else 3600000 }

/-- A decimal numeral padded with zeros on the left to a width. -/
def padZeros (width : Nat) (s : String) : String :=
  String.mk (List.replicate (width - s.length) '0' ++ s.data)

/-- The date part `toISOString().split('T')[0]` of a date: `YYYY-MM-DD`, and
`+YYYYYY-MM-DD` past the year 9999. -/
def toISODate (d : CivilDate) : String :=
  (if d.year ≤ 9999 then padZeros 4 (Nat.repr d.year) else "+" ++ padZeros 6 (Nat.repr d.year))
    ++ "-" ++ padZeros 2 (Nat.repr d.month) ++ "-" ++ padZeros 2 (Nat.repr d.day)

/-- The value of an `<input type="date">`: empty, or a date. -/
inductive DateValue where
  | empty
  | date (d : CivilDate)
  deriving DecidableEq, Repr

/-- The string `e.target.value` of a date input. -/
def DateValue.toStr : DateValue → String
  | .empty => ""
  | .date d => toISODate d

/-- The state update of `handleEffectiveChange` of
`components/common/PolicyModal.jsx`, lines 50-62, in a browser of time zone
`tz`. -/
def PolicyModal.handleEffectiveChange (tz : TimeZone) (f : Obj) (value : DateValue) : Obj :=
  let effDate := value.toStr
  let newForm := f.set "effective_date" (.str effDate)
  if (Val.str effDate).truthy && !(f.get "expiration_date").truthy then
    match value with
    | .date d => newForm.set "expiration_date" (.str (toISODate (addYearLocal tz d)))
    | .empty => newForm
  else newForm

/-! ## Quick search keyboard handler and note submission -/

/-- The fields of a `keydown` event the handler reads. -/
structure KeyboardEvent where
  key : String
  metaKey : Bool
  ctrlKey : Bool
  deriving DecidableEq, Repr

/-- The state `(open, query)` of `components/common/QuickSearch.jsx`, lines 8-9;
`opened` is the state variable `open`. -/
structure QuickSearch.State where
  opened : Bool
  query : String
  deriving DecidableEq, Repr

/-- The `keydown` handler of `components/common/QuickSearch.jsx`, lines 27-36. -/
def QuickSearch.handler (s : QuickSearch.State) (e : KeyboardEvent) : QuickSearch.State :=
  let s := if (e.metaKey || e.ctrlKey) && e.key == "k" then { s with opened := true } else s
  let s := if e.key == "Escape" then { opened := false, query := "" } else s
  s

/-- The white space and line terminator code points that
`String.prototype.trim` removes. -/
def isJsWhitespace (c : Char) : Bool :=
  [9, 10, 11, 12, 13, 32, 160, 5760, 8232, 8233, 8239, 8287, 12288, 65279].contains c.toNat
    || (decide (8192 ≤ c.toNat) && decide (c.toNat ≤ 8202))

/-- `String.prototype.trim` on the characters of a string. -/
def trimChars (cs : List Char) : List Char :=
  ((cs.dropWhile isJsWhitespace).reverse.dropWhile isJsWhitespace).reverse

/-- `String.prototype.trim`. -/
def jsTrim (s : String) : String :=
  String.mk (trimChars s.data)

/-- The submit handler `handleSubmit` of `components/common/NoteForm.jsx`, lines
22-30: `none` when it returns without calling `mutation.mutate`, otherwise the
payload passed to it. -/
def NoteForm.handleSubmit (entityType entityId content : String) : Option Obj :=
  if !(Val.str (jsTrim content)).truthy then none
  else
    some [ ("content", .str (jsTrim content)),
           ("linked_entity_type", .str entityType),
           ("linked_entity_id", .str entityId) ]

/-! ## Session initialisation and the protected route -/

/-- The state of `AuthProvider` in `context/AuthContext.jsx`, lines 7-11, with
the content of `localStorage`; `user` is `none` for `null`. -/
structure AuthState where
  user : Option Obj
  loading : Bool
  storage : List (String × String)
  deriving DecidableEq, Repr

/-- The call `localStorage.setItem(key, value)`. -/
def setItem (storage : List (String × String)) (key value : String) : List (String × String) :=
  if storage.any (fun kv => kv.1 == key) then
    storage.map fun kv => if kv.1 == key then (kv.1, value) else kv
  else storage ++ [(key, value)]

/-- The initial state of `AuthProvider`, `context/AuthContext.jsx`, lines 7-11.
The builtin `JSON.parse` is a parameter, `none` when it returns `null`. -/
def AuthProvider.initialState (jsonParse : String → Option Obj)
    (storage : List (String × String)) : AuthState :=
  { user :=
      match getItem storage "sentinel_user" with
      | some stored => if stored != "" then jsonParse stored else none
      | none => none,
    loading := true,
    storage := storage }

/-- The mount effect of `AuthProvider`, `context/AuthContext.jsx`, lines 13-30,
run to completion with the outcome of `authApi.me()`. The builtin
`JSON.stringify` is a parameter. -/
def AuthProvider.mountEffect (jsonStringify : Obj → String) (s : AuthState)
    (me : Except AxiosError Response) : AuthState :=
  match getItem s.storage "sentinel_token" with
  | some token =>
    if token != "" then
      match me with
      | .ok res =>
        { user := some res.data, loading := false,
          storage := setItem s.storage "sentinel_user" (jsonStringify res.data) }
      | .error _ =>
        { user := none, loading := false,
          storage := (s.storage.filter fun kv => kv.1 != "sentinel_token").filter
            fun kv => kv.1 != "sentinel_user" }
    else { s with loading := false }
  | none => { s with loading := false }

/-- What a route guard renders. -/
inductive Rendered where
  | spinner
  | children
  | navigate (target : String)
  deriving DecidableEq, Repr

/-- The component `ProtectedRoute` of `main.jsx`, lines 34-44. -/
def ProtectedRoute (s : AuthState) : Rendered :=
  if s.loading then .spinner
  else if s.user.isSome then .children
  else .navigate "/login"

/-- A stand-in for `JSON.parse` that knows one stored text, the user Ann. -/
def AuthProvider.sampleParse (stored : String) : Option Obj :=
  if stored == "\x7b\"name\":\"Ann\"\x7d" then some [("name", .str "Ann")] else none

/-- A stand-in for `JSON.stringify` on the user Ann. -/
def AuthProvider.sampleStringify (_ : Obj) : String :=
  "\x7b\"name\":\"Ann\"\x7d"

/-! ## The quota display of the dashboard -/

/-- The part of the sales summary the quota card reads: the object
`allstate_quota`, `none` when the summary has not loaded or lacks it. -/
structure SalesSummary where
  allstate_quota : Option Obj
  deriving DecidableEq, Repr

/-- The object `quota` of `pages/DashboardPage.jsx`, lines 59-61:
`(salesSummary || {}).allstate_quota || {}`. -/
def DashboardPage.quota (salesSummary : Option SalesSummary) : Obj :=
  match salesSummary with
  | some sales => sales.allstate_quota.getD []
  | none => []

/-- The number shown before `remaining` in `pages/DashboardPage.jsx`, line 141:
`quota.remaining || 13`. -/
def DashboardPage.remainingShown (quota : Obj) : Val :=
  if (quota.get "remaining").truthy then quota.get "remaining" else .num 13

/-- The number shown before `/ 13` in `pages/DashboardPage.jsx`, line 137:
`quota.auto_items_this_month || 0`. -/
def DashboardPage.itemsShown (quota : Obj) : Val :=
  if (quota.get "auto_items_this_month").truthy then quota.get "auto_items_this_month"
  else .num 0

/-- A sales summary whose quota of 13 is met: nothing remains. -/
def SalesSummary.quotaMet : SalesSummary :=
  { allstate_quota := some [ ("auto_items_this_month", .num 13), ("remaining", .num 0),
                             ("on_track", .bool true) ] }

/-! ## Pagination of the accounts page -/

/-- The page count `Math.ceil(total / 25)` of `pages/AccountsPage.jsx`, line 21. -/
def AccountsPage.totalPages (total : Nat) : Int :=
  ((total + 24) / 25 : Nat)

/-- The initial state of `pages/AccountsPage.jsx`, lines 8-11. -/
def AccountsPage.initialState : AccountsPage.State :=
  { page := 1, search := "", typeFilter := "", statusFilter := "" }

/-- The user actions that change the state of `AccountsPage`. -/
inductive AccountsPage.Action where
  /-- A click on Previous, line 135. -/
  | previous
  /-- A click on Next, line 136. -/
  | next
  /-- A change of the search input, line 48. -/
  | search (value : String)
  /-- A change of the type select, line 54. -/
  | typeFilter (value : String)
  /-- A change of the status select, line 62. -/
  | statusFilter (value : String)
  deriving DecidableEq, Repr

/-- The state after one action, for the total the server reported. The two
buttons are rendered only when `totalPages > 1` (line 129) and a disabled
button does nothing. -/
def AccountsPage.step (total : Nat) (s : AccountsPage.State) :
    AccountsPage.Action → AccountsPage.State
  | .previous =>
    if AccountsPage.totalPages total > 1 ∧ ¬ s.page ≤ 1 then { s with page := s.page - 1 } else s
  | .next =>
    if AccountsPage.totalPages total > 1 ∧ ¬ s.page ≥ AccountsPage.totalPages total then
      { s with page := s.page + 1 }
    else s
  | .search value => { s with search := value, page := 1 }
  | .typeFilter value => { s with typeFilter := value, page := 1 }
  | .statusFilter value => { s with statusFilter := value, page := 1 }

/-! ## Installment totals of the policy page -/

/-- A JavaScript number: a finite double by its exact value, one of the two
infinities, or `NaN`. Negative zero is not told apart from zero; the totals
below never are negative zero, since each sum starts from `0`. -/
inductive Num where
  | fin (q : ℚ)
  | posInf
  | negInf
  | nan
  deriving DecidableEq, Repr

/-- Rounding of a non-negative rational to the nearest natural number, a tie
going to the even neighbour. -/
def roundHalfEven (q : ℚ) : ℕ :=
  if q - ⌊q⌋₊ < 1 / 2 then ⌊q⌋₊
  else if 1 / 2 < q - ⌊q⌋₊ then ⌊q⌋₊ + 1
  else if ⌊q⌋₊ % 2 = 0 then ⌊q⌋₊ else ⌊q⌋₊ + 1

/-- Every finite double is a whole number of units of `2^-1074`, the smallest
positive double, with at most 53 significant bits. For a non-negative number of
units this is the number of low bits that rounding to 53 significant bits
drops: none below `2^53` units. -/
def ulpShift (r : ℚ) : ℕ :=
  Nat.log 2 ⌊r⌋₊ - 52

/-- A non-negative number of units rounded to 53 significant bits, to nearest
with ties to even. -/
def roundUnits (r : ℚ) : ℕ :=
  roundHalfEven (r / 2 ^ ulpShift r) * 2 ^ ulpShift r

/-- The double nearest to a non-negative rational, ties to even, before the
check for overflow. -/
def roundMagnitude (a : ℚ) : ℚ :=
  (roundUnits (a * 2 ^ 1074) : ℚ) / 2 ^ 1074

/-- The result of an arithmetic operation whose exact value is `q`: the nearest
double, ties to even (IEEE 754 binary64, the default rounding); a magnitude
that rounds to `2^1024` or more overflows to an infinity. -/
def Num.round (q : ℚ) : Num :=
  if 0 ≤ q then
    (if 2 ^ 1024 ≤ roundMagnitude q then .posInf else .fin (roundMagnitude q))
  else
    (if 2 ^ 1024 ≤ roundMagnitude (-q) then .negInf else .fin (-roundMagnitude (-q)))

/-- The sum `a + b` of two numbers. -/
def Num.add : Num → Num → Num
  | .fin a, .fin b => Num.round (a + b)
  | .nan, _ => .nan
  | _, .nan => .nan
  | .posInf, .negInf => .nan
  | .negInf, .posInf => .nan
  | .posInf, _ => .posInf
  | _, .posInf => .posInf
  | .negInf, _ => .negInf
  | _, .negInf => .negInf

/-- The quotient `a / b` of two numbers; a zero divisor is the positive
zero. -/
def Num.div : Num → Num → Num
  | .nan, _ => .nan
  | _, .nan => .nan
  | .fin a, .fin b =>
    if b = 0 then (if a = 0 then .nan else if 0 < a then .posInf else .negInf)
    else Num.round (a / b)
  | .fin _, .posInf => .fin 0
  | .fin _, .negInf => .fin 0
  | .posInf, .fin b => if 0 ≤ b then .posInf else .negInf
  | .negInf, .fin b => if 0 ≤ b then .negInf else .posInf
  | .posInf, .posInf => .nan
  | .posInf, .negInf => .nan
  | .negInf, .posInf => .nan
  | .negInf, .negInf => .nan

/-- The comparison `a < b` of two numbers; every comparison with `NaN` is
false. -/
def Num.lt : Num → Num → Bool
  | .nan, _ => false
  | _, .nan => false
  | .fin a, .fin b => decide (a < b)
  | .fin _, .posInf => true
  | .fin _, .negInf => false
  | .posInf, _ => false
  | .negInf, .negInf => false
  | .negInf, _ => true

/-- The comparison `a <= b` of two numbers; every comparison with `NaN` is
false. -/
def Num.le : Num → Num → Bool
  | .nan, _ => false
  | _, .nan => false
  | .fin a, .fin b => decide (a ≤ b)
  | .fin _, .posInf => true
  | .fin _, .negInf => false
  | .posInf, .posInf => true
  | .posInf, _ => false
  | .negInf, _ => true

/-- An installment as `PolicyDetailPage` reads it; `amount` is the number
`Number(i.amount)`. -/
structure Installment where
  status : String
  amount : Num
  deriving DecidableEq, Repr

/-- The value `paidCount` of `pages/PolicyDetailPage.jsx`, line 117. -/
def PolicyDetailPage.paidCount (instList : List Installment) : Nat :=
  (instList.filter fun i => i.status == "Paid").length

/-- The value `totalPaid` of `pages/PolicyDetailPage.jsx`, line 118: the
`reduce` adds the amounts from left to right, starting from `0`. -/
def PolicyDetailPage.totalPaid (instList : List Installment) : Num :=
  (instList.filter fun i => i.status == "Paid").foldl (fun s i => s.add i.amount) (.fin 0)

/-- The value `totalDue` of `pages/PolicyDetailPage.jsx`, line 119. -/
def PolicyDetailPage.totalDue (instList : List Installment) : Num :=
  instList.foldl (fun s i => s.add i.amount) (.fin 0)

/-- The quotient `totalPaid / totalDue` of the progress bar of
`pages/PolicyDetailPage.jsx`, lines 188-192, which is rendered, and the
quotient evaluated, only under the guard `totalDue > 0`. -/
def PolicyDetailPage.progressRatio (instList : List Installment) : Option Num :=
  if Num.lt (.fin 0) (PolicyDetailPage.totalDue instList) then
    some ((PolicyDetailPage.totalPaid instList).div (PolicyDetailPage.totalDue instList))
  else none

/-- Three installments of 100, of which two are paid. -/
def Installment.sample : List Installment :=
  [ { status := "Paid", amount := .fin 100 }, { status := "Pending", amount := .fin 100 },
    { status := "Paid", amount := .fin 100 } ]

/-- Two paid installments of `2^1023`, about `8.99e307`, each. -/
def Installment.huge : List Installment :=
  [ { status := "Paid", amount := .fin (2 ^ 1023) },
    { status := "Paid", amount := .fin (2 ^ 1023) } ]

/-- What a sum of non-negative amounts is: a non-negative double, or
`Infinity`. -/
def Num.IsTotal : Num → Prop
  | .fin v => 0 ≤ v ∧ roundMagnitude v = v
  | .posInf => True
  | _ => False

/-! ## The stage buttons of the prospect page -/

/-- The list `STAGES` of `pages/ProspectDetailPage.jsx`, lines 13-16. -/
def ProspectDetailPage.STAGES : List String :=
  [ "New Lead", "Contacted", "Needs Analysis", "Quoting", "Proposal Sent", "Negotiation",
    "Closed-Won", "Closed-Lost" ]

/-- `String.prototype.startsWith`. -/
def startsWith (s start : String) : Bool :=
  start.data.isPrefixOf s.data

/-- `Array.prototype.findIndex`: the first index whose element passes the test,
or -1. -/
def findIndex (l : List String) (test : String → Bool) : Int :=
  match l with
  | [] => -1
  | x :: rest =>
    if test x then 0
    else
      let i := findIndex rest test
      if i = -1 then -1 else i + 1

/-- The open stages `STAGES.filter(s => !s.startsWith('Closed'))` of
`pages/ProspectDetailPage.jsx`, line 113. -/
def ProspectDetailPage.openStages : List String :=
  ProspectDetailPage.STAGES.filter fun s => !startsWith s "Closed"

/-- The flag `isActive` of the stage button at index `i`,
`pages/ProspectDetailPage.jsx`, lines 114-116. -/
def ProspectDetailPage.isActive (pipeline_stage : String) (i : Nat) : Bool :=
  let currentIdx := findIndex ProspectDetailPage.STAGES fun s => s == pipeline_stage
  let stageIdx : Int := i
  decide (stageIdx ≤ currentIdx)

/-- The stage buttons of `pages/ProspectDetailPage.jsx`, lines 113-128, each
with its flag `isActive`. -/
def ProspectDetailPage.stageButtons (pipeline_stage : String) : List (String × Bool) :=
  ProspectDetailPage.openStages.enum.map fun x =>
    (x.2, ProspectDetailPage.isActive pipeline_stage x.1)

/-! ## Chart aggregation of the sales log page -/

/-- A row of the trends response as `SalesLogPage` reads it: `group` is the
property name that `t.group` denotes, and `count` the number of sales counted
for the group, an integer. -/
structure TrendRow where
  group : String
  count : Int
  deriving DecidableEq, Repr

/-- A value a property of the chart object can hold: a count, the number
`NaN`, or the string that `+=` produces from a value that is not a number. -/
inductive ChartVal where
  | num (n : Int)
  | nan
  | str (s : String)
  deriving DecidableEq, Repr

/-- JavaScript truthiness of a chart value. -/
def ChartVal.truthy : ChartVal → Bool
  | .num n => n != 0
  | .nan => false
  | .str s => s != ""

/-- The count a chart value contributes to a sum of counts; a value that is
not a number contributes nothing. -/
def ChartVal.toInt : ChartVal → Int
  | .num n => n
  | _ => 0

/-- The property names of `Object.prototype`, which the object literal `{}`
inherits: its methods, and the accessor `__proto__`. -/
def objectPrototypeKeys : List String :=
  [ "constructor", "__defineGetter__", "__defineSetter__", "hasOwnProperty",
    "__lookupGetter__", "__lookupSetter__", "isPrototypeOf", "propertyIsEnumerable",
    "toString", "valueOf", "__proto__", "toLocaleString" ]

/-- The object `lobChartData` / `sourceChartData`: its own properties, group
name to value, in order of creation. -/
abbrev ChartData := List (String × ChartVal)

/-- The own property `g` of the chart object, if it has one. -/
def ChartData.own (d : ChartData) (g : String) : Option ChartVal :=
  (d.find? fun kv => kv.1 == g).map Prod.snd

/-- What the property read `data[g]` finds. -/
inductive Lookup where
  /-- An own property with its value. -/
  | own (v : ChartVal)
  /-- No own property, but a member of `Object.prototype`: a function, or for
  `__proto__` the prototype object itself. -/
  | inherited
  /-- Neither: the read gives `undefined`. -/
  | undefined
  deriving DecidableEq, Repr

/-- Property read `data[g]` on an object created by `{}`: an own property
first, then the prototype. -/
def ChartData.get (d : ChartData) (g : String) : Lookup :=
  match d.own g with
  | some v => .own v
  | none => if g ∈ objectPrototypeKeys then .inherited else .undefined

/-- JavaScript truthiness of what a read finds: functions and objects are
truthy, `undefined` is not. -/
def Lookup.truthy : Lookup → Bool
  | .own v => v.truthy
  | .inherited => true
  | .undefined => false

/-- Creation or update of the own property `g`: an existing property keeps its
position, a new one is added last. -/
def ChartData.put : ChartData → String → ChartVal → ChartData
  | [], g, v => [(g, v)]
  | (g0, v0) :: rest, g, v =>
    if g0 == g then (g0, v) :: rest else (g0, v0) :: ChartData.put rest g v

/-- Assignment `data[g] = v` of a number or a string. The name `__proto__`
reaches the inherited setter, which ignores a value that is not an object, so
nothing is stored; under every other name the value is stored as an own
property (the members of `Object.prototype` are writable). -/
def ChartData.set (d : ChartData) (g : String) (v : ChartVal) : ChartData :=
  if g = "__proto__" then d else d.put g v

/-- The value `data[g] + count` that `+=` stores. A number is added to; a
string is extended by the decimal numeral of the count; an inherited member is
first converted to a string, `inheritedText g`, whose exact text is left to the
browser; `undefined + count` is `NaN`. -/
def plusCount (inheritedText : String → String) (g : String) (x : Lookup) (count : Int) :
    ChartVal :=
  match x with
  | .own (.num n) => .num (n + count)
  | .own .nan => .nan
  | .own (.str s) => .str (s ++ toString count)
  | .inherited => .str (inheritedText g ++ toString count)
  | .undefined => .nan

/-- The body of the `forEach` of `pages/SalesLogPage.jsx`, lines 41-42 and
48-49: `if (!data[t.group]) data[t.group] = 0; data[t.group] += t.count`. -/
def SalesLogPage.addRow (inheritedText : String → String) (data : ChartData) (t : TrendRow) :
    ChartData :=
  let data := if !(data.get t.group).truthy then data.set t.group (.num 0) else data
  data.set t.group (plusCount inheritedText t.group (data.get t.group) t.count)

/-- The objects `lobChartData` and `sourceChartData` of
`pages/SalesLogPage.jsx`, lines 39-43 and 46-50. -/
def SalesLogPage.chartData (inheritedText : String → String) (trends : List TrendRow) :
    ChartData :=
  trends.foldl (SalesLogPage.addRow inheritedText) []

/-- The array index a property name denotes, if any: a decimal numeral without
a leading zero whose value is below `2^32 - 1`. -/
def arrayIndex (s : String) : Option Nat :=
  if s.data.all Char.isDigit && (s.data.length == 1 || s.data.head? != some '0')
      && s.data.length != 0 then
    let n := s.data.foldl (fun acc c => 10 * acc + (c.toNat - 48)) 0
    if n < 4294967295 then some n else none
  else none

/-- The order of two entries whose names are array indices. -/
def indexLE (a b : String × ChartVal) : Prop :=
  (arrayIndex a.1).getD 0 ≤ (arrayIndex b.1).getD 0

instance : DecidableRel indexLE := fun a b =>
  inferInstanceAs (Decidable ((arrayIndex a.1).getD 0 ≤ (arrayIndex b.1).getD 0))

/-- `Object.entries`: the own properties whose names are array indices come
first, in ascending numeric order, then the others in order of creation. -/
def objectEntries (d : ChartData) : List (String × ChartVal) :=
  (d.filter fun kv => (arrayIndex kv.1).isSome).insertionSort indexLE
    ++ d.filter fun kv => !(arrayIndex kv.1).isSome

/-- `String.prototype.replace` with a string pattern, on characters: the first
occurrence of the pattern is replaced. -/
def replaceFirstChars (s pat rep : List Char) : List Char :=
  match s with
  | [] => if pat.isEmpty then rep else []
  | c :: cs =>
    if pat.isPrefixOf (c :: cs) then rep ++ (c :: cs).drop pat.length
    else c :: replaceFirstChars cs pat rep

/-- `String.prototype.replace` with a string pattern. -/
def jsReplace (s pat rep : String) : String :=
  String.mk (replaceFirstChars s.data pat.data rep.data)

/-- The bars `lobBars` of `pages/SalesLogPage.jsx`, line 44, as pairs of `name`
and `count`, in the order of `Object.entries`. -/
def SalesLogPage.lobBars (inheritedText : String → String) (trends : List TrendRow) :
    List (String × ChartVal) :=
  (objectEntries (SalesLogPage.chartData inheritedText trends)).map fun kv =>
    (jsReplace (jsReplace kv.1 "Personal " "P. ") "Commercial " "C. ", kv.2)

/-- The slices `sourcePie` of `pages/SalesLogPage.jsx`, line 51, as pairs of
`name` and `value`, in the order of `Object.entries`. -/
def SalesLogPage.sourcePie (inheritedText : String → String) (trends : List TrendRow) :
    List (String × ChartVal) :=
  (objectEntries (SalesLogPage.chartData inheritedText trends)).map fun kv => (kv.1, kv.2)

/-- Monthly trend rows of two lines of business. -/
def TrendRow.sample : List TrendRow :=
  [ { group := "Personal Auto", count := 3 }, { group := "Homeowners", count := 2 },
    { group := "Personal Auto", count := 4 } ]

/-- The text of the inherited members as Chromium converts them to a string:
the source text of a native function, which carries the name of the function,
and `[object Object]` for the prototype object that `__proto__` reads. -/
def inheritedText.sample (g : String) : String :=
  if g = "__proto__" then "[object Object]"
  else "function " ++ (if g = "constructor" then "Object" else g)
    ++ "() \x7b [native code] \x7d"

/-! ## Basic facts about the executor -/

theorem isStale_append (ui : Ui) (ks1 : List QueryKey) (key : QueryKey) (p : QueryKey)
    (hp : p ∈ ks1) (hm : matchesKey p key = true) (inv : List QueryKey)
    (h : ui.invalidated = inv ++ ks1) : isStale ui key = true := by
  unfold isStale
  rw [List.any_eq_true]
  exact ⟨p, by rw [h]; exact List.mem_append_right _ hp, hm⟩

theorem step_foldl_effects (es : List Effect) (ui : Ui) :
    (es.map Event.effect).foldl Ui.step ui = es.foldl Ui.perform ui := by
  induction es generalizing ui with
  | nil => rfl
  | cons e es ih => simpa [Ui.step] using ih (ui.perform e)

theorem mem_allMutations (p : Props) (m : Mutation) (hm : m ∈ allMutations p) :
    m = TaskModal.mutation ∨ m = ServiceItemModal.mutation ∨ m = SalesLogModal.mutation
    ∨ m = ContactModal.mutation p.accountId p.isEdit ∨ m = PolicyModal.mutation
    ∨ m = CarrierModal.mutation ∨ m = NoteForm.mutation p.entityType p.entityId
    ∨ m = CommLogForm.mutation p.entityId ∨ m = ProspectDetailPage.stageMutation p.id
    ∨ m = ProspectDetailPage.convertMutation ∨ m = TasksPage.completeMutation
    ∨ m = ServiceBoardPage.updateMutation ∨ m = PolicyDetailPage.markPaidMutation p.id
    ∨ m = PolicyDetailPage.addInstallmentMutation p.id ∨ m = AccountCreatePage.mutation
    ∨ m = PipelinePage.stageMutation ∨ m = AccountDetailPage.updateAccount p.id
    ∨ m = ProspectCreatePage.mutation := by
  simpa only [allMutations, List.mem_cons, List.mem_singleton, List.not_mem_nil, or_false]
    using hm

/-- On a rejection every mutation of the repository performs at most one
effect, an error toast. -/
theorem onError_toast_only (p : Props) (m : Mutation) (hm : m ∈ allMutations p)
    (err : AxiosError) :
    m.onError err = [] ∨ ∃ msg, m.onError err = [.toast .error msg] := by
  rcases mem_allMutations p m hm with
    h | h | h | h | h | h | h | h | h | h | h | h | h | h | h | h | h | h <;> subst h
  all_goals first
    | exact Or.inl rfl
    | exact Or.inr ⟨_, rfl⟩

theorem Obj.get_delete_self (o : Obj) (k : String) : (o.delete k).get k = .undefined := by
  have h : (o.delete k).find? (fun kv => kv.1 == k) = none := by
    rw [List.find?_eq_none]
    intro kv hkv
    have := (List.mem_filter.mp hkv).2
    simpa using this
  simp [Obj.get, h]

theorem Obj.get_delete_other (o : Obj) (k k1 : String) (h : k ≠ k1) :
    (o.delete k1).get k = o.get k := by
  have hf : ∀ l : Obj, (l.filter (fun kv => kv.1 != k1)).find? (fun kv => kv.1 == k)
      = l.find? (fun kv => kv.1 == k) := by
    intro l
    induction l with
    | nil => rfl
    | cons kv rest ih =>
      by_cases h1 : kv.1 = k1
      · have hb : (kv.1 == k) = false := by
          rw [beq_eq_false_iff_ne]
          exact fun hk => h (hk ▸ h1)
        have hc : (kv.1 != k1) = false := by simp [h1]
        rw [List.filter_cons, hc, List.find?_cons, hb]
        exact ih
      · have hc : (kv.1 != k1) = true := by simp [h1]
        rw [List.filter_cons, hc]
        simp only [if_true, List.find?_cons]
        rw [ih]
  unfold Obj.get Obj.delete
  rw [hf]

theorem Obj.has_delete_self (o : Obj) (k : String) : (o.delete k).has k = false := by
  simp [Obj.has, Obj.delete]

theorem Obj.has_delete_of_not_has (o : Obj) (k k1 : String) (h : o.has k = false) :
    (o.delete k1).has k = false := by
  simp only [Obj.has, Obj.delete, List.any_eq_false, List.mem_filter] at h ⊢
  intro kv hkv
  exact h kv hkv.1

/-! ## Invalidation contracts -/

/-- C1: after a successful policy creation through `PolicyModal`, the
invalidated keys are `["accountPolicies"]` and `["policies"]`, and they match
the key `["accountPolicies", A]` of `AccountDetailPage` for every account id
`A` and the key `["policies", page, filters]` of `PoliciesPage` for every page
and every filter object. -/
theorem PolicyModal_mutation_invalidates (A : String) (r : Response) (ui : Ui) :
    (settle PolicyModal.mutation (.ok r) ui).invalidated
        = ui.invalidated ++ [[ks "accountPolicies"], [ks "policies"]]
    ∧ declaredKeys PolicyModal.mutation r = [[ks "accountPolicies"], [ks "policies"]]
    ∧ isStale (settle PolicyModal.mutation (.ok r) ui)
        (AccountDetailPage.accountPoliciesKey A) = true
    ∧ ∀ (page : Int) (filters : Obj),
        isStale (settle PolicyModal.mutation (.ok r) ui)
          (PoliciesPage.policiesKey page filters) = true := by
  have h : (settle PolicyModal.mutation (.ok r) ui).invalidated
      = ui.invalidated ++ [[ks "accountPolicies"], [ks "policies"]] := by
    simp [settle, mutate, startedLoad, PolicyModal.mutation, Ui.step, Ui.perform]
  refine ⟨h, rfl, ?_, ?_⟩
  · exact isStale_append _ _ _ [ks "accountPolicies"] (by simp)
      (by simp [matchesKey, AccountDetailPage.accountPoliciesKey]) _ h
  · intro page filters
    exact isStale_append _ _ _ [ks "policies"] (by simp)
      (by simp [matchesKey, PoliciesPage.policiesKey]) _ h

/-- C2: evaluation of `ServiceBoardPage.updateMutation` on a successful update:
the only key it invalidates is `["serviceBoard"]`; the `["dashboard"]` entry is
not made stale, while the sibling creation path `ServiceItemModal.mutation`
does invalidate `["dashboard"]`. -/
theorem ServiceBoardPage_updateMutation_leaves_dashboard :
    (settle ServiceBoardPage.updateMutation (.ok { data := [] }) Ui.initial).invalidated
        = [[ks "serviceBoard"]]
    ∧ isStale (settle ServiceBoardPage.updateMutation (.ok { data := [] }) Ui.initial)
        DashboardPage.dashboardKey = false
    ∧ isStale (settle ServiceItemModal.mutation (.ok { data := [] }) Ui.initial)
        DashboardPage.dashboardKey = true := by
  decide

/-- C3: after a successful sale creation through `SalesLogModal`, the
invalidated keys are exactly `["salesList"]`, `["salesSummary"]` and
`["dashboard"]`; they match every key `["salesList", {date_from, date_to}]` of
`SalesLogPage`, its `["salesSummary"]` key, and the `["salesSummary"]` and
`["dashboard"]` keys of `DashboardPage`. -/
theorem SalesLogModal_mutation_invalidates (r : Response) (ui : Ui) :
    (settle SalesLogModal.mutation (.ok r) ui).invalidated
        = ui.invalidated ++ [[ks "salesList"], [ks "salesSummary"], [ks "dashboard"]]
    ∧ declaredKeys SalesLogModal.mutation r
        = [[ks "salesList"], [ks "salesSummary"], [ks "dashboard"]]
    ∧ (∀ dateFrom dateTo : String,
        isStale (settle SalesLogModal.mutation (.ok r) ui)
          (SalesLogPage.salesListKey dateFrom dateTo) = true)
    ∧ isStale (settle SalesLogModal.mutation (.ok r) ui) SalesLogPage.salesSummaryKey = true
    ∧ isStale (settle SalesLogModal.mutation (.ok r) ui) DashboardPage.salesSummaryKey = true
    ∧ isStale (settle SalesLogModal.mutation (.ok r) ui) DashboardPage.dashboardKey = true := by
  have h : (settle SalesLogModal.mutation (.ok r) ui).invalidated
      = ui.invalidated ++ [[ks "salesList"], [ks "salesSummary"], [ks "dashboard"]] := by
    simp [settle, mutate, startedLoad, SalesLogModal.mutation, Ui.step, Ui.perform]
  refine ⟨h, rfl, ?_, ?_, ?_, ?_⟩
  · intro dateFrom dateTo
    exact isStale_append _ _ _ [ks "salesList"] (by simp)
      (by simp [matchesKey, SalesLogPage.salesListKey]) _ h
  · exact isStale_append _ _ _ [ks "salesSummary"] (by simp)
      (by simp [matchesKey, SalesLogPage.salesSummaryKey]) _ h
  · exact isStale_append _ _ _ [ks "salesSummary"] (by simp)
      (by simp [matchesKey, DashboardPage.salesSummaryKey]) _ h
  · exact isStale_append _ _ _ [ks "dashboard"] (by simp)
      (by simp [matchesKey, DashboardPage.dashboardKey]) _ h

/-- C4: for each entity type `T` among Account, Policy and Prospect and every
entity id, the key under which the detail page reads its notes is
`[lowercase(T) + "Notes", id]`, and a successful note creation through
`NoteForm` invalidates exactly that key, so the entry is stale afterwards. -/
theorem NoteForm_mutation_invalidates_notes (id : String) (r : Response) (ui : Ui) :
    (AccountDetailPage.accountNotesKey id = [ks (toLowerCase "Account" ++ "Notes"), ks id]
      ∧ AccountDetailPage.accountNotesKey id = [ks "accountNotes", ks id]
      ∧ AccountDetailPage.accountNotesKey id ∈ declaredKeys (NoteForm.mutation "Account" id) r
      ∧ isStale (settle (NoteForm.mutation "Account" id) (.ok r) ui)
          (AccountDetailPage.accountNotesKey id) = true)
    ∧ (PolicyDetailPage.policyNotesKey id = [ks (toLowerCase "Policy" ++ "Notes"), ks id]
      ∧ PolicyDetailPage.policyNotesKey id = [ks "policyNotes", ks id]
      ∧ PolicyDetailPage.policyNotesKey id ∈ declaredKeys (NoteForm.mutation "Policy" id) r
      ∧ isStale (settle (NoteForm.mutation "Policy" id) (.ok r) ui)
          (PolicyDetailPage.policyNotesKey id) = true)
    ∧ (ProspectDetailPage.prospectNotesKey id = [ks (toLowerCase "Prospect" ++ "Notes"), ks id]
      ∧ ProspectDetailPage.prospectNotesKey id = [ks "prospectNotes", ks id]
      ∧ ProspectDetailPage.prospectNotesKey id
          ∈ declaredKeys (NoteForm.mutation "Prospect" id) r
      ∧ isStale (settle (NoteForm.mutation "Prospect" id) (.ok r) ui)
          (ProspectDetailPage.prospectNotesKey id) = true) := by
  have hA : toLowerCase "Account" ++ "Notes" = "accountNotes" := by decide
  have hP : toLowerCase "Policy" ++ "Notes" = "policyNotes" := by decide
  have hR : toLowerCase "Prospect" ++ "Notes" = "prospectNotes" := by decide
  have hs : ∀ T : String,
      (settle (NoteForm.mutation T id) (.ok r) ui).invalidated
        = ui.invalidated
          ++ [[ks (toLowerCase T ++ "Notes"), ks id], [ks "accountNotes", ks id]] := by
    intro T
    simp [settle, mutate, startedLoad, NoteForm.mutation, Ui.step, Ui.perform]
  have hd : ∀ T : String, declaredKeys (NoteForm.mutation T id) r
      = [[ks (toLowerCase T ++ "Notes"), ks id], [ks "accountNotes", ks id]] := by
    intro T
    rfl
  refine ⟨⟨?_, rfl, ?_, ?_⟩, ⟨?_, rfl, ?_, ?_⟩, ⟨?_, rfl, ?_, ?_⟩⟩
  · rw [hA]; rfl
  · rw [hd, hA]; simp [AccountDetailPage.accountNotesKey]
  · exact isStale_append _ _ _ [ks "accountNotes", ks id] (by simp)
      (by simp [matchesKey, AccountDetailPage.accountNotesKey]) _ (hs "Account")
  · rw [hP]; rfl
  · rw [hd, hP]; simp [PolicyDetailPage.policyNotesKey]
  · exact isStale_append _ _ _ [ks (toLowerCase "Policy" ++ "Notes"), ks id] (by simp)
      (by rw [hP]; simp [matchesKey, PolicyDetailPage.policyNotesKey]) _ (hs "Policy")
  · rw [hR]; rfl
  · rw [hd, hR]; simp [ProspectDetailPage.prospectNotesKey]
  · exact isStale_append _ _ _ [ks (toLowerCase "Prospect" ++ "Notes"), ks id] (by simp)
      (by rw [hR]; simp [matchesKey, ProspectDetailPage.prospectNotesKey]) _ (hs "Prospect")

/-- C5 (as stated, refuted): `PolicyDetailPage.markPaidMutation` is a mutation
of the repository on installments, a resource counted by the dashboard
aggregate, and `["dashboard"]` is not among the keys it invalidates. -/
theorem markPaidMutation_skips_dashboard :
    PolicyDetailPage.markPaidMutation "P1" ∈ allMutations Props.sample
    ∧ countedByAggregate (PolicyDetailPage.markPaidMutation "P1").resource = true
    ∧ [ks "dashboard"] ∉ declaredKeys (PolicyDetailPage.markPaidMutation "P1") { data := [] } := by
  refine ⟨?_, rfl, by decide⟩
  simp [allMutations, Props.sample]

/-- C5 (amended): every mutation of the repository on tasks or sales, and the
creation of a service item, invalidates `["dashboard"]` on success; every
mutation on installments or prospects invalidates no `["dashboard"]` key. -/
theorem dashboard_invalidation_by_resource (p : Props) (m : Mutation)
    (hm : m ∈ allMutations p) (r : Response) :
    ((m.resource = .task ∨ m.resource = .sale ∨ (m.resource = .serviceItem ∧ m.op = .create))
        → [ks "dashboard"] ∈ declaredKeys m r)
    ∧ ((m.resource = .installment ∨ m.resource = .prospect)
        → [ks "dashboard"] ∉ declaredKeys m r) := by
  rcases mem_allMutations p m hm with
    h | h | h | h | h | h | h | h | h | h | h | h | h | h | h | h | h | h <;> subst h
  all_goals
    constructor <;> intro h <;>
      simp [declaredKeys, ks, TaskModal.mutation, ServiceItemModal.mutation,
        SalesLogModal.mutation, ContactModal.mutation, PolicyModal.mutation,
        CarrierModal.mutation, NoteForm.mutation, CommLogForm.mutation,
        ProspectDetailPage.stageMutation, ProspectDetailPage.convertMutation,
        TasksPage.completeMutation, ServiceBoardPage.updateMutation,
        PolicyDetailPage.markPaidMutation, PolicyDetailPage.addInstallmentMutation,
        AccountCreatePage.mutation, PipelinePage.stageMutation,
        AccountDetailPage.updateAccount, ProspectCreatePage.mutation] at h ⊢

/-- Witness of C5 (amended) at `TasksPage.completeMutation`. -/
theorem dashboard_invalidation_by_resource_witness :
    TasksPage.completeMutation ∈ allMutations Props.sample
    ∧ ((TasksPage.completeMutation.resource = .task ∨ TasksPage.completeMutation.resource = .sale
          ∨ (TasksPage.completeMutation.resource = .serviceItem
              ∧ TasksPage.completeMutation.op = .create))
        → [ks "dashboard"] ∈ declaredKeys TasksPage.completeMutation { data := [] })
    ∧ ((TasksPage.completeMutation.resource = .installment
          ∨ TasksPage.completeMutation.resource = .prospect)
        → [ks "dashboard"] ∉ declaredKeys TasksPage.completeMutation { data := [] }) :=
  ⟨by simp [allMutations],
    dashboard_invalidation_by_resource Props.sample TasksPage.completeMutation
      (by simp [allMutations]) { data := [] }⟩

/-- C6 (as stated, refuted): `NoteForm.mutation` is a mutation of the
repository, and when its write is rejected with a 401 response while the note
form holds a draft, the form state is not left unchanged: the response
interceptor loads `/login`, and the draft and the form are gone. -/
theorem failed_write_401_discards_form :
    NoteForm.mutation "Policy" "P1" ∈ allMutations Props.sample
    ∧ (settle (NoteForm.mutation "Policy" "P1")
          (.error { status := some 401, detail := some "Not authenticated" })
          { Ui.initial with form := [("content", .str "draft")] }).form
        ≠ [("content", .str "draft")]
    ∧ (settle (NoteForm.mutation "Policy" "P1")
          (.error { status := some 401, detail := some "Not authenticated" })
          { Ui.initial with form := [("content", .str "draft")] }).formOpen = false
    ∧ (settle (NoteForm.mutation "Policy" "P1")
          (.error { status := some 401, detail := some "Not authenticated" })
          { Ui.initial with form := [("content", .str "draft")] }).location = "/login" := by
  refine ⟨by simp [allMutations, Props.sample], by decide, by decide, by decide⟩

/-- C6 (amended): for every mutation of the repository and every failure of
its write, no `invalidateQueries` call is made. Unless the failure is a 401
response, the stale marks of the cache, the form state that produced the
payload and the visibility of the form are unchanged. On a 401 response the
stored session is cleared and `/login` is loaded, which discards the form with
everything else the page held in memory. -/
theorem failed_write_keeps_cache_and_form (p : Props) (m : Mutation)
    (hm : m ∈ allMutations p) (err : AxiosError) (ui : Ui) :
    (∀ k : QueryKey, Event.effect (.invalidateQueries k) ∉ mutate m (.error err))
    ∧ invalidationsOf (mutate m (.error err)) = []
    ∧ (err.status ≠ some 401 →
        (settle m (.error err) ui).invalidated = ui.invalidated
        ∧ (settle m (.error err) ui).form = ui.form
        ∧ (settle m (.error err) ui).formOpen = ui.formOpen
        ∧ (settle m (.error err) ui).location = ui.location
        ∧ (settle m (.error err) ui).storage = ui.storage)
    ∧ (err.status = some 401 →
        settle m (.error err) ui
          = { invalidated := [], toasts := [], form := [], formOpen := false,
              location := "/login",
              storage := (ui.storage.filter fun kv => kv.1 != "sentinel_token").filter
                fun kv => kv.1 != "sentinel_user" }) := by
  refine ⟨?_, ?_, ?_, ?_⟩
  · intro k
    rcases onError_toast_only p m hm err with h | ⟨msg, h⟩ <;>
      by_cases h4 : err.status = some 401 <;>
        simp [mutate, h, h4, responseErrorInterceptor]
  · rcases onError_toast_only p m hm err with h | ⟨msg, h⟩ <;>
      by_cases h4 : err.status = some 401 <;>
        simp [invalidationsOf, mutate, h, h4, responseErrorInterceptor]
  · intro h4
    rcases onError_toast_only p m hm err with h | ⟨msg, h⟩ <;>
      simp [settle, mutate, startedLoad, h, h4, responseErrorInterceptor, Ui.step, Ui.perform]
  · intro h4
    rcases onError_toast_only p m hm err with h | ⟨msg, h⟩ <;>
      simp [settle, mutate, startedLoad, h, h4, responseErrorInterceptor, Ui.step, Ui.perform,
        Ui.load]

/-- Witness of C6 (amended) at `NoteForm.mutation` for policy `P1`, rejected
with a 422 validation error while the note form holds a draft. -/
theorem failed_write_keeps_cache_and_form_witness :
    NoteForm.mutation "Policy" "P1" ∈ allMutations Props.sample
    ∧ (settle (NoteForm.mutation "Policy" "P1")
          (.error { status := some 422, detail := some "content too long" })
          { Ui.initial with form := [("content", .str "draft")] }).invalidated = []
    ∧ (settle (NoteForm.mutation "Policy" "P1")
          (.error { status := some 422, detail := some "content too long" })
          { Ui.initial with form := [("content", .str "draft")] }).form
        = [("content", .str "draft")]
    ∧ (settle (NoteForm.mutation "Policy" "P1")
          (.error { status := some 422, detail := some "content too long" })
          { Ui.initial with form := [("content", .str "draft")] }).formOpen = true
    ∧ (settle (NoteForm.mutation "Policy" "P1")
          (.error { status := some 422, detail := some "content too long" })
          { Ui.initial with form := [("content", .str "draft")] }).location = "/"
    ∧ (settle (NoteForm.mutation "Policy" "P1")
          (.error { status := some 422, detail := some "content too long" })
          { Ui.initial with form := [("content", .str "draft")] }).storage
        = [("sentinel_token", "jwt-1")] :=
  ⟨by simp [allMutations, Props.sample],
    (failed_write_keeps_cache_and_form Props.sample (NoteForm.mutation "Policy" "P1")
      (by simp [allMutations, Props.sample])
      { status := some 422, detail := some "content too long" }
      { Ui.initial with form := [("content", .str "draft") ] }).2.2.1 (by decide)⟩

/-- C7: evaluation of `TasksPage.completeMutation` on a write rejected with a
500 response: no callback runs and no toast is raised, while the sibling
`TaskModal.mutation` raises an error toast on the same rejection. -/
theorem TasksPage_completeMutation_failure_is_silent :
    TasksPage.completeMutation ∈ allMutations Props.sample
    ∧ mutate TasksPage.completeMutation
          (.error { status := some 500, detail := some "Internal Server Error" })
        = [.write, .rejected { status := some 500, detail := some "Internal Server Error" }]
    ∧ (settle TasksPage.completeMutation
          (.error { status := some 500, detail := some "Internal Server Error" })
          Ui.initial).toasts = []
    ∧ (settle TaskModal.mutation
          (.error { status := some 500, detail := some "Internal Server Error" })
          Ui.initial).toasts = [(.error, "Internal Server Error")] := by
  refine ⟨by simp [allMutations], by decide, by decide, by decide⟩

/-- C8: the keys invalidated in the run of a successful write are, for each
mutation of the repository, for every response and in source order, exactly
the keys of the `invalidateQueries` calls written in its declaration (none is
skipped, none depends on the response); every such call comes after the write
has been issued and has resolved, and up to the resolution the state is
untouched; the stale marks after the run are those before it followed by the
declared keys, so every entry whose key a declared key matches is stale; and
the run of a rejected write contains no invalidation. -/
theorem invalidation_follows_resolution (p : Props) (r : Response) (err : AxiosError)
    (ui : Ui) :
    (allMutations p).map (fun m => (m.name, invalidationsOf (mutate m (.ok r))))
        = invalidationCalls p
    ∧ ∀ m ∈ allMutations p,
        (∀ (i : Nat) (k : QueryKey),
          (mutate m (.ok r))[i]? = some (.effect (.invalidateQueries k))
            → ∃ j, j < i ∧ (mutate m (.ok r))[j]? = some (.resolved r)
                ∧ ∃ w, w < j ∧ (mutate m (.ok r))[w]? = some .write)
        ∧ ((mutate m (.ok r)).takeWhile fun ev => ev != .resolved r).foldl Ui.step ui = ui
        ∧ (settle m (.ok r) ui).invalidated
            = ui.invalidated ++ invalidationsOf (mutate m (.ok r))
        ∧ (∀ pfx ∈ invalidationsOf (mutate m (.ok r)), ∀ key : QueryKey,
            matchesKey pfx key = true → isStale (settle m (.ok r) ui) key = true)
        ∧ invalidationsOf (mutate m (.error err)) = [] := by
  refine ⟨rfl, ?_⟩
  intro m hm
  have hinv : (settle m (.ok r) ui).invalidated
      = ui.invalidated ++ invalidationsOf (mutate m (.ok r)) := by
    rcases mem_allMutations p m hm with
      h | h | h | h | h | h | h | h | h | h | h | h | h | h | h | h | h | h <;> subst h <;>
      simp [settle, mutate, startedLoad, invalidationsOf, Ui.step, Ui.perform,
        TaskModal.mutation, ServiceItemModal.mutation,
        SalesLogModal.mutation, ContactModal.mutation, PolicyModal.mutation,
        CarrierModal.mutation, NoteForm.mutation, CommLogForm.mutation,
        ProspectDetailPage.stageMutation, ProspectDetailPage.convertMutation,
        TasksPage.completeMutation, ServiceBoardPage.updateMutation,
        PolicyDetailPage.markPaidMutation, PolicyDetailPage.addInstallmentMutation,
        AccountCreatePage.mutation, PipelinePage.stageMutation,
        AccountDetailPage.updateAccount, ProspectCreatePage.mutation]
  refine ⟨?_, ?_, hinv, ?_, ?_⟩
  · intro i k h
    match i, h with
    | 0, h => simp [mutate] at h
    | 1, h => simp [mutate] at h
    | i + 2, _ => exact ⟨1, by omega, by simp [mutate], 0, by omega, by simp [mutate]⟩
  · have hne : (Event.write != Event.resolved r) = true := by
      rw [bne_iff_ne]
      intro h
      cases h
    simp [mutate, List.takeWhile, hne, Ui.step]
  · intro pfx hpfx key hmatch
    exact isStale_append _ _ key pfx hpfx hmatch _ hinv
  · rcases onError_toast_only p m hm err with h | ⟨msg, h⟩ <;>
      by_cases h4 : err.status = some 401 <;>
        simp [invalidationsOf, mutate, h, h4, responseErrorInterceptor]

/-- Witness of C8 at `ContactModal.mutation` for account `A1`. -/
theorem invalidation_follows_resolution_witness :
    ContactModal.mutation "A1" false ∈ allMutations Props.sample
    ∧ invalidationsOf (mutate (ContactModal.mutation "A1" false) (.ok { data := [] }))
        = [[ks "accountContacts", ks "A1"]]
    ∧ (settle (ContactModal.mutation "A1" false) (.ok { data := [] }) Ui.initial).invalidated
        = Ui.initial.invalidated
          ++ invalidationsOf (mutate (ContactModal.mutation "A1" false) (.ok { data := [] })) :=
  ⟨by simp [allMutations, Props.sample], by decide,
    ((invalidation_follows_resolution Props.sample { data := [] }
        { status := none, detail := none } Ui.initial).2
      (ContactModal.mutation "A1" false) (by simp [allMutations, Props.sample])).2.2.1⟩

/-! ## Payload construction -/

/-- C9: evaluation of `ServiceItemModal.handleSubmit` on the untouched form
opened for account `A1`: the payload carries `description` with the empty
string. For every form state `account_name` is absent from the payload and
none of `account_id`, `policy_id`, `due_date` is sent as the empty string. -/
theorem ServiceItemModal_handleSubmit_sends_empty_description :
    ServiceItemModal.handleSubmit (ServiceItemModal.initialForm (.str "A1"))
        = [ ("type", .str "General"), ("account_id", .str "A1"),
            ("description", .str ""), ("urgency", .str "Medium") ]
    ∧ (ServiceItemModal.handleSubmit (ServiceItemModal.initialForm (.str "A1"))).get
        "description" = .str ""
    ∧ ∀ form : Obj,
        (ServiceItemModal.handleSubmit form).has "account_name" = false
        ∧ (ServiceItemModal.handleSubmit form).get "account_id" ≠ .str ""
        ∧ (ServiceItemModal.handleSubmit form).get "policy_id" ≠ .str ""
        ∧ (ServiceItemModal.handleSubmit form).get "due_date" ≠ .str "" := by
  refine ⟨by decide, by decide, ?_⟩
  intro form
  have hne : ∀ v : Val, v.truthy = true → v ≠ .str "" := by
    intro v hv hs
    subst hs
    simp [Val.truthy] at hv
  have step_has : ∀ (d : Obj) (k : String), d.has "account_name" = false →
      (if !(d.get k).truthy then d.delete k else d).has "account_name" = false := by
    intro d k h
    split
    · exact Obj.has_delete_of_not_has d _ k h
    · exact h
  have step_self : ∀ (d : Obj) (k : String),
      (if !(d.get k).truthy then d.delete k else d).get k ≠ .str "" := by
    intro d k
    split
    · rw [Obj.get_delete_self]
      decide
    · next hk => exact hne _ (by simpa using hk)
  have step_other : ∀ (d : Obj) (k k1 : String), k ≠ k1 →
      (if !(d.get k1).truthy then d.delete k1 else d).get k = d.get k := by
    intro d k k1 h
    split
    · exact Obj.get_delete_other d k k1 h
    · rfl
  have hA : (ServiceItemModal.handleSubmit form).get "account_id"
      = (if !((form.delete "account_name").get "account_id").truthy
          then (form.delete "account_name").delete "account_id"
          else form.delete "account_name").get "account_id" :=
    (step_other _ "account_id" "due_date" (by decide)).trans
      (step_other _ "account_id" "policy_id" (by decide))
  have hP : (ServiceItemModal.handleSubmit form).get "policy_id"
      = (if !((if !((form.delete "account_name").get "account_id").truthy
                then (form.delete "account_name").delete "account_id"
                else form.delete "account_name").get "policy_id").truthy
          then (if !((form.delete "account_name").get "account_id").truthy
                then (form.delete "account_name").delete "account_id"
                else form.delete "account_name").delete "policy_id"
          else (if !((form.delete "account_name").get "account_id").truthy
                then (form.delete "account_name").delete "account_id"
                else form.delete "account_name")).get "policy_id" :=
    step_other _ "policy_id" "due_date" (by decide)
  refine ⟨?_, ?_, ?_, ?_⟩
  · exact step_has _ "due_date" (step_has _ "policy_id"
      (step_has _ "account_id" (Obj.has_delete_self form _)))
  · rw [hA]
    exact step_self _ _
  · rw [hP]
    exact step_self _ _
  · exact step_self _ "due_date"

/-- C10: evaluation of the save button of `AccountDetailPage` after the user
opened the editor on an account with a phone number and cleared the phone
input: the payload passed to `updateAccount.mutate` carries `phone` with the
empty string. -/
theorem AccountDetailPage_savePayload_sends_empty_phone :
    AccountDetailPage.savePayload
        (AccountDetailPage.changeField
          (AccountDetailPage.startEdit AccountDetailPage.sampleAccount) "phone" "")
      = [ ("phone", .str ""), ("email", .null), ("city", .str "Tampa"),
          ("state", .str "FL"), ("zip_code", .str "33601"), ("county", .null) ]
    ∧ (AccountDetailPage.savePayload
        (AccountDetailPage.changeField
          (AccountDetailPage.startEdit AccountDetailPage.sampleAccount) "phone" "")).get "phone"
      = .str "" := by
  decide

/-! ## Facts about objects -/

theorem Obj.get_set_self (o : Obj) (k : String) (v : Val) : (o.set k v).get k = v := by
  induction o with
  | nil => simp [Obj.set, Obj.get]
  | cons kv rest ih =>
    obtain ⟨k0, v0⟩ := kv
    unfold Obj.set
    by_cases h : k0 = k
    · simp [h, Obj.get]
    · have hb : (k0 == k) = false := by simpa using h
      simp only [hb, Bool.false_eq_true, if_false]
      unfold Obj.get at ih ⊢
      simp only [List.find?_cons, hb]
      exact ih

theorem Obj.get_set_other (o : Obj) (k k1 : String) (v : Val) (h : k ≠ k1) :
    (o.set k1 v).get k = o.get k := by
  induction o with
  | nil =>
    have hb : (k1 == k) = false := by simpa using fun e => h e.symm
    simp [Obj.set, Obj.get, hb]
  | cons kv rest ih =>
    obtain ⟨k0, v0⟩ := kv
    unfold Obj.set
    by_cases h0 : k0 = k1
    · have hb : (k0 == k) = false := by simpa using fun e => h (e.symm.trans h0)
      simp [h0, Obj.get, List.find?_cons]
      subst h0
      simp [hb]
    · have hb : (k0 == k1) = false := by simpa using h0
      simp only [hb, Bool.false_eq_true, if_false]
      unfold Obj.get at ih ⊢
      by_cases hk : k0 = k
      · simp [List.find?_cons, hk]
      · have hb2 : (k0 == k) = false := by simpa using hk
        simp only [List.find?_cons, hb2]
        exact ih

theorem Obj.has_set_self (o : Obj) (k : String) (v : Val) : (o.set k v).has k = true := by
  induction o with
  | nil => simp [Obj.set, Obj.has]
  | cons kv rest ih =>
    obtain ⟨k0, v0⟩ := kv
    unfold Obj.set
    by_cases h : k0 = k
    · simp [h, Obj.has]
    · have hb : (k0 == k) = false := by simpa using h
      simp only [hb, Bool.false_eq_true, if_false]
      unfold Obj.has at ih ⊢
      simp only [List.any_cons, hb, Bool.false_or]
      exact ih

theorem Obj.has_set_other (o : Obj) (k k1 : String) (v : Val) (h : k ≠ k1) :
    (o.set k1 v).has k = o.has k := by
  induction o with
  | nil =>
    have hb : (k1 == k) = false := by simpa using fun e => h e.symm
    simp [Obj.set, Obj.has, hb]
  | cons kv rest ih =>
    obtain ⟨k0, v0⟩ := kv
    unfold Obj.set
    by_cases h0 : k0 = k1
    · simp [h0, Obj.has]
    · have hb : (k0 == k1) = false := by simpa using h0
      simp only [hb, Bool.false_eq_true, if_false]
      unfold Obj.has at ih ⊢
      simp only [List.any_cons, ih]

theorem Obj.has_delete_other (o : Obj) (k k1 : String) (h : k ≠ k1) :
    (o.delete k1).has k = o.has k := by
  induction o with
  | nil => rfl
  | cons kv rest ih =>
    unfold Obj.delete Obj.has at ih ⊢
    by_cases h1 : kv.1 = k1
    · have hb : (kv.1 == k) = false := by simpa using fun e => h (e.symm.trans h1)
      have hc : (kv.1 != k1) = false := by simp [h1]
      rw [List.filter_cons, hc]
      simp only [Bool.false_eq_true, if_false, List.any_cons, hb, Bool.false_or]
      exact ih
    · have hc : (kv.1 != k1) = true := by simp [h1]
      rw [List.filter_cons, hc]
      simp only [if_true, List.any_cons, ih]

theorem Obj.get_of_not_has (o : Obj) (k : String) (h : o.has k = false) :
    o.get k = .undefined := by
  have hf : o.find? (fun kv => kv.1 == k) = none := by
    rw [List.find?_eq_none]
    intro kv hkv
    simp only [Obj.has, List.any_eq_false] at h
    exact h kv hkv
  simp [Obj.get, hf]

theorem Obj.mem_keys_of_has (o : Obj) (k : String) (h : o.has k = true) :
    k ∈ o.map Prod.fst := by
  simp only [Obj.has, List.any_eq_true, beq_iff_eq] at h
  obtain ⟨kv, hkv, hk⟩ := h
  exact List.mem_map.mpr ⟨kv, hkv, hk⟩

theorem Obj.has_of_get_ne_undefined (o : Obj) (k : String) (h : o.get k ≠ .undefined) :
    o.has k = true := by
  by_contra hc
  exact h (Obj.get_of_not_has o k (by simpa using hc))

theorem Obj.has_of_truthy (o : Obj) (k : String) (h : (o.get k).truthy = true) :
    o.has k = true := by
  apply Obj.has_of_get_ne_undefined
  intro hu
  rw [hu] at h
  exact absurd h (by decide)

theorem Obj.get_dropFalsy_other (d : Obj) (k k1 : String) (h : k ≠ k1) :
    (if !(d.get k1).truthy then d.delete k1 else d).get k = d.get k := by
  split
  · exact Obj.get_delete_other d k k1 h
  · rfl

theorem Obj.has_dropFalsy_other (d : Obj) (k k1 : String) (h : k ≠ k1) :
    (if !(d.get k1).truthy then d.delete k1 else d).has k = d.has k := by
  split
  · exact Obj.has_delete_other d k k1 h
  · rfl

theorem Obj.has_dropFalsy_self (d : Obj) (k : String) :
    (if !(d.get k).truthy then d.delete k else d).has k = (d.get k).truthy := by
  by_cases h : (d.get k).truthy = true
  · simp [h, Obj.has_of_truthy d k h]
  · have h0 : (d.get k).truthy = false := by simpa using h
    simp [h0, Obj.has_delete_self]

theorem Obj.get_dropFalsy_self (d : Obj) (k : String) (h : (d.get k).truthy = true) :
    (if !(d.get k).truthy then d.delete k else d).get k = d.get k := by
  simp [h]

theorem cleanEmptyStrings_foldl (keys : List String) (d : Obj) (k : String) :
    ((keys.foldl (fun d k => if d.get k = .str "" then d.delete k else d) d).get k
        = if k ∈ keys ∧ d.get k = .str "" then .undefined else d.get k)
    ∧ ((keys.foldl (fun d k => if d.get k = .str "" then d.delete k else d) d).has k
        = if k ∈ keys ∧ d.get k = .str "" then false else d.has k) := by
  induction keys generalizing d with
  | nil => simp
  | cons k0 rest ih =>
    simp only [List.foldl_cons]
    obtain ⟨ihg, ihh⟩ := ih (if d.get k0 = .str "" then d.delete k0 else d)
    rw [ihg, ihh]
    by_cases hk : k = k0
    · subst hk
      by_cases he : d.get k = .str ""
      · simp [he, Obj.get_delete_self, Obj.has_delete_self]
      · simp [he]
    · have hg : (if d.get k0 = .str "" then d.delete k0 else d).get k = d.get k := by
        split
        · exact Obj.get_delete_other d k k0 hk
        · rfl
      have hh : (if d.get k0 = .str "" then d.delete k0 else d).has k = d.has k := by
        split
        · exact Obj.has_delete_other d k k0 hk
        · rfl
      rw [hg, hh]
      simp [hk]

theorem cleanEmptyStrings_get_has (d : Obj) (k : String) :
    ((cleanEmptyStrings d).get k = if d.get k = .str "" then .undefined else d.get k)
    ∧ ((cleanEmptyStrings d).has k = if d.get k = .str "" then false else d.has k) := by
  obtain ⟨hg, hh⟩ := cleanEmptyStrings_foldl (d.map Prod.fst) d k
  unfold cleanEmptyStrings
  rw [hg, hh]
  by_cases he : d.get k = .str ""
  · have hm : k ∈ d.map Prod.fst :=
      Obj.mem_keys_of_has d k (Obj.has_of_get_ne_undefined d k (by rw [he]; decide))
    simp [he, hm]
  · simp [he]

/-! ## Payloads of the create forms -/

/-- C11: for every form state, the payload built by
`AccountCreatePage.handleSubmit` contains `name` and `type` with exactly the
form's values; for every other key `k`, the payload never carries the empty
string, the key is absent when the form value is `''`, and it is present
unchanged when the form value is not `''`. -/
theorem AccountCreatePage_handleSubmit_payload (form : Obj) (k : String)
    (hn : k ≠ "name") (ht : k ≠ "type") :
    (AccountCreatePage.handleSubmit form).has "name" = true
    ∧ (AccountCreatePage.handleSubmit form).get "name" = form.get "name"
    ∧ (AccountCreatePage.handleSubmit form).has "type" = true
    ∧ (AccountCreatePage.handleSubmit form).get "type" = form.get "type"
    ∧ (AccountCreatePage.handleSubmit form).get k ≠ .str ""
    ∧ (form.get k = .str "" → (AccountCreatePage.handleSubmit form).has k = false)
    ∧ (form.get k ≠ .str "" →
        (AccountCreatePage.handleSubmit form).has k = form.has k
        ∧ (AccountCreatePage.handleSubmit form).get k = form.get k) := by
  have hnt : ("name" : String) ≠ "type" := by decide
  have hp : AccountCreatePage.handleSubmit form
      = ((cleanEmptyStrings form).set "name" (form.get "name")).set "type" (form.get "type") :=
    rfl
  obtain ⟨hg, hh⟩ := cleanEmptyStrings_get_has form k
  have hkg : (AccountCreatePage.handleSubmit form).get k
      = if form.get k = .str "" then .undefined else form.get k := by
    rw [hp, Obj.get_set_other _ _ _ _ ht, Obj.get_set_other _ _ _ _ hn, hg]
  have hkh : (AccountCreatePage.handleSubmit form).has k
      = if form.get k = .str "" then false else form.has k := by
    rw [hp, Obj.has_set_other _ _ _ _ ht, Obj.has_set_other _ _ _ _ hn, hh]
  refine ⟨?_, ?_, ?_, ?_, ?_, ?_, ?_⟩
  · rw [hp, Obj.has_set_other _ _ _ _ hnt, Obj.has_set_self]
  · rw [hp, Obj.get_set_other _ _ _ _ hnt, Obj.get_set_self]
  · rw [hp, Obj.has_set_self]
  · rw [hp, Obj.get_set_self]
  · rw [hkg]
    by_cases he : form.get k = .str ""
    · simp [he]
    · simp [he]
  · intro he
    rw [hkh]
    simp [he]
  · intro he
    rw [hkh, hkg]
    simp [he]

/-- Witness of C11: the initial form with the name typed in, at the keys
`phone` (left empty) and `state` (prefilled). -/
theorem AccountCreatePage_handleSubmit_payload_witness :
    ((AccountCreatePage.handleSubmit (setField AccountCreatePage.initialForm "name" "Acme")).has
        "name" = true
      ∧ (AccountCreatePage.handleSubmit (setField AccountCreatePage.initialForm "name" "Acme")).get
          "name" = .str "Acme"
      ∧ (AccountCreatePage.handleSubmit (setField AccountCreatePage.initialForm "name" "Acme")).has
          "phone" = false)
    ∧ (AccountCreatePage.handleSubmit (setField AccountCreatePage.initialForm "name" "Acme")).get
        "state" = .str "FL" :=
  ⟨⟨(AccountCreatePage_handleSubmit_payload
        (setField AccountCreatePage.initialForm "name" "Acme") "phone"
        (by decide) (by decide)).1,
      (AccountCreatePage_handleSubmit_payload
        (setField AccountCreatePage.initialForm "name" "Acme") "phone"
        (by decide) (by decide)).2.1,
      (AccountCreatePage_handleSubmit_payload
        (setField AccountCreatePage.initialForm "name" "Acme") "phone"
        (by decide) (by decide)).2.2.2.2.2.1 (by decide)⟩,
    ((AccountCreatePage_handleSubmit_payload
        (setField AccountCreatePage.initialForm "name" "Acme") "state"
        (by decide) (by decide)).2.2.2.2.2.2 (by decide)).2⟩

theorem PolicyModal_premium_step_other (parseFloat : String → Val) (d : Obj) (k : String)
    (h : k ≠ "premium") :
    ((if (d.get "premium").truthy then
          d.set "premium" (parseFloat (d.get "premium").toStr)
        else d.delete "premium").get k = d.get k)
    ∧ ((if (d.get "premium").truthy then
          d.set "premium" (parseFloat (d.get "premium").toStr)
        else d.delete "premium").has k = d.has k) := by
  split
  · exact ⟨Obj.get_set_other d k _ _ h, Obj.has_set_other d k _ _ h⟩
  · exact ⟨Obj.get_delete_other d k _ h, Obj.has_delete_other d k _ h⟩

theorem PolicyModal_premium_step_self (parseFloat : String → Val) (d : Obj) :
    ((if (d.get "premium").truthy then
          d.set "premium" (parseFloat (d.get "premium").toStr)
        else d.delete "premium").has "premium" = (d.get "premium").truthy)
    ∧ ((d.get "premium").truthy = true →
        (if (d.get "premium").truthy then
          d.set "premium" (parseFloat (d.get "premium").toStr)
        else d.delete "premium").get "premium" = parseFloat (d.get "premium").toStr) := by
  by_cases h : (d.get "premium").truthy = true
  · simp [h, Obj.has_set_self, Obj.get_set_self]
  · have h0 : (d.get "premium").truthy = false := by simpa using h
    simp [h0, Obj.has_delete_self]

/-- C12: for every form state, the payload built by `PolicyModal.handleSubmit`
contains each of `premium`, `carrier_id`, `policy_number` and `payment_plan`
exactly when its form value is non-empty; `carrier_id`, `policy_number` and
`payment_plan` are then sent unchanged and `premium` is sent as the number
`parseFloat(premium)`; `account_id`, `line_of_business`, `effective_date`,
`expiration_date` and `status` are carried unchanged. -/
theorem PolicyModal_handleSubmit_payload (parseFloat : String → Val)
    (hnum : ∀ s, typeofNumber (parseFloat s) = true) (form : Obj) :
    ((PolicyModal.handleSubmit parseFloat form).has "premium" = (form.get "premium").truthy
      ∧ (PolicyModal.handleSubmit parseFloat form).has "carrier_id"
          = (form.get "carrier_id").truthy
      ∧ (PolicyModal.handleSubmit parseFloat form).has "policy_number"
          = (form.get "policy_number").truthy
      ∧ (PolicyModal.handleSubmit parseFloat form).has "payment_plan"
          = (form.get "payment_plan").truthy)
    ∧ ((form.get "premium").truthy = true →
        (PolicyModal.handleSubmit parseFloat form).get "premium"
            = parseFloat (form.get "premium").toStr
        ∧ typeofNumber ((PolicyModal.handleSubmit parseFloat form).get "premium") = true)
    ∧ ((form.get "carrier_id").truthy = true →
        (PolicyModal.handleSubmit parseFloat form).get "carrier_id" = form.get "carrier_id")
    ∧ ((form.get "policy_number").truthy = true →
        (PolicyModal.handleSubmit parseFloat form).get "policy_number"
          = form.get "policy_number")
    ∧ ((form.get "payment_plan").truthy = true →
        (PolicyModal.handleSubmit parseFloat form).get "payment_plan"
          = form.get "payment_plan")
    ∧ ((PolicyModal.handleSubmit parseFloat form).get "account_id" = form.get "account_id"
      ∧ (PolicyModal.handleSubmit parseFloat form).get "line_of_business"
          = form.get "line_of_business"
      ∧ (PolicyModal.handleSubmit parseFloat form).get "effective_date"
          = form.get "effective_date"
      ∧ (PolicyModal.handleSubmit parseFloat form).get "expiration_date"
          = form.get "expiration_date"
      ∧ (PolicyModal.handleSubmit parseFloat form).get "status" = form.get "status")
    ∧ ((PolicyModal.handleSubmit parseFloat form).has "account_id" = form.has "account_id"
      ∧ (PolicyModal.handleSubmit parseFloat form).has "line_of_business"
          = form.has "line_of_business"
      ∧ (PolicyModal.handleSubmit parseFloat form).has "effective_date"
          = form.has "effective_date"
      ∧ (PolicyModal.handleSubmit parseFloat form).has "expiration_date"
          = form.has "expiration_date"
      ∧ (PolicyModal.handleSubmit parseFloat form).has "status" = form.has "status") := by
  -- the four steps of the handler, named
  generalize hd1 : (if (form.get "premium").truthy then
      form.set "premium" (parseFloat (form.get "premium").toStr)
    else form.delete "premium") = d1
  generalize hd2 : (if !(d1.get "carrier_id").truthy then d1.delete "carrier_id" else d1) = d2
  generalize hd3 :
    (if !(d2.get "policy_number").truthy then d2.delete "policy_number" else d2) = d3
  have hp : PolicyModal.handleSubmit parseFloat form
      = if !(d3.get "payment_plan").truthy then d3.delete "payment_plan" else d3 := by
    subst hd3 hd2 hd1
    rfl
  -- how each step acts on the other keys
  have g1 : ∀ k, k ≠ "premium" → d1.get k = form.get k ∧ d1.has k = form.has k := by
    intro k hk
    rw [← hd1]
    exact PolicyModal_premium_step_other parseFloat form k hk
  have g2 : ∀ k, k ≠ "carrier_id" → d2.get k = d1.get k ∧ d2.has k = d1.has k := by
    intro k hk
    rw [← hd2]
    exact ⟨Obj.get_dropFalsy_other d1 k _ hk, Obj.has_dropFalsy_other d1 k _ hk⟩
  have g3 : ∀ k, k ≠ "policy_number" → d3.get k = d2.get k ∧ d3.has k = d2.has k := by
    intro k hk
    rw [← hd3]
    exact ⟨Obj.get_dropFalsy_other d2 k _ hk, Obj.has_dropFalsy_other d2 k _ hk⟩
  have g4 : ∀ k, k ≠ "payment_plan" →
      (PolicyModal.handleSubmit parseFloat form).get k = d3.get k
      ∧ (PolicyModal.handleSubmit parseFloat form).has k = d3.has k := by
    intro k hk
    rw [hp]
    exact ⟨Obj.get_dropFalsy_other d3 k _ hk, Obj.has_dropFalsy_other d3 k _ hk⟩
  -- keys no step touches
  have keep : ∀ k, k ≠ "premium" → k ≠ "carrier_id" → k ≠ "policy_number" →
      k ≠ "payment_plan" →
      (PolicyModal.handleSubmit parseFloat form).get k = form.get k
      ∧ (PolicyModal.handleSubmit parseFloat form).has k = form.has k := by
    intro k h1 h2 h3 h4
    exact ⟨by rw [(g4 k h4).1, (g3 k h3).1, (g2 k h2).1, (g1 k h1).1],
      by rw [(g4 k h4).2, (g3 k h3).2, (g2 k h2).2, (g1 k h1).2]⟩
  -- the four optional keys
  have s1 := PolicyModal_premium_step_self parseFloat form
  rw [hd1] at s1
  have hprem_has : (PolicyModal.handleSubmit parseFloat form).has "premium"
      = (form.get "premium").truthy := by
    rw [(g4 _ (by decide)).2, (g3 _ (by decide)).2, (g2 _ (by decide)).2, s1.1]
  have hprem_get : (form.get "premium").truthy = true →
      (PolicyModal.handleSubmit parseFloat form).get "premium"
        = parseFloat (form.get "premium").toStr := by
    intro h
    rw [(g4 _ (by decide)).1, (g3 _ (by decide)).1, (g2 _ (by decide)).1, s1.2 h]
  have hc1 : d1.get "carrier_id" = form.get "carrier_id" := (g1 _ (by decide)).1
  have hcar_has : (PolicyModal.handleSubmit parseFloat form).has "carrier_id"
      = (form.get "carrier_id").truthy := by
    rw [(g4 _ (by decide)).2, (g3 _ (by decide)).2, ← hd2, Obj.has_dropFalsy_self, hc1]
  have hcar_get : (form.get "carrier_id").truthy = true →
      (PolicyModal.handleSubmit parseFloat form).get "carrier_id" = form.get "carrier_id" := by
    intro h
    rw [(g4 _ (by decide)).1, (g3 _ (by decide)).1, ← hd2,
      Obj.get_dropFalsy_self d1 _ (by rw [hc1]; exact h), hc1]
  have hn2 : d2.get "policy_number" = form.get "policy_number" := by
    rw [(g2 _ (by decide)).1, (g1 _ (by decide)).1]
  have hnum_has : (PolicyModal.handleSubmit parseFloat form).has "policy_number"
      = (form.get "policy_number").truthy := by
    rw [(g4 _ (by decide)).2, ← hd3, Obj.has_dropFalsy_self, hn2]
  have hnum_get : (form.get "policy_number").truthy = true →
      (PolicyModal.handleSubmit parseFloat form).get "policy_number"
        = form.get "policy_number" := by
    intro h
    rw [(g4 _ (by decide)).1, ← hd3, Obj.get_dropFalsy_self d2 _ (by rw [hn2]; exact h), hn2]
  have hy3 : d3.get "payment_plan" = form.get "payment_plan" := by
    rw [(g3 _ (by decide)).1, (g2 _ (by decide)).1, (g1 _ (by decide)).1]
  have hpay_has : (PolicyModal.handleSubmit parseFloat form).has "payment_plan"
      = (form.get "payment_plan").truthy := by
    rw [hp, Obj.has_dropFalsy_self, hy3]
  have hpay_get : (form.get "payment_plan").truthy = true →
      (PolicyModal.handleSubmit parseFloat form).get "payment_plan"
        = form.get "payment_plan" := by
    intro h
    rw [hp, Obj.get_dropFalsy_self d3 _ (by rw [hy3]; exact h), hy3]
  refine ⟨⟨hprem_has, hcar_has, hnum_has, hpay_has⟩, ?_, hcar_get, hnum_get, hpay_get,
    ⟨?_, ?_, ?_, ?_, ?_⟩, ⟨?_, ?_, ?_, ?_, ?_⟩⟩
  · intro h
    exact ⟨hprem_get h, by rw [hprem_get h]; exact hnum _⟩
  all_goals first
    | exact (keep _ (by decide) (by decide) (by decide) (by decide)).1
    | exact (keep _ (by decide) (by decide) (by decide) (by decide)).2

/-- Witness of C12: the form of account `A1` with a premium of `1200` and a
policy number typed in, carrier and payment plan left empty. -/
theorem PolicyModal_handleSubmit_payload_witness :
    PolicyModal.handleSubmit parseDigits
        (setField (setField (PolicyModal.initialForm "A1") "premium" "1200")
          "policy_number" "PN-7")
      = [ ("account_id", .str "A1"), ("line_of_business", .str ""),
          ("policy_number", .str "PN-7"), ("effective_date", .str ""),
          ("expiration_date", .str ""), ("premium", .num 1200), ("status", .str "Active") ]
    ∧ typeofNumber ((PolicyModal.handleSubmit parseDigits
        (setField (setField (PolicyModal.initialForm "A1") "premium" "1200")
          "policy_number" "PN-7")).get "premium") = true :=
  ⟨by decide,
    ((PolicyModal_handleSubmit_payload parseDigits (fun _ => rfl)
      (setField (setField (PolicyModal.initialForm "A1") "premium" "1200")
        "policy_number" "PN-7")).2.1 (by decide)).2⟩

/-! ## The interceptors -/

theorem getItem_filter_self (storage : List (String × String)) (key : String) :
    getItem (storage.filter fun kv => kv.1 != key) key = none := by
  have h : (storage.filter fun kv => kv.1 != key).find? (fun kv => kv.1 == key) = none := by
    rw [List.find?_eq_none]
    intro kv hkv
    have := (List.mem_filter.mp hkv).2
    simpa using this
  simp [getItem, h]

theorem getItem_filter_none (storage : List (String × String)) (key other : String)
    (h : getItem storage key = none) :
    getItem (storage.filter fun kv => kv.1 != other) key = none := by
  simp only [getItem, Option.map_eq_none', List.find?_eq_none] at h ⊢
  intro kv hkv
  exact h kv (List.mem_filter.mp hkv).1

/-- C13 (as stated, refuted): with no token in local storage the login request
passes the request interceptor unchanged and leaves without an
`Authorization` header. -/
theorem loginRequest_leaves_without_authorization :
    getItem [] "sentinel_token" = none
    ∧ requestInterceptor [] (loginRequest "agent@example.com" "secret")
        = loginRequest "agent@example.com" "secret"
    ∧ (requestInterceptor [] (loginRequest "agent@example.com" "secret")).headers.has
        "Authorization" = false := by
  decide

/-- C13 (amended): when a non-empty token is stored under `sentinel_token`, the
`Authorization` header of the returned configuration is `Bearer ` followed by
that token and nothing else in the configuration changes; when no token or an
empty token is stored, the configuration is returned unchanged. -/
theorem requestInterceptor_attaches_stored_token (storage : List (String × String))
    (config : RequestConfig) :
    (∀ token : String, getItem storage "sentinel_token" = some token → token ≠ "" →
        (requestInterceptor storage config).headers.get "Authorization"
            = .str ("Bearer " ++ token)
        ∧ (requestInterceptor storage config).headers.has "Authorization" = true
        ∧ (∀ name : String, name ≠ "Authorization" →
            (requestInterceptor storage config).headers.get name = config.headers.get name
            ∧ (requestInterceptor storage config).headers.has name = config.headers.has name)
        ∧ (requestInterceptor storage config).method = config.method
        ∧ (requestInterceptor storage config).url = config.url
        ∧ (requestInterceptor storage config).params = config.params
        ∧ (requestInterceptor storage config).data = config.data)
    ∧ ((getItem storage "sentinel_token" = none ∨ getItem storage "sentinel_token" = some "") →
        requestInterceptor storage config = config) := by
  constructor
  · intro token ht hne
    have hb : (token != "") = true := by simpa using hne
    have hr : requestInterceptor storage config
        = { config with
            headers := config.headers.set "Authorization" (.str ("Bearer " ++ token)) } := by
      simp [requestInterceptor, ht, hne]
    rw [hr]
    refine ⟨Obj.get_set_self _ _ _, Obj.has_set_self _ _ _, ?_, rfl, rfl, rfl, rfl⟩
    intro name hn
    exact ⟨Obj.get_set_other _ _ _ _ hn, Obj.has_set_other _ _ _ _ hn⟩
  · rintro (h | h) <;> simp [requestInterceptor, h]

/-- Witness of C13 (amended): a request for the account list sent while the
token `jwt-1` is stored. -/
theorem requestInterceptor_attaches_stored_token_witness :
    getItem [("sentinel_token", "jwt-1")] "sentinel_token" = some "jwt-1"
    ∧ (requestInterceptor [("sentinel_token", "jwt-1")]
          { method := "get", url := "/accounts",
            headers := [("Content-Type", .str "application/json")],
            params := [("page", .num 1)], data := [] }).headers.get "Authorization"
        = .str ("Bearer " ++ "jwt-1") :=
  ⟨by decide,
    ((requestInterceptor_attaches_stored_token [("sentinel_token", "jwt-1")]
        { method := "get", url := "/accounts",
          headers := [("Content-Type", .str "application/json")],
          params := [("page", .num 1)], data := [] }).1 "jwt-1" (by decide) (by decide)).1⟩

/-- C14: for every failed response, the response interceptor removes
`sentinel_token` and `sentinel_user` from local storage and redirects to
`/login` if and only if the response status is 401; for every other failure,
including one without a response, it performs no effect, so local storage and
location are unchanged; in every case the original error is re-raised. -/
theorem responseInterceptor_onRejected_teardown (error : AxiosError) (ui : Ui) :
    ((responseInterceptor.onRejected error).1
          = [.removeItem "sentinel_token", .removeItem "sentinel_user",
              .assignLocation "/login"]
        ↔ error.status = some 401)
    ∧ (error.status = some 401 →
        getItem ((responseInterceptor.onRejected error).1.foldl Ui.perform ui).storage
            "sentinel_token" = none
        ∧ getItem ((responseInterceptor.onRejected error).1.foldl Ui.perform ui).storage
            "sentinel_user" = none
        ∧ ((responseInterceptor.onRejected error).1.foldl Ui.perform ui).location = "/login")
    ∧ (error.status ≠ some 401 →
        (responseInterceptor.onRejected error).1 = []
        ∧ (responseInterceptor.onRejected error).1.foldl Ui.perform ui = ui)
    ∧ (responseInterceptor.onRejected error).2 = .error error := by
  refine ⟨?_, ?_, ?_, rfl⟩
  · by_cases h : error.status = some 401 <;>
      simp [responseInterceptor.onRejected, responseErrorInterceptor, h]
  · intro h
    simp only [responseInterceptor.onRejected, responseErrorInterceptor, h, if_true,
      List.foldl_cons, List.foldl_nil, Ui.perform, Ui.load]
    exact ⟨getItem_filter_none _ _ _ (getItem_filter_self _ _), getItem_filter_self _ _, trivial⟩
  · intro h
    simp [responseInterceptor.onRejected, responseErrorInterceptor, h]

/-- Witness of C14: a 401 on a logged-in session, and a failure without a
response. -/
theorem responseInterceptor_onRejected_teardown_witness :
    (getItem ((responseInterceptor.onRejected { status := some 401, detail := none }).1.foldl
        Ui.perform Ui.initial).storage "sentinel_token" = none
      ∧ getItem ((responseInterceptor.onRejected { status := some 401, detail := none }).1.foldl
          Ui.perform Ui.initial).storage "sentinel_user" = none
      ∧ ((responseInterceptor.onRejected { status := some 401, detail := none }).1.foldl
          Ui.perform Ui.initial).location = "/login")
    ∧ ((responseInterceptor.onRejected { status := none, detail := none }).1 = []
      ∧ (responseInterceptor.onRejected { status := none, detail := none }).1.foldl
          Ui.perform Ui.initial = Ui.initial) :=
  ⟨(responseInterceptor_onRejected_teardown { status := some 401, detail := none }
      Ui.initial).2.1 (by decide),
    (responseInterceptor_onRejected_teardown { status := none, detail := none }
      Ui.initial).2.2.1 (by decide)⟩

/-! ## Facts about the cache store -/

theorem CacheStore.get_put_self (store : CacheStore) (key : QueryKey) (e : CacheEntry) :
    (store.put key e).get key = some e := by
  unfold CacheStore.put
  cases hg : store.get key with
  | none =>
    have hf : store.entries.find? (fun x => x.1 == key) = none := by
      simpa [CacheStore.get] using hg
    simp [CacheStore.get, List.find?_append, hf]
  | some e0 =>
    simp only [Option.isSome_some, if_true, CacheStore.get]
    have hf : ∃ x, store.entries.find? (fun x => x.1 == key) = some x := by
      simp only [CacheStore.get, Option.map_eq_some'] at hg
      obtain ⟨x, hx, _⟩ := hg
      exact ⟨x, hx⟩
    obtain ⟨x, hx⟩ := hf
    generalize store.entries = l at hx
    induction l with
    | nil => simp at hx
    | cons y rest ih =>
      by_cases hy : y.1 = key
      · simp [List.find?_cons, hy]
      · have hb : (y.1 == key) = false := by simpa using hy
        simp only [List.find?_cons, hb] at hx
        simp only [List.map_cons, hb, Bool.false_eq_true, if_false, List.find?_cons]
        exact ih hx

theorem CacheStore.get_put_other (store : CacheStore) (key k : QueryKey) (e : CacheEntry)
    (h : k ≠ key) : (store.put key e).get k = store.get k := by
  have hb : (key == k) = false := by simpa using fun e => h e.symm
  unfold CacheStore.put
  split
  · simp only [CacheStore.get]
    congr 1
    generalize store.entries = l
    induction l with
    | nil => rfl
    | cons y rest ih =>
      by_cases hy : y.1 = key
      · have hyk : (y.1 == k) = false := by rw [hy]; exact hb
        simp only [List.map_cons, hy, beq_self_eq_true, if_true, List.find?_cons, hb, hyk]
        simpa [hy] using ih
      · have hyb : (y.1 == key) = false := by simpa using hy
        simp only [List.map_cons, hyb, Bool.false_eq_true, if_false, List.find?_cons]
        rw [ih]
  · simp [CacheStore.get, List.find?_append, hb]

theorem CacheStore.fetchLog_put (store : CacheStore) (key : QueryKey) (e : CacheEntry) :
    (store.put key e).fetchLog = store.fetchLog := by
  unfold CacheStore.put
  split <;> rfl

theorem CacheStore.get_resolve_other (store : CacheStore) (key k : QueryKey) (data : Val)
    (h : k ≠ key) : (store.resolve key data).get k = store.get k := by
  unfold CacheStore.resolve
  cases store.get key with
  | none => rfl
  | some e => exact CacheStore.get_put_other store key k _ h

theorem CacheStore.read_resolve_self (store : CacheStore) (key : QueryKey) (data : Val)
    (h : (store.get key).isSome = true) : (store.resolve key data).read key = some data := by
  unfold CacheStore.resolve CacheStore.read
  cases hg : store.get key with
  | none => simp [hg] at h
  | some e => simp [CacheStore.get_put_self]

theorem jsLength_eq_length (q : String) (h : ∀ c ∈ q.data, c.toNat < 65536) :
    jsLength q = q.length := by
  obtain ⟨l⟩ := q
  show (l.map fun c => if 65536 ≤ c.toNat then 2 else 1).sum = l.length
  simp only at h
  induction l with
  | nil => rfl
  | cons c rest ih =>
    have hc : ¬ 65536 ≤ c.toNat := by
      have := h c (List.mem_cons_self _ _)
      omega
    simp only [List.map_cons, List.sum_cons, hc, if_false, List.length_cons]
    rw [ih (fun c hc => h c (List.mem_cons_of_mem _ hc))]
    omega

theorem count_le_one_of_nodup {α : Type} [BEq α] [LawfulBEq α] (l : List α) (a : α)
    (h : l.Nodup) : l.count a ≤ 1 := by
  induction l with
  | nil => simp
  | cons b rest ih =>
    rw [List.nodup_cons] at h
    rw [List.count_cons]
    by_cases hb : b = a
    · subst hb
      have : rest.count b = 0 := List.count_eq_zero_of_not_mem h.1
      simp [this]
    · have hbf : (b == a) = false := by simpa using hb
      simp only [hbf, Bool.false_eq_true, if_false, Nat.add_zero]
      exact ih h.2

/-! ## Query keys and query gates -/

/-- C15: the query key of `AccountsPage` is an injective function of (page,
search, type, status); equal keys send identical requests; the keys for the
searches `a` and `ab` differ, and a response stored under the key of the first
leaves the entry of the second untouched. -/
theorem AccountsPage_queryKey_injective (s1 s2 : AccountsPage.State) (store : CacheStore)
    (data : Val) :
    (AccountsPage.queryKey s1 = AccountsPage.queryKey s2 ↔ s1 = s2)
    ∧ (AccountsPage.queryKey s1 = AccountsPage.queryKey s2 →
        (AccountsPage.accountsQuery s1).request = (AccountsPage.accountsQuery s2).request)
    ∧ (s1.search = "a" → s2.search = "ab" →
        AccountsPage.queryKey s1 ≠ AccountsPage.queryKey s2
        ∧ (store.resolve (AccountsPage.queryKey s1) data).get (AccountsPage.queryKey s2)
            = store.get (AccountsPage.queryKey s2)) := by
  have hinj : AccountsPage.queryKey s1 = AccountsPage.queryKey s2 ↔ s1 = s2 := by
    constructor
    · intro h
      obtain ⟨p1, q1, t1, u1⟩ := s1
      obtain ⟨p2, q2, t2, u2⟩ := s2
      simp only [AccountsPage.queryKey, List.cons.injEq, KeyPart.obj.injEq, Prod.mk.injEq,
        Val.num.injEq, Val.str.injEq, true_and, and_true] at h
      obtain ⟨hp, hq, ht, hu⟩ := h
      subst hp hq ht hu
      rfl
    · intro h
      rw [h]
  refine ⟨hinj, ?_, ?_⟩
  · intro h
    rw [hinj.mp h]
  · intro ha hab
    have hne : AccountsPage.queryKey s1 ≠ AccountsPage.queryKey s2 := by
      intro h
      have hs := hinj.mp h
      rw [hs, hab] at ha
      exact absurd ha (by decide)
    exact ⟨hne, CacheStore.get_resolve_other store _ _ data (Ne.symm hne)⟩

/-- Witness of C15: page 1 with the searches `a` and `ab`. -/
theorem AccountsPage_queryKey_injective_witness :
    AccountsPage.queryKey { page := 1, search := "a", typeFilter := "", statusFilter := "" }
        ≠ AccountsPage.queryKey
            { page := 1, search := "ab", typeFilter := "", statusFilter := "" }
    ∧ (CacheStore.sample.resolve
          (AccountsPage.queryKey
            { page := 1, search := "a", typeFilter := "", statusFilter := "" })
          (.str "late")).get
        (AccountsPage.queryKey
          { page := 1, search := "ab", typeFilter := "", statusFilter := "" })
      = CacheStore.sample.get
          (AccountsPage.queryKey
            { page := 1, search := "ab", typeFilter := "", statusFilter := "" }) :=
  (AccountsPage_queryKey_injective
    { page := 1, search := "a", typeFilter := "", statusFilter := "" }
    { page := 1, search := "ab", typeFilter := "", statusFilter := "" }
    CacheStore.sample (.str "late")).2.2 rfl rfl

/-- C16: for every search string `q`, both queries of `QuickSearch` are enabled
if and only if `q.length >= 2` (the JavaScript length, which is the number of
characters of `q` when all of them lie in the Basic Multilingual Plane); a
shorter `q` issues no request, and an enabled query sends `q` as `search` with
`page_size` 5, to `/accounts` and to `/prospects`. -/
theorem QuickSearch_queries_enabled (q : String) :
    ((QuickSearch.accountsQuery q).enabled = true ↔ 2 ≤ jsLength q)
    ∧ ((QuickSearch.prospectsQuery q).enabled = true ↔ 2 ≤ jsLength q)
    ∧ (jsLength q < 2 →
        (QuickSearch.accountsQuery q).issued = []
        ∧ (QuickSearch.prospectsQuery q).issued = [])
    ∧ (2 ≤ jsLength q →
        (QuickSearch.accountsQuery q).issued
            = [{ url := "/accounts", params := [("search", .str q), ("page_size", .num 5)] }]
        ∧ (QuickSearch.prospectsQuery q).issued
            = [{ url := "/prospects", params := [("search", .str q), ("page_size", .num 5)] }])
    ∧ ((∀ c ∈ q.data, c.toNat < 65536) → jsLength q = q.length) := by
  refine ⟨by simp [QuickSearch.accountsQuery], by simp [QuickSearch.prospectsQuery], ?_, ?_,
    jsLength_eq_length q⟩
  · intro h
    have h2 : ¬ 2 ≤ jsLength q := by omega
    simp [QueryDecl.issued, QuickSearch.accountsQuery, QuickSearch.prospectsQuery, h2]
  · intro h
    simp [QueryDecl.issued, QuickSearch.accountsQuery, QuickSearch.prospectsQuery, h]

/-- Witness of C16: the one-character query `a` and the two-character query
`ab`. -/
theorem QuickSearch_queries_enabled_witness :
    ((QuickSearch.accountsQuery "a").issued = []
      ∧ (QuickSearch.prospectsQuery "a").issued = [])
    ∧ ((QuickSearch.accountsQuery "ab").issued
          = [{ url := "/accounts", params := [("search", .str "ab"), ("page_size", .num 5)] }]
      ∧ (QuickSearch.prospectsQuery "ab").issued
          = [{ url := "/prospects", params := [("search", .str "ab"), ("page_size", .num 5)] }]) :=
  ⟨(QuickSearch_queries_enabled "a").2.2.1 (by decide),
    (QuickSearch_queries_enabled "ab").2.2.2.1 (by decide)⟩

/-! ## Idempotent invalidation and shared fetches -/

theorem CacheStore.markStale_markStale (pfx : QueryKey) (store : CacheStore) :
    (store.markStale pfx).markStale pfx = store.markStale pfx := by
  unfold CacheStore.markStale
  simp only [List.map_map, List.filter_map, CacheStore.mk.injEq]
  constructor
  · apply List.map_congr_left
    intro x _
    by_cases hm : matchesKey pfx x.1 = true
    · simp [Function.comp, hm]
    · simp [Function.comp, hm]
  · have he : (store.entries.filter
        ((fun x : QueryKey × CacheEntry =>
            matchesKey pfx x.1 && decide (0 < x.2.subscriberCount) && !x.2.fetching) ∘
          fun x => if matchesKey pfx x.1 then
              (x.1, { x.2 with stale := true,
                               fetching := x.2.fetching || decide (0 < x.2.subscriberCount) })
            else x)) = [] := by
      rw [List.filter_eq_nil_iff]
      intro x _
      by_cases hm : matchesKey pfx x.1 = true
      · by_cases hs : 0 < x.2.subscriberCount
        · simp [Function.comp, hm, hs]
        · simp [Function.comp, hm, hs]
      · simp [Function.comp, hm]
    rw [he]
    simp

theorem CacheStore.markStale_count_le (key : QueryKey) (store : CacheStore)
    (hw : (store.entries.map Prod.fst).Nodup) :
    (store.markStale key).fetchLog.count key ≤ store.fetchLog.count key + 1 := by
  unfold CacheStore.markStale
  simp only [List.count_append]
  have h1 : ((store.entries.filter fun x =>
      matchesKey key x.1 && decide (0 < x.2.subscriberCount) && !x.2.fetching).map
        Prod.fst).count key ≤ (store.entries.map Prod.fst).count key :=
    List.Sublist.count_le ((List.filter_sublist _).map _) _
  have h2 : (store.entries.map Prod.fst).count key ≤ 1 :=
    count_le_one_of_nodup _ key hw
  omega

/-- C18: invalidation is idempotent: for every cache state and every key,
invalidating the key twice yields the same entries and the same re-fetches as
invalidating it once; the two invalidations of `NoteForm` with entity type
`Account` both target `["accountNotes", id]`, equal a single invalidation, and
on a store with one entry per key schedule at most one re-fetch of that key. -/
theorem invalidation_idempotent (pfx : QueryKey) (store : CacheStore) (id : String)
    (r : Response) (hw : (store.entries.map Prod.fst).Nodup) :
    (store.markStale pfx).markStale pfx = store.markStale pfx
    ∧ declaredKeys (NoteForm.mutation "Account" id) r
        = [[ks "accountNotes", ks id], [ks "accountNotes", ks id]]
    ∧ store.invalidate (declaredKeys (NoteForm.mutation "Account" id) r)
        = store.markStale [ks "accountNotes", ks id]
    ∧ (store.invalidate (declaredKeys (NoteForm.mutation "Account" id) r)).fetchLog.count
          [ks "accountNotes", ks id]
        ≤ store.fetchLog.count [ks "accountNotes", ks id] + 1 := by
  have hA : toLowerCase "Account" ++ "Notes" = "accountNotes" := by decide
  have hd : declaredKeys (NoteForm.mutation "Account" id) r
      = [[ks "accountNotes", ks id], [ks "accountNotes", ks id]] := by
    have : declaredKeys (NoteForm.mutation "Account" id) r
        = [[ks (toLowerCase "Account" ++ "Notes"), ks id], [ks "accountNotes", ks id]] := rfl
    rw [this, hA]
  have hi : store.invalidate (declaredKeys (NoteForm.mutation "Account" id) r)
      = store.markStale [ks "accountNotes", ks id] := by
    rw [hd]
    simp only [CacheStore.invalidate, List.foldl_cons, List.foldl_nil]
    exact CacheStore.markStale_markStale _ store
  refine ⟨CacheStore.markStale_markStale pfx store, hd, hi, ?_⟩
  rw [hi]
  exact CacheStore.markStale_count_le _ store hw

/-- Witness of C18: the sample store, whose account notes are shown by one
view, after a note was added to account `A1`. -/
theorem invalidation_idempotent_witness :
    (CacheStore.sample.entries.map Prod.fst).Nodup
    ∧ (CacheStore.sample.markStale [ks "dashboard"]).markStale [ks "dashboard"]
        = CacheStore.sample.markStale [ks "dashboard"]
    ∧ (CacheStore.sample.invalidate
          (declaredKeys (NoteForm.mutation "Account" "A1") { data := [] })).fetchLog.count
          [ks "accountNotes", ks "A1"]
        ≤ CacheStore.sample.fetchLog.count [ks "accountNotes", ks "A1"] + 1 :=
  ⟨by decide,
    (invalidation_idempotent [ks "dashboard"] CacheStore.sample "A1" { data := [] }
      (by decide)).1,
    (invalidation_idempotent [ks "dashboard"] CacheStore.sample "A1" { data := [] }
      (by decide)).2.2.2⟩

theorem CacheStore.query_get_some (key : QueryKey) (store : CacheStore) :
    ∃ e, (store.query key).get key = some e
      ∧ (e.stale = true → e.fetching = true) := by
  unfold CacheStore.query
  cases hg : store.get key with
  | none =>
    refine ⟨{ data := none, stale := true, fetching := true, subscriberCount := 1 }, ?_,
      fun _ => rfl⟩
    show (store.put key _).get key = _
    exact CacheStore.get_put_self store key _
  | some e =>
    by_cases hs : e.stale = true
    · by_cases hf : e.fetching = true
      · refine ⟨{ e with subscriberCount := e.subscriberCount + 1 }, ?_, fun _ => hf⟩
        simp only [hs, hf, Bool.not_true, Bool.false_eq_true, if_false, if_true]
        exact CacheStore.get_put_self store key _
      · refine ⟨{ e with fetching := true, subscriberCount := e.subscriberCount + 1 }, ?_,
          fun _ => rfl⟩
        simp only [hs, hf, Bool.not_true, Bool.false_eq_true, if_false]
        show (store.put key _).get key = _
        exact CacheStore.get_put_self store key _
    · have hs0 : e.stale = false := by simpa using hs
      refine ⟨{ e with subscriberCount := e.subscriberCount + 1 }, ?_, ?_⟩
      · simp only [hs0, Bool.not_false, if_true]
        exact CacheStore.get_put_self store key _
      · intro h
        exact absurd h (by simp [hs0])

theorem CacheStore.query_fetchLog_joined (key : QueryKey) (store : CacheStore) (e : CacheEntry)
    (hg : store.get key = some e) (hf : e.stale = true → e.fetching = true) :
    (store.query key).fetchLog = store.fetchLog := by
  unfold CacheStore.query
  rw [hg]
  by_cases hs : e.stale = true
  · simp only [hs, hf hs, Bool.not_true, Bool.false_eq_true, if_false, if_true]
    exact CacheStore.fetchLog_put store key _
  · have hs0 : e.stale = false := by simpa using hs
    simp only [hs0, Bool.not_false, if_true]
    exact CacheStore.fetchLog_put store key _

/-- C19: in the cache model of the spec, for every key `K` the second of two
queries for `K` issued before either resolves invokes no fetch, the two
together invoke the fetch function at most once, and exactly once when `K` has
no entry or a stale entry that is not being fetched; once the fetch resolves,
the subscribers of `K` read the same data. `CarriersPage` and `PolicyModal`
declare the same key `["carriers"]` with the same request. -/
theorem concurrent_queries_share_fetch (key : QueryKey) (store : CacheStore) (data : Val) :
    ((store.query key).query key).fetchLog = (store.query key).fetchLog
    ∧ (((store.query key).query key).fetchLog = store.fetchLog
        ∨ ((store.query key).query key).fetchLog = store.fetchLog ++ [key])
    ∧ ((store.get key = none
          ∨ ∃ e, store.get key = some e ∧ e.stale = true ∧ e.fetching = false) →
        ((store.query key).query key).fetchLog = store.fetchLog ++ [key])
    ∧ (((store.query key).query key).resolve key data).read key = some data
    ∧ CarriersPage.carriersQuery.queryKey = PolicyModal.carriersQuery.queryKey
    ∧ CarriersPage.carriersQuery.request = PolicyModal.carriersQuery.request := by
  obtain ⟨e1, hg1, hf1⟩ := CacheStore.query_get_some key store
  have hsecond : ((store.query key).query key).fetchLog = (store.query key).fetchLog :=
    CacheStore.query_fetchLog_joined key (store.query key) e1 hg1 hf1
  have hfirst : (store.query key).fetchLog = store.fetchLog
      ∨ (store.query key).fetchLog = store.fetchLog ++ [key] := by
    unfold CacheStore.query
    cases store.get key with
    | none => exact Or.inr rfl
    | some e =>
      by_cases hs : e.stale = true <;> by_cases hf : e.fetching = true
      · left; simp only [hs, hf, Bool.not_true, Bool.false_eq_true, if_false, if_true]
        exact CacheStore.fetchLog_put store key _
      · right; simp only [hs, hf, Bool.not_true, Bool.false_eq_true, if_false]
      · left; simp only [hs, Bool.not_eq_true, Bool.not_false, if_true]
        exact CacheStore.fetchLog_put store key _
      · left; simp only [hs, Bool.not_eq_true, Bool.not_false, if_true]
        exact CacheStore.fetchLog_put store key _
  refine ⟨hsecond, ?_, ?_, ?_, rfl, rfl⟩
  · rw [hsecond]
    exact hfirst
  · intro h
    rw [hsecond]
    unfold CacheStore.query
    rcases h with h | ⟨e, he, hs, hf⟩
    · rw [h]
    · rw [he]
      simp only [hs, hf, Bool.not_true, Bool.false_eq_true, if_false]
  · apply CacheStore.read_resolve_self
    obtain ⟨e2, hg2, _⟩ := CacheStore.query_get_some key (store.query key)
    rw [hg2]
    rfl

/-- Witness of C19: `CarriersPage` and `PolicyModal` request `["carriers"]`
from a store that has no entry for it. -/
theorem concurrent_queries_share_fetch_witness :
    CacheStore.sample.get CarriersPage.carriersQuery.queryKey = none
    ∧ ((CacheStore.sample.query CarriersPage.carriersQuery.queryKey).query
          PolicyModal.carriersQuery.queryKey).fetchLog
        = CacheStore.sample.fetchLog ++ [CarriersPage.carriersQuery.queryKey] :=
  ⟨by decide,
    (concurrent_queries_share_fetch CarriersPage.carriersQuery.queryKey CacheStore.sample
      (.str "carriers")).2.2.1 (Or.inl (by decide))⟩

/-- C20: the query client is configured with a default `staleTime` of 30000 ms
and a default `retry` of 1, no `useQuery` declaration of the repository gives
`staleTime` or `retry`, and so every query runs with exactly these values. -/
theorem queries_run_with_default_options (v : ViewState) (q : QueryDecl)
    (hq : q ∈ allQueries v) :
    queryClient.defaultOptions.staleTime = 30000
    ∧ queryClient.defaultOptions.retry = 1
    ∧ q.staleTime = none
    ∧ q.retry = none
    ∧ q.effectiveStaleTime queryClient.defaultOptions = 30000
    ∧ q.effectiveRetry queryClient.defaultOptions = 1 := by
  simp only [allQueries, List.mem_cons, List.mem_singleton, List.not_mem_nil, or_false] at hq
  rcases hq with
    rfl | rfl | rfl | rfl | rfl | rfl | rfl | rfl | rfl | rfl | rfl | rfl | rfl | rfl | rfl | rfl | rfl | rfl | rfl | rfl | rfl | rfl | rfl | rfl | rfl | rfl | rfl | rfl | rfl | rfl | rfl | rfl
  all_goals exact ⟨rfl, rfl, rfl, rfl, rfl, rfl⟩

/-- Witness of C20: the dashboard query, which sets `refetchInterval` only. -/
theorem queries_run_with_default_options_witness :
    DashboardPage.dashQuery ∈ allQueries ViewState.sample
    ∧ DashboardPage.dashQuery.effectiveStaleTime queryClient.defaultOptions = 30000
    ∧ DashboardPage.dashQuery.effectiveRetry queryClient.defaultOptions = 1 :=
  ⟨by decide,
    (queries_run_with_default_options ViewState.sample DashboardPage.dashQuery
      (by decide)).2.2.2.2⟩

/-! ## Dates -/

theorem isLeapYear_succ (y : Nat) (h : isLeapYear y = true) : isLeapYear (y + 1) = false := by
  simp only [isLeapYear, Bool.or_eq_true, Bool.and_eq_true, beq_iff_eq, bne_iff_ne, ne_eq,
    Bool.or_eq_false_iff, Bool.and_eq_false_iff, beq_eq_false_iff_ne] at h ⊢
  omega

theorem daysInMonth_feb (y : Nat) : daysInMonth y 2 = if isLeapYear y then 29 else 28 := by
  simp [daysInMonth]

theorem daysInMonth_succ_year (y m : Nat) (h : m ≠ 2) : daysInMonth (y + 1) m = daysInMonth y m := by
  simp [daysInMonth, h]

/-- Advancing the year of an existing date and resolving the result gives the
same month and day, and 1 March for a 29 February. -/
theorem makeDay_succ_year (d : CivilDate) (hv : d.isInputDate = true) :
    makeDay (d.year + 1) d.month d.day
      = if d.month = 2 ∧ d.day = 29 then { year := d.year + 1, month := 3, day := 1 }
        else { year := d.year + 1, month := d.month, day := d.day } := by
  obtain ⟨y, m, day⟩ := d
  simp only [CivilDate.isInputDate, Bool.and_eq_true, decide_eq_true_eq] at hv
  obtain ⟨⟨⟨⟨⟨hy1, hy2⟩, hm1⟩, hm2⟩, hd1⟩, hd2⟩ := hv
  simp only [makeDay]
  by_cases hm : m = 2
  · subst hm
    rw [daysInMonth_feb] at hd2 ⊢
    by_cases hl : isLeapYear y = true
    · rw [isLeapYear_succ y hl]
      simp only [hl, if_true] at hd2
      by_cases h29 : day = 29
      · subst h29; simp
      · have : day ≤ 28 := by omega
        simp [this, h29]
    · have hl0 : isLeapYear y = false := by simpa using hl
      simp only [hl0, Bool.false_eq_true, if_false] at hd2
      have h29 : day ≠ 29 := by omega
      have : day ≤ (if isLeapYear (y + 1) = true then 29 else 28) := by split <;> omega
      simp [this, h29]
  · rw [daysInMonth_succ_year y m hm]
    simp [hd2, hm]

/-- Going back a day, advancing the year and going forward a day gives the
same month and day of the next year (1 March for a 29 February), except on a
1 March with a 29 February before it or a year after it. -/
theorem nextDay_makeDay_prevDay (d : CivilDate) (hv : d.isInputDate = true)
    (hz : ¬ (d.month = 3 ∧ d.day = 1
      ∧ (isLeapYear d.year = true ∨ isLeapYear (d.year + 1) = true))) :
    nextDay (makeDay ((prevDay d).year + 1) (prevDay d).month (prevDay d).day)
      = if d.month = 2 ∧ d.day = 29 then { year := d.year + 1, month := 3, day := 1 }
        else { year := d.year + 1, month := d.month, day := d.day } := by
  obtain ⟨y, m, day⟩ := d
  simp only [CivilDate.isInputDate, Bool.and_eq_true, decide_eq_true_eq] at hv
  obtain ⟨⟨⟨⟨⟨hy1, hy2⟩, hm1⟩, hm2⟩, hd1⟩, hd2⟩ := hv
  simp only at hz
  have hleap : isLeapYear y = true → isLeapYear (y + 1) = false := isLeapYear_succ y
  have hyy : y - 1 + 1 = y := by omega
  by_cases hday : 1 < day
  · -- the day before is in the same month
    by_cases hm : m = 2
    · subst hm
      rw [daysInMonth_feb] at hd2
      simp only [prevDay, hday, if_true, makeDay, nextDay, daysInMonth_feb]
      by_cases hl : isLeapYear y = true
      · simp only [hl, if_true] at hd2
        simp only [hleap hl, Bool.false_eq_true, if_false]
        by_cases h29 : day = 29
        · subst h29; simp [daysInMonth_feb, hleap hl]
        · have h1 : day - 1 ≤ 28 := by omega
          have h2 : day - 1 < 28 := by omega
          have h3 : day - 1 + 1 = day := by omega
          simp [h1, h2, h3, h29, daysInMonth_feb, hleap hl]
      · have hl0 : isLeapYear y = false := by simpa using hl
        simp only [hl0, Bool.false_eq_true, if_false] at hd2
        have h29 : day ≠ 29 := by omega
        have h3 : day - 1 + 1 = day := by omega
        by_cases hl1 : isLeapYear (y + 1) = true
        · have h1 : day - 1 ≤ 29 := by omega
          have h2 : day - 1 < 29 := by omega
          simp [hl1, h1, h2, h3, h29, daysInMonth_feb]
        · have hl10 : isLeapYear (y + 1) = false := by simpa using hl1
          have h1 : day - 1 ≤ 28 := by omega
          have h2 : day - 1 < 28 := by omega
          simp [hl10, h1, h2, h3, h29, daysInMonth_feb]
    · have h1 : day - 1 ≤ daysInMonth y m := by omega
      have h2 : day - 1 < daysInMonth y m := by omega
      have h3 : day - 1 + 1 = day := by omega
      simp [prevDay, hday, makeDay, nextDay, daysInMonth_succ_year y m hm, h1,
        h2, h3, hm]
  · -- the day before is the last day of the month before
    have hday1 : day = 1 := by omega
    subst hday1
    by_cases hm1' : m = 1
    · subst hm1'
      simp [prevDay, makeDay, nextDay, hyy, daysInMonth]
    · by_cases hm3 : m = 3
      · subst hm3
        have hl0 : isLeapYear y = false := by
          cases h : isLeapYear y with
          | false => rfl
          | true => exact absurd ⟨rfl, rfl, Or.inl h⟩ hz
        have hl1 : isLeapYear (y + 1) = false := by
          cases h : isLeapYear (y + 1) with
          | false => rfl
          | true => exact absurd ⟨rfl, rfl, Or.inr h⟩ hz
        simp [prevDay, makeDay, nextDay, daysInMonth_feb, hl0, hl1]
      · have hlt : 1 < m := by omega
        have hm2' : m - 1 ≠ 2 := by omega
        have hlt12 : m - 1 < 12 := by omega
        have hback : m - 1 + 1 = m := by omega
        have hm2 : ¬ (m = 2 ∧ (1 : Nat) = 29) := by omega
        simp [prevDay, hlt, makeDay, nextDay, daysInMonth_succ_year y (m - 1) hm2',
          hlt12, hback, hm2]

theorem TimeValue.add_same_day (t : TimeValue) (delta : Int) (h0 : 0 ≤ t.ms + delta)
    (h1 : t.ms + delta < msPerDay) : t.add delta = { date := t.date, ms := t.ms + delta } := by
  unfold msPerDay at h1
  have hq : (t.ms + delta) / msPerDay = 0 := by unfold msPerDay; omega
  have hr : (t.ms + delta) % msPerDay = t.ms + delta := by unfold msPerDay; omega
  simp [TimeValue.add, hq, hr, addDays]

theorem TimeValue.add_prev_day (t : TimeValue) (delta : Int) (h0 : -msPerDay ≤ t.ms + delta)
    (h1 : t.ms + delta < 0) :
    t.add delta = { date := prevDay t.date, ms := t.ms + delta + msPerDay } := by
  unfold msPerDay at h0
  have hq : (t.ms + delta) / msPerDay = -1 := by unfold msPerDay; omega
  have hr : (t.ms + delta) % msPerDay = t.ms + delta + msPerDay := by unfold msPerDay; omega
  simp [TimeValue.add, hq, hr, addDays]

theorem TimeValue.add_next_day (t : TimeValue) (delta : Int) (h0 : msPerDay ≤ t.ms + delta)
    (h1 : t.ms + delta < 2 * msPerDay) :
    t.add delta = { date := nextDay t.date, ms := t.ms + delta - msPerDay } := by
  unfold msPerDay at h0 h1
  have hq : (t.ms + delta) / msPerDay = 1 := by unfold msPerDay; omega
  have hr : (t.ms + delta) % msPerDay = t.ms + delta - msPerDay := by unfold msPerDay; omega
  simp [TimeValue.add, hq, hr, addDays]

/-- The date the handler computes, in a browser whose offset at the advanced
local time is not larger than its offset at midnight UTC of the date. -/
theorem addYearLocal_eq (tz : TimeZone) (d : CivilDate) (hv : d.isInputDate = true)
    (hlo : -msPerDay ≤ tz.offsetAtUTC { date := d, ms := 0 })
    (hhi : tz.offsetAtUTC { date := d, ms := 0 } < msPerDay)
    (hle : tz.offsetAtLocal (advancedLocal tz d) ≤ tz.offsetAtUTC { date := d, ms := 0 })
    (hlt : tz.offsetAtUTC { date := d, ms := 0 } - tz.offsetAtLocal (advancedLocal tz d)
      < msPerDay)
    (hz : tz.offsetAtUTC { date := d, ms := 0 } < 0 →
      ¬ (d.month = 3 ∧ d.day = 1
        ∧ (isLeapYear d.year = true ∨ isLeapYear (d.year + 1) = true))) :
    addYearLocal tz d
      = if d.month = 2 ∧ d.day = 29 then { year := d.year + 1, month := 3, day := 1 }
        else { year := d.year + 1, month := d.month, day := d.day } := by
  generalize ho : tz.offsetAtUTC { date := d, ms := 0 } = o at hlo hhi hle hlt hz
  by_cases hneg : o < 0
  · have hloc : localAtMidnightUTC tz d = { date := prevDay d, ms := o + msPerDay } := by
      unfold localAtMidnightUTC
      rw [ho, TimeValue.add_prev_day _ _ (by simpa using hlo) (by simpa using hneg)]
      simp
    have hadv : advancedLocal tz d
        = { date := makeDay ((prevDay d).year + 1) (prevDay d).month (prevDay d).day,
            ms := o + msPerDay } := by
      unfold advancedLocal
      rw [hloc]
    generalize ho' : tz.offsetAtLocal (advancedLocal tz d) = o' at hle hlt
    unfold addYearLocal
    rw [ho', hadv, TimeValue.add_next_day _ _ (by simp only; omega)
      (by simp only; unfold msPerDay at *; omega)]
    exact nextDay_makeDay_prevDay d hv (hz hneg)
  · have hloc : localAtMidnightUTC tz d = { date := d, ms := o } := by
      unfold localAtMidnightUTC
      rw [ho, TimeValue.add_same_day _ _ (by simp only; omega) (by simpa using hhi)]
      simp
    have hadv : advancedLocal tz d
        = { date := makeDay (d.year + 1) d.month d.day, ms := o } := by
      unfold advancedLocal
      rw [hloc]
    generalize ho' : tz.offsetAtLocal (advancedLocal tz d) = o' at hle hlt
    unfold addYearLocal
    rw [ho', hadv, TimeValue.add_same_day _ _ (by simp only; omega) (by simp only; omega)]
    exact makeDay_succ_year d hv

theorem toISODate_ne_empty (d : CivilDate) : toISODate d ≠ "" := by
  unfold toISODate
  intro h
  have h1 := congrArg String.length h
  simp only [String.length_append] at h1
  have h2 : "-".length = 1 := by decide
  have h3 : "".length = 0 := by decide
  omega

/-! ## The effective-date handler -/

/-- C17 (as stated, refuted): changing the effective date to 29 February 2024
while the expiration date is empty sets the expiration date to 1 March 2025,
at UTC, in New York and in Berlin alike, not to a date with the same month and
day. -/
theorem handleEffectiveChange_leap_day :
    CivilDate.isInputDate { year := 2024, month := 2, day := 29 } = true
    ∧ (PolicyModal.initialForm "A1").get "expiration_date" = .str ""
    ∧ (PolicyModal.handleEffectiveChange (TimeZone.fixed 0) (PolicyModal.initialForm "A1")
          (.date { year := 2024, month := 2, day := 29 })).get "expiration_date"
        = .str "2025-03-01"
    ∧ (PolicyModal.handleEffectiveChange TimeZone.newYork (PolicyModal.initialForm "A1")
          (.date { year := 2024, month := 2, day := 29 })).get "expiration_date"
        = .str "2025-03-01"
    ∧ (PolicyModal.handleEffectiveChange TimeZone.berlin (PolicyModal.initialForm "A1")
          (.date { year := 2024, month := 2, day := 29 })).get "expiration_date"
        = .str "2025-03-01"
    ∧ (PolicyModal.handleEffectiveChange (TimeZone.fixed 0) (PolicyModal.initialForm "A1")
          (.date { year := 2024, month := 2, day := 29 })).get "expiration_date"
        ≠ .str (toISODate { year := 2025, month := 2, day := 29 }) := by
  decide

/-- The handler reads the date at midnight UTC and advances the year on the
local clock. Five hours behind UTC the effective date 1 March 2023 gives the
expiration date 29 February 2024; in New York 10 March 2024, the day the clocks
go forward, gives 9 March 2025; in Berlin 31 March 2024 gives 30 March 2025. -/
theorem handleEffectiveChange_off_by_one :
    (PolicyModal.handleEffectiveChange (TimeZone.fixed (-18000000))
          (PolicyModal.initialForm "A1")
          (.date { year := 2023, month := 3, day := 1 })).get "expiration_date"
        = .str "2024-02-29"
    ∧ (PolicyModal.handleEffectiveChange TimeZone.newYork (PolicyModal.initialForm "A1")
          (.date { year := 2024, month := 3, day := 10 })).get "expiration_date"
        = .str "2025-03-09"
    ∧ (PolicyModal.handleEffectiveChange TimeZone.berlin (PolicyModal.initialForm "A1")
          (.date { year := 2024, month := 3, day := 31 })).get "expiration_date"
        = .str "2025-03-30" := by
  decide

/-- C17 (amended): in a browser of any time zone, the handler sets
`effective_date` to the new value and changes no field other than
`effective_date` and `expiration_date`; when the new value is empty or the
expiration date is non-empty, the expiration date is unchanged; when the new
value is a date `d` and the expiration date is empty, the expiration date
becomes the date with the year advanced by one and the same month and day,
except that 29 February becomes 1 March of the next year. The last part is
stated where the browser's UTC offset at the advanced local time is not larger
than its offset at midnight UTC of `d` (both less than a day), and, when the
browser is behind UTC, `d` is not a 1 March with a 29 February before it or a
year after it. -/
theorem handleEffectiveChange_sets_expiration (tz : TimeZone) (f : Obj)
    (value : DateValue) :
    (PolicyModal.handleEffectiveChange tz f value).get "effective_date"
        = .str value.toStr
    ∧ (∀ k : String, k ≠ "effective_date" → k ≠ "expiration_date" →
        (PolicyModal.handleEffectiveChange tz f value).get k = f.get k
        ∧ (PolicyModal.handleEffectiveChange tz f value).has k = f.has k)
    ∧ ((value = .empty ∨ (f.get "expiration_date").truthy = true) →
        (PolicyModal.handleEffectiveChange tz f value).get "expiration_date"
            = f.get "expiration_date"
        ∧ (PolicyModal.handleEffectiveChange tz f value).has "expiration_date"
            = f.has "expiration_date")
    ∧ (∀ d : CivilDate, value = .date d → d.isInputDate = true →
        (f.get "expiration_date").truthy = false →
        -msPerDay ≤ tz.offsetAtUTC { date := d, ms := 0 } →
        tz.offsetAtUTC { date := d, ms := 0 } < msPerDay →
        tz.offsetAtLocal (advancedLocal tz d) ≤ tz.offsetAtUTC { date := d, ms := 0 } →
        tz.offsetAtUTC { date := d, ms := 0 } - tz.offsetAtLocal (advancedLocal tz d)
          < msPerDay →
        (tz.offsetAtUTC { date := d, ms := 0 } < 0 →
          ¬ (d.month = 3 ∧ d.day = 1
            ∧ (isLeapYear d.year = true ∨ isLeapYear (d.year + 1) = true))) →
        (PolicyModal.handleEffectiveChange tz f value).get "expiration_date"
          = .str (toISODate
              (if d.month = 2 ∧ d.day = 29 then { year := d.year + 1, month := 3, day := 1 }
                else { year := d.year + 1, month := d.month, day := d.day }))) := by
  have hne : ("expiration_date" : String) ≠ "effective_date" := by decide
  have hne2 : ("effective_date" : String) ≠ "expiration_date" := by decide
  -- the two shapes of the result
  have hkeep : (value = .empty ∨ (f.get "expiration_date").truthy = true) →
      PolicyModal.handleEffectiveChange tz f value
        = f.set "effective_date" (.str value.toStr) := by
    rintro (h | h)
    · subst h
      simp [PolicyModal.handleEffectiveChange, DateValue.toStr, Val.truthy]
    · simp [PolicyModal.handleEffectiveChange, h]
  have hset : ∀ d : CivilDate, value = .date d → (f.get "expiration_date").truthy = false →
      PolicyModal.handleEffectiveChange tz f value
        = (f.set "effective_date" (.str value.toStr)).set "expiration_date"
            (.str (toISODate (addYearLocal tz d))) := by
    intro d hd he
    subst hd
    have ht : (Val.str (DateValue.date d).toStr).truthy = true := by
      simp [Val.truthy, DateValue.toStr, toISODate_ne_empty]
    simp [PolicyModal.handleEffectiveChange, ht, he]
  have hcases : (value = .empty ∨ (f.get "expiration_date").truthy = true)
      ∨ ∃ d, value = .date d ∧ (f.get "expiration_date").truthy = false := by
    cases value with
    | empty => exact Or.inl (Or.inl rfl)
    | date d =>
      by_cases he : (f.get "expiration_date").truthy = true
      · exact Or.inl (Or.inr he)
      · exact Or.inr ⟨d, rfl, by simpa using he⟩
  refine ⟨?_, ?_, ?_, ?_⟩
  · rcases hcases with h | ⟨d, hd, he⟩
    · rw [hkeep h, Obj.get_set_self]
    · rw [hset d hd he, Obj.get_set_other _ _ _ _ hne2, Obj.get_set_self]
  · intro k hk1 hk2
    rcases hcases with h | ⟨d, hd, he⟩
    · rw [hkeep h]
      exact ⟨Obj.get_set_other _ _ _ _ hk1, Obj.has_set_other _ _ _ _ hk1⟩
    · rw [hset d hd he]
      exact ⟨by rw [Obj.get_set_other _ _ _ _ hk2, Obj.get_set_other _ _ _ _ hk1],
        by rw [Obj.has_set_other _ _ _ _ hk2, Obj.has_set_other _ _ _ _ hk1]⟩
  · intro h
    rw [hkeep h]
    exact ⟨Obj.get_set_other _ _ _ _ hne, Obj.has_set_other _ _ _ _ hne⟩
  · intro d hd hv he hlo hhi hle hlt hz
    rw [hset d hd he, Obj.get_set_self, addYearLocal_eq tz d hv hlo hhi hle hlt hz]

/-- Witness of C17 (amended): the effective date 15 June 2024 entered into the
fresh form of account `A1`, in a browser in New York. -/
theorem handleEffectiveChange_sets_expiration_witness :
    CivilDate.isInputDate { year := 2024, month := 6, day := 15 } = true
    ∧ TimeZone.newYork.offsetAtUTC { date := { year := 2024, month := 6, day := 15 }, ms := 0 }
        = -14400000
    ∧ TimeZone.newYork.offsetAtLocal
          (advancedLocal TimeZone.newYork { year := 2024, month := 6, day := 15 })
        = -14400000
    ∧ (PolicyModal.handleEffectiveChange TimeZone.newYork (PolicyModal.initialForm "A1")
          (.date { year := 2024, month := 6, day := 15 })).get "expiration_date"
        = .str (toISODate { year := 2025, month := 6, day := 15 }) :=
  ⟨by decide, by decide, by decide,
    (handleEffectiveChange_sets_expiration TimeZone.newYork (PolicyModal.initialForm "A1")
      (.date { year := 2024, month := 6, day := 15 })).2.2.2
      { year := 2024, month := 6, day := 15 } rfl (by decide) (by decide) (by decide)
      (by decide) (by decide) (by decide) (by decide)⟩

/-! ## Trimming -/

theorem trim_decompose (p : Char → Bool) (cs : List Char) :
    cs = cs.takeWhile p
      ++ ((cs.dropWhile p).reverse.dropWhile p).reverse
      ++ ((cs.dropWhile p).reverse.takeWhile p).reverse := by
  have h1 : cs.takeWhile p ++ cs.dropWhile p = cs := List.takeWhile_append_dropWhile p cs
  have h2 : (cs.dropWhile p).reverse.takeWhile p ++ (cs.dropWhile p).reverse.dropWhile p
      = (cs.dropWhile p).reverse := List.takeWhile_append_dropWhile p _
  have h3 : cs.dropWhile p
      = ((cs.dropWhile p).reverse.dropWhile p).reverse
        ++ ((cs.dropWhile p).reverse.takeWhile p).reverse := by
    rw [← List.reverse_append, h2, List.reverse_reverse]
  rw [List.append_assoc, ← h3, h1]

theorem trim_last_not (p : Char → Bool) (cs : List Char) (c : Char)
    (h : (((cs.dropWhile p).reverse.dropWhile p).reverse).getLast? = some c) : p c = false := by
  rw [List.getLast?_reverse] at h
  have := List.head?_dropWhile_not p (cs.dropWhile p).reverse
  rw [h] at this
  exact this

theorem trim_head_not (p : Char → Bool) (cs : List Char) (c : Char)
    (h : (((cs.dropWhile p).reverse.dropWhile p).reverse).head? = some c) : p c = false := by
  have h2 : (cs.dropWhile p).reverse.takeWhile p ++ (cs.dropWhile p).reverse.dropWhile p
      = (cs.dropWhile p).reverse := List.takeWhile_append_dropWhile p _
  have h3 : cs.dropWhile p
      = ((cs.dropWhile p).reverse.dropWhile p).reverse
        ++ ((cs.dropWhile p).reverse.takeWhile p).reverse := by
    rw [← List.reverse_append, h2, List.reverse_reverse]
  have h4 : (cs.dropWhile p).head? = some c := by
    rw [h3, List.head?_append, h]
    rfl
  have := List.head?_dropWhile_not p cs
  rw [h4] at this
  exact this

/-! ## Quick search keyboard handler -/

/-- C21: the key handler of `QuickSearch` acts on `(open, query)` as follows: a
keydown with key `k` while Ctrl or Meta is held sets `open` to true and leaves
`query` unchanged; a keydown with key `Escape` sets `open` to false and `query`
to the empty string; every other keydown leaves the state unchanged. -/
theorem QuickSearch_handler_transitions (s : QuickSearch.State) (e : KeyboardEvent) :
    (e.key = "k" → (e.ctrlKey = true ∨ e.metaKey = true) →
        QuickSearch.handler s e = { opened := true, query := s.query })
    ∧ (e.key = "Escape" → QuickSearch.handler s e = { opened := false, query := "" })
    ∧ (¬ (e.key = "k" ∧ (e.ctrlKey = true ∨ e.metaKey = true)) → e.key ≠ "Escape" →
        QuickSearch.handler s e = s) := by
  refine ⟨?_, ?_, ?_⟩
  · intro hk hmod
    have hne : ¬ ("k" : String) = "Escape" := by decide
    have hm : (e.metaKey || e.ctrlKey) = true := by
      rcases hmod with h | h <;> simp [h]
    simp [QuickSearch.handler, hk, hm, hne]
  · intro hk
    simp [QuickSearch.handler, hk]
  · intro hno hesc
    have h1 : ((e.metaKey || e.ctrlKey) && e.key == "k") = false := by
      by_cases hk : e.key = "k"
      · have : ¬ (e.ctrlKey = true ∨ e.metaKey = true) := fun h => hno ⟨hk, h⟩
        have hc : e.ctrlKey = false := by
          cases hcv : e.ctrlKey with
          | false => rfl
          | true => exact absurd (Or.inl hcv) this
        have hmv : e.metaKey = false := by
          cases hmv : e.metaKey with
          | false => rfl
          | true => exact absurd (Or.inr hmv) this
        simp [hc, hmv]
      · simp [hk]
    have h2 : (e.key == "Escape") = false := by simpa using hesc
    simp [QuickSearch.handler, h1, h2]

/-- Witness of C21: Ctrl+K, Escape and a plain `k` on the closed search holding
the query `ab`. -/
theorem QuickSearch_handler_transitions_witness :
    QuickSearch.handler { opened := false, query := "ab" }
        { key := "k", metaKey := false, ctrlKey := true }
      = { opened := true, query := "ab" }
    ∧ QuickSearch.handler { opened := true, query := "ab" }
        { key := "Escape", metaKey := false, ctrlKey := false }
      = { opened := false, query := "" }
    ∧ QuickSearch.handler { opened := false, query := "ab" }
        { key := "k", metaKey := false, ctrlKey := false }
      = { opened := false, query := "ab" } :=
  ⟨(QuickSearch_handler_transitions { opened := false, query := "ab" }
      { key := "k", metaKey := false, ctrlKey := true }).1 rfl (Or.inl rfl),
    (QuickSearch_handler_transitions { opened := true, query := "ab" }
      { key := "Escape", metaKey := false, ctrlKey := false }).2.1 rfl,
    (QuickSearch_handler_transitions { opened := false, query := "ab" }
      { key := "k", metaKey := false, ctrlKey := false }).2.2 (by decide) (by decide)⟩

/-! ## Note submission -/

/-- C22: for every content string, `NoteForm.handleSubmit` submits a note if and
only if the trimmed content is non-empty; the payload then carries the trimmed
content with the component's `entityType` and `entityId`; the trimmed content
is the content without a leading and a trailing run of white space, and itself
neither starts nor ends with white space. -/
theorem NoteForm_handleSubmit_trims (entityType entityId content : String) :
    ((NoteForm.handleSubmit entityType entityId content).isSome = true ↔ jsTrim content ≠ "")
    ∧ (jsTrim content ≠ "" →
        NoteForm.handleSubmit entityType entityId content
          = some [ ("content", .str (jsTrim content)),
                   ("linked_entity_type", .str entityType),
                   ("linked_entity_id", .str entityId) ])
    ∧ (∃ pre suf : List Char,
        content.data = pre ++ (jsTrim content).data ++ suf
        ∧ (∀ c ∈ pre, isJsWhitespace c = true) ∧ (∀ c ∈ suf, isJsWhitespace c = true))
    ∧ (∀ c : Char, (jsTrim content).data.head? = some c → isJsWhitespace c = false)
    ∧ (∀ c : Char, (jsTrim content).data.getLast? = some c → isJsWhitespace c = false) := by
  have hsub : ∀ h : jsTrim content ≠ "",
      NoteForm.handleSubmit entityType entityId content
        = some [ ("content", .str (jsTrim content)),
                 ("linked_entity_type", .str entityType),
                 ("linked_entity_id", .str entityId) ] := by
    intro h
    simp [NoteForm.handleSubmit, Val.truthy, h]
  refine ⟨?_, hsub, ?_, ?_, ?_⟩
  · constructor
    · intro h hempty
      simp [NoteForm.handleSubmit, Val.truthy, hempty] at h
    · intro h
      rw [hsub h]
      rfl
  · refine ⟨content.data.takeWhile isJsWhitespace,
      ((content.data.dropWhile isJsWhitespace).reverse.takeWhile isJsWhitespace).reverse,
      trim_decompose isJsWhitespace content.data, ?_, ?_⟩
    · intro c hc
      exact List.mem_takeWhile_imp hc
    · intro c hc
      exact List.mem_takeWhile_imp (List.mem_reverse.mp hc)
  · intro c hc
    exact trim_head_not isJsWhitespace content.data c hc
  · intro c hc
    exact trim_last_not isJsWhitespace content.data c hc

/-- Witness of C22: a padded note on policy `P1`, and a note of blanks. -/
theorem NoteForm_handleSubmit_trims_witness :
    NoteForm.handleSubmit "Policy" "P1" "  call back \n"
        = some [ ("content", .str "call back"), ("linked_entity_type", .str "Policy"),
                 ("linked_entity_id", .str "P1") ]
    ∧ ((NoteForm.handleSubmit "Policy" "P1" " \t ").isSome = true ↔ jsTrim " \t " ≠ "") :=
  ⟨(NoteForm_handleSubmit_trims "Policy" "P1" "  call back \n").2.1 (by decide),
    (NoteForm_handleSubmit_trims "Policy" "P1" " \t ").1⟩

/-! ## Session initialisation -/

/-- C23: evaluation of the initialisation of `AuthProvider` on a local storage
that holds a user under `sentinel_user` and no `sentinel_token`: once loading
is false the user is the stored user, not null, and `ProtectedRoute` renders
its children; on the sibling path, a stored token that `authApi.me()` rejects,
both keys are removed, the user is null and the route redirects to `/login`. -/
theorem AuthProvider_keeps_stored_user_without_token :
    getItem [("sentinel_user", "\x7b\"name\":\"Ann\"\x7d")] "sentinel_token" = none
    ∧ AuthProvider.mountEffect AuthProvider.sampleStringify
        (AuthProvider.initialState AuthProvider.sampleParse
          [("sentinel_user", "\x7b\"name\":\"Ann\"\x7d")])
        (.error { status := none, detail := none })
      = { user := some [("name", .str "Ann")], loading := false,
          storage := [("sentinel_user", "\x7b\"name\":\"Ann\"\x7d")] }
    ∧ ProtectedRoute
        (AuthProvider.mountEffect AuthProvider.sampleStringify
          (AuthProvider.initialState AuthProvider.sampleParse
            [("sentinel_user", "\x7b\"name\":\"Ann\"\x7d")])
          (.error { status := none, detail := none }))
      = .children
    ∧ AuthProvider.mountEffect AuthProvider.sampleStringify
        (AuthProvider.initialState AuthProvider.sampleParse
          [("sentinel_token", "expired"), ("sentinel_user", "\x7b\"name\":\"Ann\"\x7d")])
        (.error { status := some 401, detail := none })
      = { user := none, loading := false, storage := [] }
    ∧ ProtectedRoute
        (AuthProvider.mountEffect AuthProvider.sampleStringify
          (AuthProvider.initialState AuthProvider.sampleParse
            [("sentinel_token", "expired"), ("sentinel_user", "\x7b\"name\":\"Ann\"\x7d")])
          (.error { status := some 401, detail := none }))
      = .navigate "/login" := by
  decide

/-! ## The quota display -/

/-- C24: evaluation of the quota card of `DashboardPage` on a summary whose
quota of 13 is met, `remaining = 0`: the card shows `13 / 13` and `13
remaining`. For every reported `remaining = r` the number shown is `r` when `r`
is not 0 and 13 when it is 0. -/
theorem DashboardPage_remaining_zero_shows_thirteen :
    (DashboardPage.quota (some SalesSummary.quotaMet)).get "remaining" = .num 0
    ∧ DashboardPage.itemsShown (DashboardPage.quota (some SalesSummary.quotaMet)) = .num 13
    ∧ DashboardPage.remainingShown (DashboardPage.quota (some SalesSummary.quotaMet)) = .num 13
    ∧ ∀ (rest : Obj) (r : Int),
        DashboardPage.remainingShown
            (DashboardPage.quota (some { allstate_quota := some (("remaining", .num r) :: rest) }))
          = if r = 0 then .num 13 else .num r := by
  refine ⟨by decide, by decide, by decide, ?_⟩
  intro rest r
  by_cases h : r = 0
  · subst h
    simp [DashboardPage.remainingShown, DashboardPage.quota, Obj.get, Val.truthy]
  · simp [DashboardPage.remainingShown, DashboardPage.quota, Obj.get, Val.truthy, h]

/-! ## Pagination -/

theorem AccountsPage_step_keeps_page (total : Nat) (s : AccountsPage.State)
    (a : AccountsPage.Action)
    (h : 1 ≤ s.page ∧ s.page ≤ max 1 (AccountsPage.totalPages total)) :
    1 ≤ (AccountsPage.step total s a).page
    ∧ (AccountsPage.step total s a).page ≤ max 1 (AccountsPage.totalPages total) := by
  obtain ⟨h1, h2⟩ := h
  have hmax : (1 : Int) ≤ max 1 (AccountsPage.totalPages total) := le_max_left _ _
  cases a with
  | previous =>
    by_cases hc : AccountsPage.totalPages total > 1 ∧ ¬ s.page ≤ 1
    · have hs : AccountsPage.step total s .previous = { s with page := s.page - 1 } := by
        simp only [AccountsPage.step, hc, and_self, not_false_eq_true, if_true]
      rw [hs]
      exact ⟨by show 1 ≤ s.page - 1; omega, by show s.page - 1 ≤ _; omega⟩
    · have hs : AccountsPage.step total s .previous = s := by
        simp only [AccountsPage.step, hc, if_false]
      rw [hs]
      exact ⟨h1, h2⟩
  | next =>
    by_cases hc : AccountsPage.totalPages total > 1 ∧ ¬ s.page ≥ AccountsPage.totalPages total
    · have hs : AccountsPage.step total s .next = { s with page := s.page + 1 } := by
        simp only [AccountsPage.step, hc, and_self, not_false_eq_true, if_true]
      rw [hs]
      refine ⟨by show 1 ≤ s.page + 1; omega, ?_⟩
      show s.page + 1 ≤ _
      have : s.page + 1 ≤ AccountsPage.totalPages total := by omega
      exact le_trans this (le_max_right _ _)
    · have hs : AccountsPage.step total s .next = s := by
        simp only [AccountsPage.step, hc, if_false]
      rw [hs]
      exact ⟨h1, h2⟩
  | search v => exact ⟨le_refl _, hmax⟩
  | typeFilter v => exact ⟨le_refl _, hmax⟩
  | statusFilter v => exact ⟨le_refl _, hmax⟩

theorem AccountsPage_run_keeps_page (total : Nat) (actions : List AccountsPage.Action)
    (s : AccountsPage.State)
    (h : 1 ≤ s.page ∧ s.page ≤ max 1 (AccountsPage.totalPages total)) :
    1 ≤ (actions.foldl (AccountsPage.step total) s).page
    ∧ (actions.foldl (AccountsPage.step total) s).page
        ≤ max 1 (AccountsPage.totalPages total) := by
  induction actions generalizing s with
  | nil => exact h
  | cons a rest ih => exact ih _ (AccountsPage_step_keeps_page total s a h)

/-- C25: in `AccountsPage`, for a fixed total and starting from page 1, every
sequence of steps (Previous when `page > 1`, Next when `page < totalPages`, a
change of search, type or status, which resets the page to 1) keeps
`1 <= page <= max(1, ceil(total / 25))`. -/
theorem AccountsPage_page_in_range (total : Nat) (actions : List AccountsPage.Action) :
    AccountsPage.totalPages total = ((total + 24) / 25 : Nat)
    ∧ 1 ≤ (actions.foldl (AccountsPage.step total) AccountsPage.initialState).page
    ∧ (actions.foldl (AccountsPage.step total) AccountsPage.initialState).page
        ≤ max 1 (AccountsPage.totalPages total) :=
  ⟨rfl, AccountsPage_run_keeps_page total actions AccountsPage.initialState
    ⟨le_refl _, le_max_left _ _⟩⟩

/-! ## Rounding to double precision -/

theorem roundHalfEven_natCast (n : ℕ) : roundHalfEven (n : ℚ) = n := by
  simp [roundHalfEven, Nat.floor_natCast]

theorem le_roundHalfEven (q : ℚ) : ⌊q⌋₊ ≤ roundHalfEven q := by
  unfold roundHalfEven
  split_ifs <;> omega

theorem roundHalfEven_le (q : ℚ) : roundHalfEven q ≤ ⌊q⌋₊ + 1 := by
  unfold roundHalfEven
  split_ifs <;> omega

theorem roundHalfEven_mono {x y : ℚ} (h : x ≤ y) : roundHalfEven x ≤ roundHalfEven y := by
  rcases Nat.lt_or_ge ⌊x⌋₊ ⌊y⌋₊ with hlt | hge
  · exact (roundHalfEven_le x).trans (hlt.trans_le (le_roundHalfEven y))
  · have heq : ⌊x⌋₊ = ⌊y⌋₊ := le_antisymm (Nat.floor_mono h) hge
    unfold roundHalfEven
    rw [heq]
    split_ifs <;> first | omega | (exfalso; linarith)

theorem ulpShift_mono {x y : ℚ} (h : x ≤ y) : ulpShift x ≤ ulpShift y := by
  unfold ulpShift
  exact Nat.sub_le_sub_right (Nat.log_mono_right (Nat.floor_mono h)) 52

theorem ulpShift_natCast (n : ℕ) : ulpShift (n : ℚ) = Nat.log 2 n - 52 := by
  simp [ulpShift, Nat.floor_natCast]

/-- A number of units divided by its unit in the last place is below `2^53`. -/
theorem div_ulp_lt (r : ℚ) : r / 2 ^ ulpShift r < 2 ^ 53 := by
  have h2 : (0 : ℚ) < 2 ^ ulpShift r := by positivity
  rw [div_lt_iff₀ h2]
  have h1 : r < (⌊r⌋₊ : ℚ) + 1 := Nat.lt_floor_add_one r
  have h3 : ⌊r⌋₊ + 1 ≤ 2 ^ (Nat.log 2 ⌊r⌋₊).succ := Nat.lt_pow_succ_log_self (by norm_num) _
  have h4 : (Nat.log 2 ⌊r⌋₊).succ ≤ 53 + ulpShift r := by unfold ulpShift; omega
  have h5 : 2 ^ (Nat.log 2 ⌊r⌋₊).succ ≤ 2 ^ (53 + ulpShift r) :=
    Nat.pow_le_pow_right (by norm_num) h4
  have h6 : (⌊r⌋₊ : ℚ) + 1 ≤ 2 ^ (53 + ulpShift r) := by
    exact_mod_cast h3.trans h5
  calc r < (⌊r⌋₊ : ℚ) + 1 := h1
    _ ≤ 2 ^ (53 + ulpShift r) := h6
    _ = 2 ^ 53 * 2 ^ ulpShift r := by rw [pow_add]

/-- Above `2^53` units the quotient by the unit in the last place is at least
`2^52`. -/
theorem le_div_ulp (r : ℚ) (hs : 0 < ulpShift r) : 2 ^ 52 ≤ r / 2 ^ ulpShift r := by
  have h2 : (0 : ℚ) < 2 ^ ulpShift r := by positivity
  rw [le_div_iff₀ h2]
  have hlog : 52 < Nat.log 2 ⌊r⌋₊ := by unfold ulpShift at hs; omega
  have hn : ⌊r⌋₊ ≠ 0 := by
    intro h0
    rw [h0, Nat.log_zero_right] at hlog
    omega
  have hr : 0 ≤ r := by
    by_contra hneg
    exact hn (Nat.floor_of_nonpos (le_of_lt (not_le.mp hneg)))
  have h3 : 2 ^ Nat.log 2 ⌊r⌋₊ ≤ ⌊r⌋₊ := Nat.pow_log_le_self 2 hn
  have h4 : 52 + ulpShift r = Nat.log 2 ⌊r⌋₊ := by unfold ulpShift; omega
  have h5 : (2 : ℚ) ^ (52 + ulpShift r) ≤ (⌊r⌋₊ : ℚ) := by
    rw [h4]
    exact_mod_cast h3
  calc (2 : ℚ) ^ 52 * 2 ^ ulpShift r = 2 ^ (52 + ulpShift r) := by rw [pow_add]
    _ ≤ (⌊r⌋₊ : ℚ) := h5
    _ ≤ r := Nat.floor_le hr

theorem roundUnits_le (r : ℚ) : roundUnits r ≤ 2 ^ (53 + ulpShift r) := by
  unfold roundUnits
  have h1 : roundHalfEven (r / 2 ^ ulpShift r) ≤ roundHalfEven ((2 ^ 53 : ℕ) : ℚ) :=
    roundHalfEven_mono (by exact_mod_cast (div_ulp_lt r).le)
  rw [roundHalfEven_natCast] at h1
  calc roundHalfEven (r / 2 ^ ulpShift r) * 2 ^ ulpShift r
      ≤ 2 ^ 53 * 2 ^ ulpShift r := Nat.mul_le_mul_right _ h1
    _ = 2 ^ (53 + ulpShift r) := by rw [pow_add]

theorem le_roundUnits (r : ℚ) (hs : 0 < ulpShift r) : 2 ^ (52 + ulpShift r) ≤ roundUnits r := by
  unfold roundUnits
  have h1 : roundHalfEven ((2 ^ 52 : ℕ) : ℚ) ≤ roundHalfEven (r / 2 ^ ulpShift r) :=
    roundHalfEven_mono (by exact_mod_cast le_div_ulp r hs)
  rw [roundHalfEven_natCast] at h1
  calc 2 ^ (52 + ulpShift r) = 2 ^ 52 * 2 ^ ulpShift r := by rw [pow_add]
    _ ≤ roundHalfEven (r / 2 ^ ulpShift r) * 2 ^ ulpShift r := Nat.mul_le_mul_right _ h1

theorem roundUnits_eq (r : ℚ) (s : ℕ) (h : ulpShift r = s) :
    roundUnits r = roundHalfEven (r / 2 ^ s) * 2 ^ s := by
  subst h
  rfl

/-- Rounding to 53 significant bits is monotone. -/
theorem roundUnits_mono {x y : ℚ} (h : x ≤ y) : roundUnits x ≤ roundUnits y := by
  rcases Nat.lt_or_ge (ulpShift x) (ulpShift y) with hlt | hge
  · have h1 := roundUnits_le x
    have h2 := le_roundUnits y (by omega)
    have h3 : 2 ^ (53 + ulpShift x) ≤ 2 ^ (52 + ulpShift y) :=
      Nat.pow_le_pow_right (by norm_num) (by omega)
    exact h1.trans (h3.trans h2)
  · have heq : ulpShift x = ulpShift y := le_antisymm (ulpShift_mono h) hge
    unfold roundUnits
    rw [heq]
    apply Nat.mul_le_mul_right
    apply roundHalfEven_mono
    have h2 : (0 : ℚ) < 2 ^ ulpShift y := by positivity
    exact div_le_div_of_nonneg_right h h2.le

/-- A whole number of units that is a multiple of its unit in the last place is
a double: rounding leaves it as it is. -/
theorem roundUnits_natCast (n : ℕ) (h : 2 ^ ulpShift (n : ℚ) ∣ n) : roundUnits (n : ℚ) = n := by
  unfold roundUnits
  generalize ulpShift (n : ℚ) = s at h ⊢
  obtain ⟨m, hm⟩ := h
  have h2 : (0 : ℚ) < 2 ^ s := by positivity
  have hq : (n : ℚ) / 2 ^ s = (m : ℚ) := by
    rw [div_eq_iff h2.ne', hm]
    push_cast
    ring
  rw [hq, roundHalfEven_natCast, Nat.mul_comm]
  exact hm.symm

/-- Rounding twice is rounding once. -/
theorem roundUnits_roundUnits (r : ℚ) : roundUnits ((roundUnits r : ℕ) : ℚ) = roundUnits r := by
  apply roundUnits_natCast
  rw [ulpShift_natCast]
  have hle := roundUnits_le r
  rcases Nat.lt_or_ge (roundUnits r) (2 ^ (53 + ulpShift r)) with hlt | hge
  · -- the unit in the last place has not grown
    have hs : Nat.log 2 (roundUnits r) - 52 ≤ ulpShift r := by
      rcases Nat.eq_zero_or_pos (roundUnits r) with h0 | hpos
      · rw [h0, Nat.log_zero_right]
        omega
      · have := Nat.log_lt_of_lt_pow (by omega) hlt
        omega
    have h1 : 2 ^ (Nat.log 2 (roundUnits r) - 52) ∣ 2 ^ ulpShift r :=
      pow_dvd_pow 2 hs
    exact h1.trans (by unfold roundUnits; exact Dvd.intro_left _ rfl)
  · have heq : roundUnits r = 2 ^ (53 + ulpShift r) := le_antisymm hle hge
    rw [heq, Nat.log_pow (by norm_num)]
    exact pow_dvd_pow 2 (by omega)

theorem roundMagnitude_nonneg (a : ℚ) : 0 ≤ roundMagnitude a := by
  unfold roundMagnitude
  positivity

theorem roundMagnitude_mono {x y : ℚ} (h : x ≤ y) : roundMagnitude x ≤ roundMagnitude y := by
  unfold roundMagnitude
  have h2 : (0 : ℚ) < 2 ^ 1074 := by positivity
  apply div_le_div_of_nonneg_right _ h2.le
  exact Nat.cast_le.mpr (roundUnits_mono (mul_le_mul_of_nonneg_right h h2.le))

theorem roundMagnitude_roundMagnitude (a : ℚ) :
    roundMagnitude (roundMagnitude a) = roundMagnitude a := by
  unfold roundMagnitude
  have h2 : ((2 : ℚ) ^ 1074) ≠ 0 := by positivity
  rw [div_mul_cancel₀ _ h2, roundUnits_roundUnits]

theorem roundMagnitude_zero : roundMagnitude 0 = 0 := by
  have h : roundUnits ((0 : ℕ) : ℚ) = 0 := roundUnits_natCast 0 (dvd_zero _)
  rw [Nat.cast_zero] at h
  unfold roundMagnitude
  rw [zero_mul, h, Nat.cast_zero, zero_div]

theorem roundMagnitude_two_pow (n : ℕ) : roundMagnitude (2 ^ n) = 2 ^ n := by
  have h : roundUnits (((2 ^ (n + 1074) : ℕ)) : ℚ) = 2 ^ (n + 1074) := by
    apply roundUnits_natCast
    rw [ulpShift_natCast, Nat.log_pow (by norm_num)]
    exact pow_dvd_pow 2 (by omega)
  unfold roundMagnitude
  have h2 : ((2 : ℚ) ^ 1074) ≠ 0 := by positivity
  have e : (2 : ℚ) ^ n * 2 ^ 1074 = ((2 ^ (n + 1074) : ℕ) : ℚ) := by
    push_cast
    rw [pow_add]
  rw [e, h]
  push_cast
  rw [pow_add, mul_div_assoc, div_self h2, mul_one]

/-! ## Sums of non-negative doubles -/

theorem Num.round_of_nonneg (q : ℚ) (hq : 0 ≤ q) :
    Num.round q = if 2 ^ 1024 ≤ roundMagnitude q then .posInf else .fin (roundMagnitude q) := by
  unfold Num.round
  rw [if_pos hq]

theorem Num.round_isTotal (q : ℚ) (hq : 0 ≤ q) : (Num.round q).IsTotal := by
  rw [Num.round_of_nonneg q hq]
  split
  · trivial
  · exact ⟨roundMagnitude_nonneg q, roundMagnitude_roundMagnitude q⟩

theorem Num.round_le_round {x y : ℚ} (hx : 0 ≤ x) (h : x ≤ y) :
    Num.le (Num.round x) (Num.round y) = true := by
  rw [Num.round_of_nonneg x hx, Num.round_of_nonneg y (hx.trans h)]
  have hm := roundMagnitude_mono h
  by_cases h1 : (2 : ℚ) ^ 1024 ≤ roundMagnitude x
  · have h2 : (2 : ℚ) ^ 1024 ≤ roundMagnitude y := h1.trans hm
    rw [if_pos h1, if_pos h2]
    rfl
  · rw [if_neg h1]
    by_cases h2 : (2 : ℚ) ^ 1024 ≤ roundMagnitude y
    · rw [if_pos h2]
      rfl
    · rw [if_neg h2]
      simpa [Num.le] using hm

theorem Num.le_of_le_of_le {a b c : Num} (h1 : Num.le a b = true) (h2 : Num.le b c = true) :
    Num.le a c = true := by
  cases a <;> cases b <;> cases c <;> simp_all [Num.le]
  exact h1.trans h2

/-- Adding a non-negative amount to a total gives a total that is not
smaller. -/
theorem Num.add_isTotal (s a : Num) (hs : s.IsTotal) (ha : Num.le (.fin 0) a = true) :
    (s.add a).IsTotal ∧ Num.le s (s.add a) = true := by
  cases s with
  | fin v =>
    obtain ⟨hv, hrv⟩ := hs
    cases a with
    | fin q =>
      have hq : 0 ≤ q := by simpa [Num.le] using ha
      have hsum : 0 ≤ v + q := add_nonneg hv hq
      refine ⟨Num.round_isTotal _ hsum, ?_⟩
      show Num.le (.fin v) (Num.round (v + q)) = true
      have h1 := Num.round_le_round hv (le_add_of_nonneg_right hq : v ≤ v + q)
      have h2 : Num.round v = .fin v ∨ Num.round v = .posInf := by
        rw [Num.round_of_nonneg v hv, hrv]
        split
        · exact Or.inr rfl
        · exact Or.inl rfl
      rcases h2 with h2 | h2
      · rwa [h2] at h1
      · rw [h2] at h1
        cases hr : Num.round (v + q) <;> rw [hr] at h1 <;> simp_all [Num.le]
    | posInf => exact ⟨trivial, rfl⟩
    | negInf => simp [Num.le] at ha
    | nan => simp [Num.le] at ha
  | posInf =>
    cases a with
    | fin q => exact ⟨trivial, rfl⟩
    | posInf => exact ⟨trivial, rfl⟩
    | negInf => simp [Num.le] at ha
    | nan => simp [Num.le] at ha
  | negInf => exact absurd hs (by simp [Num.IsTotal])
  | nan => exact absurd hs (by simp [Num.IsTotal])

/-- Adding the same non-negative amount to two totals keeps their order. -/
theorem Num.add_le_add (p s a : Num) (hp : p.IsTotal) (hs : s.IsTotal)
    (hps : Num.le p s = true) (ha : Num.le (.fin 0) a = true) :
    Num.le (p.add a) (s.add a) = true := by
  cases a with
  | fin q =>
    have hq : 0 ≤ q := by simpa [Num.le] using ha
    cases p with
    | fin u =>
      cases s with
      | fin v =>
        have huv : u ≤ v := by simpa [Num.le] using hps
        exact Num.round_le_round (add_nonneg hp.1 hq) (add_le_add_right huv q)
      | posInf =>
        show Num.le (Num.round (u + q)) .posInf = true
        have := Num.round_isTotal (u + q) (add_nonneg hp.1 hq)
        cases hr : Num.round (u + q) <;> rw [hr] at this <;> simp_all [Num.le, Num.IsTotal]
      | negInf => exact absurd hs (by simp [Num.IsTotal])
      | nan => exact absurd hs (by simp [Num.IsTotal])
    | posInf =>
      cases s with
      | fin v => simp [Num.le] at hps
      | posInf => rfl
      | negInf => exact absurd hs (by simp [Num.IsTotal])
      | nan => exact absurd hs (by simp [Num.IsTotal])
    | negInf => exact absurd hp (by simp [Num.IsTotal])
    | nan => exact absurd hp (by simp [Num.IsTotal])
  | posInf =>
    cases p <;> cases s <;> simp_all [Num.IsTotal, Num.add, Num.le]
  | negInf => simp [Num.le] at ha
  | nan => simp [Num.le] at ha

/-- The sum of the paid amounts is not larger than the sum of all amounts,
whatever the two sums start from. -/
theorem PolicyDetailPage.fold_paid_le (l : List Installment) (p s : Num) (hp : p.IsTotal)
    (hs : s.IsTotal) (hps : Num.le p s = true)
    (hl : ∀ i ∈ l, Num.le (.fin 0) i.amount = true) :
    ((l.filter fun i => i.status == "Paid").foldl (fun s i => s.add i.amount) p).IsTotal
    ∧ (l.foldl (fun s i => s.add i.amount) s).IsTotal
    ∧ Num.le ((l.filter fun i => i.status == "Paid").foldl (fun s i => s.add i.amount) p)
        (l.foldl (fun s i => s.add i.amount) s) = true := by
  induction l generalizing p s with
  | nil => exact ⟨hp, hs, hps⟩
  | cons i rest ih =>
    have hi := hl i (List.mem_cons_self _ _)
    have hrest : ∀ j ∈ rest, Num.le (.fin 0) j.amount = true :=
      fun j hj => hl j (List.mem_cons_of_mem _ hj)
    obtain ⟨hs1, hs2⟩ := Num.add_isTotal s i.amount hs hi
    by_cases hpaid : (i.status == "Paid") = true
    · obtain ⟨hp1, _⟩ := Num.add_isTotal p i.amount hp hi
      simp only [List.filter_cons, hpaid, if_true, List.foldl_cons]
      exact ih (p.add i.amount) (s.add i.amount) hp1 hs1
        (Num.add_le_add p s i.amount hp hs hps hi) hrest
    · have hf : (i.status == "Paid") = false := by simpa using hpaid
      simp only [List.filter_cons, hf, Bool.false_eq_true, if_false, List.foldl_cons]
      exact ih p (s.add i.amount) hp hs1 (Num.le_of_le_of_le hps hs2) hrest

theorem Num.round_two_pow (n : ℕ) :
    Num.round (2 ^ n) = if 1024 ≤ n then .posInf else .fin (2 ^ n) := by
  rw [Num.round_of_nonneg _ (by positivity), roundMagnitude_two_pow]
  by_cases h : 1024 ≤ n
  · have h1 : (2 : ℚ) ^ 1024 ≤ 2 ^ n := pow_le_pow_right₀ (by norm_num) h
    rw [if_pos h1, if_pos h]
  · have h1 : ¬ (2 : ℚ) ^ 1024 ≤ 2 ^ n := by
      rw [not_le]
      exact pow_lt_pow_right₀ (by norm_num) (by omega)
    rw [if_neg h1, if_neg h]

/-- The sum of the doubles nearest to 0.1 and 0.2 is not their exact sum: it is
rounded up to the double 0.30000000000000004. -/
theorem Num.add_tenth_fifth :
    Num.add (.fin (3602879701896397 / 2 ^ 55)) (.fin (3602879701896397 / 2 ^ 54))
        = .fin (5404319552844596 / 2 ^ 54)
    ∧ ((3602879701896397 : ℚ) / 2 ^ 55 + 3602879701896397 / 2 ^ 54
        ≠ 5404319552844596 / 2 ^ 54) := by
  have hsum : ((3602879701896397 : ℚ) / 2 ^ 55 + 3602879701896397 / 2 ^ 54)
      = 10808639105689191 / 2 ^ 55 := by norm_num
  refine ⟨?_, by rw [hsum]; norm_num⟩
  show Num.round (3602879701896397 / 2 ^ 55 + 3602879701896397 / 2 ^ 54) = _
  rw [hsum, Num.round_of_nonneg _ (by positivity)]
  -- the sum in units of `2^-1074`
  have hunits : (10808639105689191 : ℚ) / 2 ^ 55 * 2 ^ 1074
      = ((10808639105689191 * 2 ^ 1019 : ℕ) : ℚ) := by
    have e : (2 : ℚ) ^ 1074 = 2 ^ 55 * 2 ^ 1019 := by rw [← pow_add]
    rw [e, Nat.cast_mul, Nat.cast_pow, Nat.cast_ofNat, Nat.cast_ofNat]
    generalize (2 : ℚ) ^ 1019 = X
    have h55 : ((2 : ℚ) ^ 55) ≠ 0 := by positivity
    field_simp
    ring
  have hlog : Nat.log 2 (10808639105689191 * 2 ^ 1019) = 1072 := by
    apply Nat.log_eq_of_pow_le_of_lt_pow
    · calc 2 ^ 1072 = 2 ^ 53 * 2 ^ 1019 := by rw [← pow_add]
        _ ≤ 10808639105689191 * 2 ^ 1019 := Nat.mul_le_mul_right _ (by norm_num)
    · calc 10808639105689191 * 2 ^ 1019 < 2 ^ 54 * 2 ^ 1019 :=
            Nat.mul_lt_mul_of_pos_right (by norm_num) (by positivity)
        _ = 2 ^ (1072 + 1) := by rw [← pow_add]
  have hshift : ulpShift ((10808639105689191 * 2 ^ 1019 : ℕ) : ℚ) = 1020 := by
    rw [ulpShift_natCast, hlog]
  have hquot : (((10808639105689191 * 2 ^ 1019 : ℕ) : ℚ)) / 2 ^ 1020
      = 10808639105689191 / 2 := by
    have e : (2 : ℚ) ^ 1020 = 2 ^ 1019 * 2 := by rw [← pow_succ]
    have hX : ((2 : ℚ) ^ 1019) ≠ 0 := by positivity
    rw [e, Nat.cast_mul, Nat.cast_pow, Nat.cast_ofNat, Nat.cast_ofNat]
    generalize (2 : ℚ) ^ 1019 = X at hX
    field_simp
    ring
  have hfloor : ⌊(10808639105689191 / 2 : ℚ)⌋₊ = 5404319552844595 := by
    rw [Nat.floor_eq_iff (by positivity)]
    constructor <;> norm_num
  have hhalf : roundHalfEven (10808639105689191 / 2 : ℚ) = 5404319552844596 := by
    unfold roundHalfEven
    rw [hfloor]
    norm_num
  have hru : roundUnits ((10808639105689191 * 2 ^ 1019 : ℕ) : ℚ)
      = 5404319552844596 * 2 ^ 1020 := by
    rw [roundUnits_eq _ 1020 hshift, hquot, hhalf]
  have hrm : roundMagnitude (10808639105689191 / 2 ^ 55) = 5404319552844596 / 2 ^ 54 := by
    unfold roundMagnitude
    rw [hunits, hru]
    have e : (2 : ℚ) ^ 1074 = 2 ^ 1020 * 2 ^ 54 := by rw [← pow_add]
    have hX : ((2 : ℚ) ^ 1020) ≠ 0 := by positivity
    have h54 : ((2 : ℚ) ^ 54) ≠ 0 := by positivity
    rw [e, Nat.cast_mul, Nat.cast_pow, Nat.cast_ofNat, Nat.cast_ofNat]
    generalize (2 : ℚ) ^ 1020 = X at hX
    field_simp
    ring
  rw [hrm]
  have hsmall : ¬ (2 : ℚ) ^ 1024 ≤ 5404319552844596 / 2 ^ 54 := by
    rw [not_le]
    calc (5404319552844596 : ℚ) / 2 ^ 54 < 1 := by norm_num
      _ ≤ 2 ^ 1024 := one_le_pow₀ (by norm_num)
  rw [if_neg hsmall]

/-! ## Installment totals -/

theorem PolicyDetailPage.totalDue_pair (s1 s2 : String) (a b : Num) :
    PolicyDetailPage.totalDue [{ status := s1, amount := a }, { status := s2, amount := b }]
      = ((Num.fin 0).add a).add b :=
  rfl

/-- C26 (as stated, refuted): for two paid installments of `2^1023` each, which
are non-negative amounts, both totals overflow to `Infinity`, the guard
`totalDue > 0` holds, and the progress ratio is `NaN`, which does not lie in
[0, 1]. -/
theorem PolicyDetailPage_ratio_overflow :
    (∀ i ∈ Installment.huge, Num.le (.fin 0) i.amount = true)
    ∧ PolicyDetailPage.totalPaid Installment.huge = .posInf
    ∧ PolicyDetailPage.totalDue Installment.huge = .posInf
    ∧ Num.lt (.fin 0) (PolicyDetailPage.totalDue Installment.huge) = true
    ∧ PolicyDetailPage.progressRatio Installment.huge = some .nan
    ∧ Num.le (.fin 0) .nan = false
    ∧ Num.le .nan (.fin 1) = false := by
  have h1 : Num.add (.fin 0) (.fin (2 ^ 1023)) = .fin (2 ^ 1023) := by
    show Num.round (0 + 2 ^ 1023) = _
    rw [zero_add, Num.round_two_pow, if_neg (by norm_num)]
  have h2 : Num.add (.fin (2 ^ 1023)) (.fin (2 ^ 1023)) = .posInf := by
    show Num.round (2 ^ 1023 + 2 ^ 1023) = _
    rw [← two_mul, ← pow_succ', Num.round_two_pow, if_pos (by norm_num)]
  have hd : PolicyDetailPage.totalDue Installment.huge = .posInf := by
    rw [Installment.huge, PolicyDetailPage.totalDue_pair, h1, h2]
  have hp : PolicyDetailPage.totalPaid Installment.huge = .posInf := by
    have hf : (Installment.huge.filter fun i => i.status == "Paid") = Installment.huge := by
      rfl
    unfold PolicyDetailPage.totalPaid
    rw [hf]
    exact hd
  refine ⟨?_, hp, hd, ?_, ?_, rfl, rfl⟩
  · intro i hi
    simp only [Installment.huge, List.mem_cons, List.mem_singleton, List.not_mem_nil,
      or_false, or_self] at hi
    subst hi
    simp only [Num.le, decide_eq_true_eq]
    positivity
  · rw [hd]
    rfl
  · unfold PolicyDetailPage.progressRatio
    rw [hd, hp]
    rfl

/-- C26 (amended): for every installment list with non-negative amounts,
`paidCount` is at most the length of the list; `totalPaid` and `totalDue` are
the sums in double precision, taken in list order from `0`, of the paid and of
all amounts, and `0 <= totalPaid <= totalDue`; the progress ratio is evaluated
exactly when `totalDue > 0`; it then lies in [0, 1] unless `totalPaid` has
overflowed to `Infinity`, in which case it is `NaN`. -/
theorem PolicyDetailPage_totals_bounds (instList : List Installment)
    (hnn : ∀ i ∈ instList, Num.le (.fin 0) i.amount = true) :
    PolicyDetailPage.paidCount instList ≤ instList.length
    ∧ PolicyDetailPage.totalPaid instList
        = (instList.filter fun i => i.status == "Paid").foldl
            (fun s i => s.add i.amount) (.fin 0)
    ∧ PolicyDetailPage.totalDue instList
        = instList.foldl (fun s i => s.add i.amount) (.fin 0)
    ∧ Num.le (.fin 0) (PolicyDetailPage.totalPaid instList) = true
    ∧ Num.le (PolicyDetailPage.totalPaid instList) (PolicyDetailPage.totalDue instList) = true
    ∧ ((PolicyDetailPage.progressRatio instList).isSome = true
        ↔ Num.lt (.fin 0) (PolicyDetailPage.totalDue instList) = true)
    ∧ (PolicyDetailPage.totalPaid instList ≠ .posInf →
        ∀ r, PolicyDetailPage.progressRatio instList = some r →
          Num.le (.fin 0) r = true ∧ Num.le r (.fin 1) = true)
    ∧ (PolicyDetailPage.totalPaid instList = .posInf →
        PolicyDetailPage.progressRatio instList = some .nan) := by
  have h0 : (Num.fin 0).IsTotal := ⟨le_refl 0, roundMagnitude_zero⟩
  obtain ⟨hP, hD, hle⟩ :=
    PolicyDetailPage.fold_paid_le instList (.fin 0) (.fin 0) h0 h0 (by simp [Num.le]) hnn
  change (PolicyDetailPage.totalPaid instList).IsTotal at hP
  change (PolicyDetailPage.totalDue instList).IsTotal at hD
  change Num.le (PolicyDetailPage.totalPaid instList)
    (PolicyDetailPage.totalDue instList) = true at hle
  refine ⟨List.length_filter_le _ _, rfl, rfl, ?_, hle, ?_, ?_, ?_⟩
  · cases hp : PolicyDetailPage.totalPaid instList <;> rw [hp] at hP <;>
      simp_all [Num.le, Num.IsTotal]
  · unfold PolicyDetailPage.progressRatio
    split <;> simp_all
  · intro hfin r hr
    unfold PolicyDetailPage.progressRatio at hr
    split at hr
    · next hguard =>
      have hr' : r = (PolicyDetailPage.totalPaid instList).div
          (PolicyDetailPage.totalDue instList) := (Option.some.inj hr).symm
      subst hr'
      cases hp : PolicyDetailPage.totalPaid instList with
      | fin p =>
        rw [hp] at hP hle
        cases hd : PolicyDetailPage.totalDue instList with
        | fin d =>
          rw [hd] at hle hguard
          have hpd : p ≤ d := by simpa [Num.le] using hle
          have hdpos : 0 < d := by simpa [Num.lt] using hguard
          have hq0 : 0 ≤ p / d := div_nonneg hP.1 hdpos.le
          have hq1 : p / d ≤ 1 := (div_le_one hdpos).mpr hpd
          have hdiv : Num.div (.fin p) (.fin d) = Num.round (p / d) := by
            simp [Num.div, hdpos.ne']
          rw [hdiv, Num.round_of_nonneg _ hq0]
          have hone : roundMagnitude 1 = 1 := by
            have := roundMagnitude_two_pow 0
            simpa using this
          have hm : roundMagnitude (p / d) ≤ 1 := hone ▸ roundMagnitude_mono hq1
          have hno : ¬ (2 : ℚ) ^ 1024 ≤ roundMagnitude (p / d) := by
            rw [not_le]
            exact lt_of_le_of_lt hm (one_lt_pow₀ (by norm_num) (by norm_num))
          rw [if_neg hno]
          simp only [Num.le, decide_eq_true_eq]
          exact ⟨roundMagnitude_nonneg _, hm⟩
        | posInf => exact ⟨rfl, by simp [Num.div, Num.le]⟩
        | negInf => rw [hd] at hD; exact absurd hD (by simp [Num.IsTotal])
        | nan => rw [hd] at hD; exact absurd hD (by simp [Num.IsTotal])
      | posInf => exact absurd hp hfin
      | negInf => rw [hp] at hP; exact absurd hP (by simp [Num.IsTotal])
      | nan => rw [hp] at hP; exact absurd hP (by simp [Num.IsTotal])
    · exact absurd hr (by simp)
  · intro hinf
    rw [hinf] at hle
    have hd : PolicyDetailPage.totalDue instList = .posInf := by
      cases hd : PolicyDetailPage.totalDue instList <;> rw [hd] at hle <;>
        simp_all [Num.le]
    unfold PolicyDetailPage.progressRatio
    rw [hd, hinf]
    rfl

/-- Witness of C26 (amended): three installments of 100, two of them paid. -/
theorem PolicyDetailPage_totals_bounds_witness :
    (∀ i ∈ Installment.sample, Num.le (.fin 0) i.amount = true)
    ∧ PolicyDetailPage.paidCount Installment.sample = 2
    ∧ Num.le (PolicyDetailPage.totalPaid Installment.sample)
        (PolicyDetailPage.totalDue Installment.sample) = true :=
  ⟨by decide, by decide,
    (PolicyDetailPage_totals_bounds Installment.sample (by decide)).2.2.2.2.1⟩

/-! ## Stage buttons -/

/-- C28: for every prospect whose `pipeline_stage` is the open stage at index
`c` of `STAGES`, stage button `i` is active if and only if `i <= c`, so exactly
`c + 1` buttons are active and they are the first `c + 1` of the six; the open
stages are the first six entries of `STAGES`, each at the same index. -/
theorem ProspectDetailPage_active_buttons (c : Nat) (hc : c < 6) :
    ProspectDetailPage.openStages = ProspectDetailPage.STAGES.take 6
    ∧ (∀ i : Nat, i < 6 →
        ProspectDetailPage.openStages[i]? = ProspectDetailPage.STAGES[i]?)
    ∧ (∀ i : Nat, i < 6 →
        (ProspectDetailPage.isActive (ProspectDetailPage.STAGES.getD c "") i = true ↔ i ≤ c))
    ∧ (ProspectDetailPage.stageButtons (ProspectDetailPage.STAGES.getD c "")).map Prod.snd
        = List.replicate (c + 1) true ++ List.replicate (5 - c) false
    ∧ ((ProspectDetailPage.stageButtons (ProspectDetailPage.STAGES.getD c "")).filter
        fun b => b.2).length = c + 1 := by
  refine ⟨by decide, ?_, ?_, ?_, ?_⟩
  · intro i hi
    interval_cases i <;> decide
  · intro i hi
    interval_cases c <;> interval_cases i <;> decide
  · interval_cases c <;> decide
  · interval_cases c <;> decide

/-- Witness of C28: a prospect in the stage `Needs Analysis`, index 2. -/
theorem ProspectDetailPage_active_buttons_witness :
    ProspectDetailPage.STAGES.getD 2 "" = "Needs Analysis"
    ∧ (ProspectDetailPage.stageButtons (ProspectDetailPage.STAGES.getD 2 "")).map Prod.snd
        = List.replicate (2 + 1) true ++ List.replicate (5 - 2) false :=
  ⟨by decide, (ProspectDetailPage_active_buttons 2 (by decide)).2.2.2.1⟩

/-! ## Chart aggregation -/

theorem ChartData.own_put_self (d : ChartData) (g : String) (v : ChartVal) :
    (d.put g v).own g = some v := by
  induction d with
  | nil => simp [ChartData.put, ChartData.own]
  | cons kv rest ih =>
    obtain ⟨g0, v0⟩ := kv
    unfold ChartData.put
    by_cases h : g0 = g
    · simp [h, ChartData.own]
    · have hb : (g0 == g) = false := by simpa using h
      simp only [hb, Bool.false_eq_true, if_false]
      unfold ChartData.own at ih ⊢
      simp only [List.find?_cons, hb]
      exact ih

theorem ChartData.own_put_other (d : ChartData) (g g1 : String) (v : ChartVal) (h : g ≠ g1) :
    (d.put g1 v).own g = d.own g := by
  induction d with
  | nil =>
    have hb : (g1 == g) = false := by simpa using fun e => h e.symm
    simp [ChartData.put, ChartData.own, hb]
  | cons kv rest ih =>
    obtain ⟨g0, v0⟩ := kv
    unfold ChartData.put
    by_cases h0 : g0 = g1
    · have hb : (g0 == g) = false := by simpa using fun e => h (e.symm.trans h0)
      subst h0
      simp [ChartData.own, List.find?_cons, hb]
    · have hb : (g0 == g1) = false := by simpa using h0
      simp only [hb, Bool.false_eq_true, if_false]
      unfold ChartData.own at ih ⊢
      by_cases hk : g0 = g
      · simp [List.find?_cons, hk]
      · have hb2 : (g0 == g) = false := by simpa using hk
        simp only [List.find?_cons, hb2]
        exact ih

theorem ChartData.keys_put (d : ChartData) (g : String) (v : ChartVal) :
    (d.put g v).map Prod.fst
      = if g ∈ d.map Prod.fst then d.map Prod.fst else d.map Prod.fst ++ [g] := by
  induction d with
  | nil => simp [ChartData.put]
  | cons kv rest ih =>
    obtain ⟨g0, v0⟩ := kv
    unfold ChartData.put
    by_cases h : g0 = g
    · simp [h]
    · have hb : (g0 == g) = false := by simpa using h
      have hne : ¬ g = g0 := fun e => h e.symm
      simp only [hb, Bool.false_eq_true, if_false, List.map_cons, ih, List.mem_cons, hne,
        false_or]
      split <;> simp

theorem ChartData.sum_put (d : ChartData) (g : String) (v : ChartVal) :
    ((d.put g v).map fun kv => kv.2.toInt).sum
      = (d.map fun kv => kv.2.toInt).sum - ((d.own g).map ChartVal.toInt).getD 0
        + v.toInt := by
  induction d with
  | nil => simp [ChartData.put, ChartData.own]
  | cons kv rest ih =>
    obtain ⟨g0, v0⟩ := kv
    unfold ChartData.put
    by_cases h : g0 = g
    · simp [h, ChartData.own]
      omega
    · have hb : (g0 == g) = false := by simpa using h
      have hg : ChartData.own ((g0, v0) :: rest) g = ChartData.own rest g := by
        simp [ChartData.own, List.find?_cons, hb]
      simp only [hb, Bool.false_eq_true, if_false, List.map_cons, List.sum_cons, ih, hg]
      omega

theorem ChartData.own_isSome_iff (d : ChartData) (g : String) :
    (d.own g).isSome = true ↔ g ∈ d.map Prod.fst := by
  simp only [ChartData.own, Option.isSome_map', List.find?_isSome, beq_iff_eq, List.mem_map]

theorem ChartData.own_mem (d : ChartData) (g : String) (v : ChartVal)
    (h : d.own g = some v) : (g, v) ∈ d := by
  unfold ChartData.own at h
  rw [Option.map_eq_some'] at h
  obtain ⟨kv, hkv, hv⟩ := h
  have hm := List.mem_of_find?_eq_some hkv
  have hk := List.find?_some hkv
  have hk' : kv.1 = g := by simpa using hk
  obtain ⟨k, w⟩ := kv
  simp only at hk' hv
  subst hk' hv
  exact hm

theorem ChartData.mem_put (d : ChartData) (g : String) (v : ChartVal)
    (kv : String × ChartVal) (h : kv ∈ d.put g v) : kv ∈ d ∨ kv = (g, v) := by
  induction d with
  | nil =>
    simp only [ChartData.put, List.mem_singleton] at h
    exact Or.inr h
  | cons kv0 rest ih =>
    obtain ⟨g0, v0⟩ := kv0
    unfold ChartData.put at h
    by_cases h0 : g0 = g
    · simp only [h0, beq_self_eq_true, if_true, List.mem_cons] at h
      rcases h with h | h
      · exact Or.inr h
      · exact Or.inl (List.mem_cons_of_mem _ h)
    · have hb : (g0 == g) = false := by simpa using h0
      simp only [hb, Bool.false_eq_true, if_false, List.mem_cons] at h
      rcases h with h | h
      · exact Or.inl (h ▸ List.mem_cons_self _ _)
      · rcases ih h with h1 | h1
        · exact Or.inl (List.mem_cons_of_mem _ h1)
        · exact Or.inr h1

/-- On a chart object that holds numbers only, a row whose group is not a
member of `Object.prototype` makes sure the entry exists and adds its count. -/
theorem SalesLogPage.addRow_eq (txt : String → String) (d : ChartData) (t : TrendRow)
    (hg : t.group ∉ objectPrototypeKeys) (hnum : ∀ kv ∈ d, ∃ n, kv.2 = ChartVal.num n) :
    SalesLogPage.addRow txt d t
      = (if ((d.own t.group).map ChartVal.toInt).getD 0 = 0 then d.put t.group (.num 0)
          else d).put t.group
          (.num (((d.own t.group).map ChartVal.toInt).getD 0 + t.count)) := by
  have hp : t.group ≠ "__proto__" := by
    intro e
    apply hg
    rw [e]
    decide
  unfold SalesLogPage.addRow
  cases ho : d.own t.group with
  | none =>
    have hget : d.get t.group = .undefined := by
      simp [ChartData.get, ho, hg]
    simp only [hget, Lookup.truthy, Bool.not_false, if_true, ChartData.set, hp, if_false,
      Option.map_none', Option.getD_none]
    have h2 : (d.put t.group (.num 0)).get t.group = .own (.num 0) := by
      simp [ChartData.get, ChartData.own_put_self]
    rw [h2]
    rfl
  | some v =>
    obtain ⟨n, hn⟩ := hnum _ (ChartData.own_mem d t.group v ho)
    simp only at hn
    subst hn
    have hget : d.get t.group = .own (.num n) := by
      simp [ChartData.get, ho]
    simp only [hget, Lookup.truthy, ChartVal.truthy, ChartData.set, hp, if_false,
      Option.map_some', Option.getD_some, ChartVal.toInt]
    by_cases h0 : n = 0
    · subst h0
      have h2 : (d.put t.group (.num 0)).get t.group = .own (.num 0) := by
        simp [ChartData.get, ChartData.own_put_self]
      simp [h2, plusCount]
    · have hb : (n != 0) = true := by simpa using h0
      simp [hb, h0, hget, plusCount]

theorem SalesLogPage.addRow_spec (txt : String → String) (d : ChartData) (t : TrendRow)
    (hg : t.group ∉ objectPrototypeKeys) (hnum : ∀ kv ∈ d, ∃ n, kv.2 = ChartVal.num n) :
    (∀ g, g ∈ (SalesLogPage.addRow txt d t).map Prod.fst ↔ g ∈ d.map Prod.fst ∨ g = t.group)
    ∧ ((d.map Prod.fst).Nodup → ((SalesLogPage.addRow txt d t).map Prod.fst).Nodup)
    ∧ (∀ g, (((SalesLogPage.addRow txt d t).own g).map ChartVal.toInt).getD 0
        = ((d.own g).map ChartVal.toInt).getD 0 + if g = t.group then t.count else 0)
    ∧ ((SalesLogPage.addRow txt d t).map fun kv => kv.2.toInt).sum
        = (d.map fun kv => kv.2.toInt).sum + t.count
    ∧ (∀ kv ∈ SalesLogPage.addRow txt d t, ∃ n, kv.2 = ChartVal.num n) := by
  rw [SalesLogPage.addRow_eq txt d t hg hnum]
  -- the chart data after the initialisation of the group
  generalize hd1 : (if ((d.own t.group).map ChartVal.toInt).getD 0 = 0
    then d.put t.group (.num 0) else d) = d1
  have hget1 : ∀ g, ((d1.own g).map ChartVal.toInt).getD 0
      = ((d.own g).map ChartVal.toInt).getD 0 := by
    intro g
    subst hd1
    split
    · next h0 =>
      by_cases hg : g = t.group
      · subst hg
        rw [ChartData.own_put_self]
        simpa [ChartVal.toInt] using h0.symm
      · rw [ChartData.own_put_other _ _ _ _ hg]
    · rfl
  have hkeys1 : ∀ g, g ∈ d1.map Prod.fst → g ∈ d.map Prod.fst ∨ g = t.group := by
    intro g hg
    subst hd1
    split at hg
    · rw [ChartData.keys_put] at hg
      split at hg
      · exact Or.inl hg
      · rcases List.mem_append.mp hg with h | h
        · exact Or.inl h
        · exact Or.inr (by simpa using h)
    · exact Or.inl hg
  have hkeys1' : ∀ g, g ∈ d.map Prod.fst → g ∈ d1.map Prod.fst := by
    intro g hg
    subst hd1
    split
    · rw [ChartData.keys_put]
      split
      · exact hg
      · exact List.mem_append_left _ hg
    · exact hg
  have hnd1 : (d.map Prod.fst).Nodup → (d1.map Prod.fst).Nodup := by
    intro hn
    subst hd1
    split
    · rw [ChartData.keys_put]
      split
      · exact hn
      · next hmem =>
        rw [List.nodup_append]
        refine ⟨hn, List.nodup_singleton _, ?_⟩
        intro a ha hb
        rw [List.mem_singleton] at hb
        exact hmem (hb ▸ ha)
    · exact hn
  have hsum1 : (d1.map fun kv => kv.2.toInt).sum = (d.map fun kv => kv.2.toInt).sum := by
    subst hd1
    split
    · next h0 =>
      rw [ChartData.sum_put, h0]
      simp [ChartVal.toInt]
    · rfl
  have hnum1 : ∀ kv ∈ d1, ∃ n, kv.2 = ChartVal.num n := by
    intro kv hkv
    subst hd1
    split at hkv
    · rcases ChartData.mem_put _ _ _ _ hkv with h | h
      · exact hnum kv h
      · exact ⟨0, by rw [h]⟩
    · exact hnum kv hkv
  refine ⟨?_, ?_, ?_, ?_, ?_⟩
  · intro g
    rw [ChartData.keys_put]
    constructor
    · intro hg
      split at hg
      · exact hkeys1 g hg
      · rcases List.mem_append.mp hg with h | h
        · exact hkeys1 g h
        · exact Or.inr (by simpa using h)
    · intro hg
      split
      · next hin =>
        rcases hg with h | h
        · exact hkeys1' g h
        · exact h ▸ hin
      · rcases hg with h | h
        · exact List.mem_append_left _ (hkeys1' g h)
        · exact List.mem_append_right _ (by simp [h])
  · intro hn
    rw [ChartData.keys_put]
    split
    · exact hnd1 hn
    · next hmem =>
      rw [List.nodup_append]
      refine ⟨hnd1 hn, List.nodup_singleton _, ?_⟩
      intro a ha hb
      rw [List.mem_singleton] at hb
      exact hmem (hb ▸ ha)
  · intro g
    by_cases hg : g = t.group
    · subst hg
      rw [ChartData.own_put_self]
      simp [hget1, ChartVal.toInt]
    · rw [ChartData.own_put_other _ _ _ _ hg, hget1]
      simp [hg]
  · rw [ChartData.sum_put, hsum1, hget1]
    simp only [ChartVal.toInt]
    omega
  · intro kv hkv
    rcases ChartData.mem_put _ _ _ _ hkv with h | h
    · exact hnum1 kv h
    · exact ⟨_, by rw [h]⟩

theorem SalesLogPage.foldl_addRow_spec (txt : String → String) (trends : List TrendRow)
    (d : ChartData) (hg : ∀ t ∈ trends, t.group ∉ objectPrototypeKeys)
    (hnum : ∀ kv ∈ d, ∃ n, kv.2 = ChartVal.num n) :
    (∀ g, g ∈ (trends.foldl (SalesLogPage.addRow txt) d).map Prod.fst
        ↔ g ∈ d.map Prod.fst ∨ ∃ t ∈ trends, t.group = g)
    ∧ ((d.map Prod.fst).Nodup
        → ((trends.foldl (SalesLogPage.addRow txt) d).map Prod.fst).Nodup)
    ∧ (∀ g, (((trends.foldl (SalesLogPage.addRow txt) d).own g).map ChartVal.toInt).getD 0
        = ((d.own g).map ChartVal.toInt).getD 0
          + ((trends.filter fun t => t.group == g).map fun t => t.count).sum)
    ∧ ((trends.foldl (SalesLogPage.addRow txt) d).map fun kv => kv.2.toInt).sum
        = (d.map fun kv => kv.2.toInt).sum + (trends.map fun t => t.count).sum
    ∧ (∀ kv ∈ trends.foldl (SalesLogPage.addRow txt) d, ∃ n, kv.2 = ChartVal.num n) := by
  induction trends generalizing d with
  | nil => simpa using hnum
  | cons t rest ih =>
    obtain ⟨ak, an, ag, as, anum⟩ :=
      SalesLogPage.addRow_spec txt d t (hg t (List.mem_cons_self _ _)) hnum
    obtain ⟨hk, hn, hgs, hs, hnm⟩ := ih (SalesLogPage.addRow txt d t)
      (fun u hu => hg u (List.mem_cons_of_mem _ hu)) anum
    simp only [List.foldl_cons]
    refine ⟨?_, fun h => hn (an h), ?_, ?_, hnm⟩
    · intro g
      rw [hk g, ak g]
      constructor
      · rintro ((h | h) | ⟨u, hu, hug⟩)
        · exact Or.inl h
        · exact Or.inr ⟨t, List.mem_cons_self _ _, h.symm⟩
        · exact Or.inr ⟨u, List.mem_cons_of_mem _ hu, hug⟩
      · rintro (h | ⟨u, hu, hug⟩)
        · exact Or.inl (Or.inl h)
        · rcases List.mem_cons.mp hu with h | h
          · exact Or.inl (Or.inr (by rw [← hug, h]))
          · exact Or.inr ⟨u, h, hug⟩
    · intro g
      rw [hgs g, ag g]
      by_cases h : g = t.group
      · have hb : (t.group == g) = true := by simpa using h.symm
        simp only [h, if_true, List.filter_cons, beq_self_eq_true, List.map_cons, List.sum_cons]
        omega
      · have hb : (t.group == g) = false := by simpa using fun e => h e.symm
        simp only [h, if_false, List.filter_cons, hb, Bool.false_eq_true]
        omega
    · rw [hs, as]
      simp only [List.map_cons, List.sum_cons]
      omega

/-- `Object.entries` lists every own property once: it reorders them. -/
theorem objectEntries_perm (d : ChartData) : (objectEntries d).Perm d := by
  unfold objectEntries
  refine ((List.perm_insertionSort indexLE _).append_right _).trans ?_
  exact List.filter_append_perm _ d

/-- C27 (as stated, refuted): for the single trend row of group `constructor`
with count 5 the chart object holds a string under that name, not the count 5,
and for the single row of group `__proto__` it holds no entry at all. -/
theorem SalesLogPage_chart_inherited_names :
    SalesLogPage.chartData inheritedText.sample [{ group := "constructor", count := 5 }]
        = [("constructor", .str "function Object() \x7b [native code] \x7d5")]
    ∧ (SalesLogPage.chartData inheritedText.sample
          [{ group := "constructor", count := 5 }]).own "constructor"
        ≠ some (.num 5)
    ∧ SalesLogPage.lobBars inheritedText.sample [{ group := "constructor", count := 5 }]
        = [("constructor", .str "function Object() \x7b [native code] \x7d5")]
    ∧ SalesLogPage.chartData inheritedText.sample [{ group := "__proto__", count := 5 }] = []
    ∧ SalesLogPage.sourcePie inheritedText.sample [{ group := "__proto__", count := 5 }]
        = [] := by
  decide

/-- C27 (amended): for every list of trend rows none of whose groups is a
property name of `Object.prototype`, the aggregation of `SalesLogPage` has
exactly one entry per distinct group of the list, whose value is the number
that is the sum of the counts of the rows of that group; the bar chart and the
pie chart have one element per distinct group, every bar count and pie value
is a number, and the sum of all bar counts and of all pie values is the sum of
the counts of all rows. -/
theorem SalesLogPage_chart_sums (inheritedText : String → String) (trends : List TrendRow)
    (hg : ∀ t ∈ trends, t.group ∉ objectPrototypeKeys) :
    ((SalesLogPage.chartData inheritedText trends).map Prod.fst).Nodup
    ∧ (∀ g : String, g ∈ (SalesLogPage.chartData inheritedText trends).map Prod.fst
        ↔ ∃ t ∈ trends, t.group = g)
    ∧ (∀ t ∈ trends, (SalesLogPage.chartData inheritedText trends).get t.group
        = .own (.num ((trends.filter fun u => u.group == t.group).map fun u => u.count).sum))
    ∧ (SalesLogPage.lobBars inheritedText trends).length
        = ((trends.map fun t => t.group).dedup).length
    ∧ (SalesLogPage.sourcePie inheritedText trends).length
        = ((trends.map fun t => t.group).dedup).length
    ∧ (∀ kv ∈ SalesLogPage.lobBars inheritedText trends, ∃ n, kv.2 = ChartVal.num n)
    ∧ (∀ kv ∈ SalesLogPage.sourcePie inheritedText trends, ∃ n, kv.2 = ChartVal.num n)
    ∧ ((SalesLogPage.lobBars inheritedText trends).map fun kv => kv.2.toInt).sum
        = (trends.map fun t => t.count).sum
    ∧ ((SalesLogPage.sourcePie inheritedText trends).map fun kv => kv.2.toInt).sum
        = (trends.map fun t => t.count).sum := by
  obtain ⟨hk, hn, hgs, hs, hnum⟩ :=
    SalesLogPage.foldl_addRow_spec inheritedText trends [] hg (by simp)
  have hnodup : ((SalesLogPage.chartData inheritedText trends).map Prod.fst).Nodup :=
    hn List.nodup_nil
  have hmem : ∀ g : String, g ∈ (SalesLogPage.chartData inheritedText trends).map Prod.fst
      ↔ ∃ t ∈ trends, t.group = g := by
    intro g
    have := hk g
    simpa [SalesLogPage.chartData] using this
  have hlen : (SalesLogPage.chartData inheritedText trends).length
      = ((trends.map fun t => t.group).dedup).length := by
    have hperm : ((SalesLogPage.chartData inheritedText trends).map Prod.fst).Perm
        ((trends.map fun t => t.group).dedup) := by
      rw [List.perm_ext_iff_of_nodup hnodup (List.nodup_dedup _)]
      intro g
      rw [hmem g, List.mem_dedup, List.mem_map]
    have := hperm.length_eq
    simpa using this
  have hsum : ((SalesLogPage.chartData inheritedText trends).map fun kv => kv.2.toInt).sum
      = (trends.map fun t => t.count).sum := by
    have := hs
    simpa [SalesLogPage.chartData] using this
  have hperm := objectEntries_perm (SalesLogPage.chartData inheritedText trends)
  have hsumE : ((objectEntries (SalesLogPage.chartData inheritedText trends)).map
      fun kv => kv.2.toInt).sum = (trends.map fun t => t.count).sum := by
    rw [← hsum]
    exact (hperm.map _).sum_eq
  have hnumE : ∀ kv ∈ objectEntries (SalesLogPage.chartData inheritedText trends),
      ∃ n, kv.2 = ChartVal.num n := fun kv hkv => hnum kv (hperm.mem_iff.mp hkv)
  refine ⟨hnodup, hmem, ?_, ?_, ?_, ?_, ?_, ?_, ?_⟩
  · intro t ht
    have hin : t.group ∈ (SalesLogPage.chartData inheritedText trends).map Prod.fst :=
      (hmem t.group).mpr ⟨t, ht, rfl⟩
    have hsome := (ChartData.own_isSome_iff _ _).mpr hin
    obtain ⟨v, hv⟩ := Option.isSome_iff_exists.mp hsome
    obtain ⟨n, hvn⟩ := hnum _ (ChartData.own_mem _ _ _ hv)
    simp only at hvn
    subst hvn
    have hval := hgs t.group
    have hv' : (List.foldl (SalesLogPage.addRow inheritedText) [] trends).own t.group
        = some (.num n) := hv
    rw [hv'] at hval
    simp only [Option.map_some', Option.getD_some, ChartVal.toInt, ChartData.own,
      List.find?_nil, Option.map_none', Option.getD_none, Int.zero_add] at hval
    unfold ChartData.get
    rw [hv, hval]
  · simp [SalesLogPage.lobBars, hperm.length_eq, hlen]
  · simp [SalesLogPage.sourcePie, hperm.length_eq, hlen]
  · intro kv hkv
    simp only [SalesLogPage.lobBars, List.mem_map] at hkv
    obtain ⟨e, he, hek⟩ := hkv
    obtain ⟨n, hn⟩ := hnumE e he
    exact ⟨n, by rw [← hek]; exact hn⟩
  · intro kv hkv
    simp only [SalesLogPage.sourcePie, List.mem_map] at hkv
    obtain ⟨e, he, hek⟩ := hkv
    obtain ⟨n, hn⟩ := hnumE e he
    exact ⟨n, by rw [← hek]; exact hn⟩
  · have : (SalesLogPage.lobBars inheritedText trends).map (fun kv => kv.2.toInt)
        = (objectEntries (SalesLogPage.chartData inheritedText trends)).map
            fun kv => kv.2.toInt := by
      simp [SalesLogPage.lobBars, Function.comp]
    rw [this, hsumE]
  · have : (SalesLogPage.sourcePie inheritedText trends).map (fun kv => kv.2.toInt)
        = (objectEntries (SalesLogPage.chartData inheritedText trends)).map
            fun kv => kv.2.toInt := by
      simp [SalesLogPage.sourcePie, Function.comp]
    rw [this, hsumE]

/-- Witness of C27 (amended): three rows of two lines of business. -/
theorem SalesLogPage_chart_sums_witness :
    (∀ t ∈ TrendRow.sample, t.group ∉ objectPrototypeKeys)
    ∧ SalesLogPage.lobBars inheritedText.sample TrendRow.sample
        = [("P. Auto", .num 7), ("Homeowners", .num 2)]
    ∧ ((SalesLogPage.lobBars inheritedText.sample TrendRow.sample).map
          fun kv => kv.2.toInt).sum
        = (TrendRow.sample.map fun t => t.count).sum :=
  ⟨by decide, by decide,
    (SalesLogPage_chart_sums inheritedText.sample TrendRow.sample
      (by decide)).2.2.2.2.2.2.2.1⟩

end Sentinel
